import Mathlib

/-!
# HyTeG: indexing, primitives, geometry maps and vertex kernels

A shallow embedding of parts of the HyTeG finite-element framework:

* `indexing/Optimization.hpp`      (the rectangular "unwrap" of the triangular face layout),
* `indexing/MacroEdgeIndexing.hpp` (edge layout and `EdgeIterator`),
* `primitives/Cell.cpp`            (construction, local index queries, serialisation),
* `geometry/AffineMap3D.hpp`       (affine map, its two constructors and serialisation),
* `p1functionspace/P1Vertex.hpp`   (vertex kernels).

Conventions.  Values of type `uint_t` are natural numbers.  Unsigned subtraction leaves the
range on small operands, so it is modelled with its wrap-around (`usub`); the sums `width + 1`
of `Optimization.hpp`, which leave the range for the largest width, are modelled with theirs
(`uadd`).  Values of type `real_t` are elements of an arbitrary commutative ring or field `R`
(exact arithmetic).  Assertions (`WALBERLA_ASSERT*`) are modelled as active: a function
whose assertion fails returns `none`.
-/

namespace hyteg

/-! ## Unsigned arithmetic -/

/-- Number of values of `uint_t` (a 64 bit unsigned integer). -/
def uintModulus : Nat := 18446744073709551616

/-- Unsigned subtraction `a - b` on `uint_t`: exact when `b ≤ a`, wrapping around otherwise. -/
def usub (a b : Nat) : Nat := if b ≤ a then a - b else a + uintModulus - b

/-- Unsigned subtraction `a - b` on `uint_t` with a check: `none` when it would go below
zero. -/
def usubChecked (a b : Nat) : Option Nat := if b ≤ a then some (a - b) else none

/-- Unsigned addition `a + b` on `uint_t`: the sum wraps around at 2^64. -/
def uadd (a b : Nat) : Nat := (a + b) % uintModulus

/-! ## indexing/Optimization.hpp -/

namespace indexing
namespace optimization

/-- Source: `unwrapNumCols< width >()`. -/
def unwrapNumCols (width : Nat) : Nat :=
  if width % 2 = 0 then uadd width 1 else width

/-- Source: `unwrapNumRows< width >()`. -/
def unwrapNumRows (width : Nat) : Nat :=
  if width % 2 = 0 then width / 2 else uadd width 1 / 2

/-- Source: `unwrapCol< width >( col, row )`. -/
def unwrapCol (width col row : Nat) : Nat :=
  if col ≥ usub width row then usub col (usub width row) else col

/-- Source: `unwrapRow< width >( col, row )`. -/
def unwrapRow (width col row : Nat) : Nat :=
  if width % 2 = 0 then
    if col ≥ usub width row then usub (usub width 1) row else row
  else
    if col ≥ usub width row then usub (usub width 1) (usub row 1) else row

/-- Source: `unwrapCol< width >( col, row )`, evaluated with every unsigned subtraction
checked: the result is `none` when a subtraction that is evaluated would go below zero. -/
def unwrapColChecked (width col row : Nat) : Option Nat :=
  match usubChecked width row with
  | none => none
  | some widthMinusRow =>
    if col ≥ widthMinusRow then usubChecked col widthMinusRow else some col

/-- Source: `unwrapRow< width >( col, row )`, evaluated with every unsigned subtraction
checked: the result is `none` when a subtraction that is evaluated would go below zero.
Only the branch of a conditional expression that is taken is evaluated. -/
def unwrapRowChecked (width col row : Nat) : Option Nat :=
  match usubChecked width row with
  | none => none
  | some widthMinusRow =>
    if width % 2 = 0 then
      if col ≥ widthMinusRow then
        match usubChecked width 1 with
        | none => none
        | some widthMinusOne => usubChecked widthMinusOne row
      else some row
    else
      if col ≥ widthMinusRow then
        match usubChecked width 1, usubChecked row 1 with
        | some widthMinusOne, some rowMinusOne => usubChecked widthMinusOne rowMinusOne
        | _, _ => none
      else some row

end optimization

/-- Modelled from the spec: the row-wise (linear) macro-face index function lives in
`indexing/MacroFaceIndexing.hpp`, which is not part of the sources at hand.  As the layout
diagram in `Optimization.hpp` shows, row `r` of a face of the given width holds `width - r`
entries and rows are stored one after the other, so row `r` starts at
`r * width - r * (r - 1) / 2`. -/
def macroFaceIndex (width col row : Nat) : Nat :=
  row * width - row * (row - 1) / 2 + col

end indexing

/-! ## indexing/MacroEdgeIndexing.hpp -/

namespace indexing

namespace layout

/-- Source: `layout::linearMacroEdgeSize< width >()`. -/
def linearMacroEdgeSize (width : Nat) : Nat := width

/-- Source: `layout::linearMacroEdgeIndex< width >( col )`. -/
def linearMacroEdgeIndex (_width col : Nat) : Nat := col

end layout

/-- Source: `macroEdgeSize< width >()`. -/
def macroEdgeSize (width : Nat) : Nat := layout.linearMacroEdgeSize width

/-- Source: `macroEdgeIndex< width >( col )`. -/
def macroEdgeIndex (width col : Nat) : Nat := layout.linearMacroEdgeIndex width col

/-- Logical index `(col, row, dep)` of `indexing/Common.hpp`. -/
structure Index where
  col : Nat
  row : Nat
  dep : Nat
deriving DecidableEq, Repr

/-- The data members of class `EdgeIterator`. -/
structure EdgeIterator where
  width_ : Nat
  offsetToCenter_ : Nat
  totalNumberOfDoFs_ : Nat
  step_ : Nat
  coordinates_ : Index
deriving DecidableEq, Repr

namespace EdgeIterator

/-- Source: the constructor `EdgeIterator( width, offsetToCenter, end )`.  The result is
`none` when `WALBERLA_ASSERT_LESS( offsetToCenter, width )` fails. -/
def new (width offsetToCenter : Nat) (isEnd : Bool) : Option EdgeIterator :=
  if offsetToCenter < width then
    some { width_ := width
           offsetToCenter_ := offsetToCenter
           totalNumberOfDoFs_ := usub width (2 * offsetToCenter)
           step_ := if isEnd then usub width (2 * offsetToCenter) else 0
           coordinates_ := { col := offsetToCenter, row := 0, dep := 0 } }
  else none

/-- Source: `EdgeIterator::begin()`. -/
def begin (it : EdgeIterator) : Option EdgeIterator :=
  new it.width_ it.offsetToCenter_ false

/-- Source: `EdgeIterator::end()`. -/
def end_ (it : EdgeIterator) : Option EdgeIterator :=
  new it.width_ it.offsetToCenter_ true

/-- Source: `operator!=`, which compares the step counters only. -/
def ne (it other : EdgeIterator) : Bool := other.step_ != it.step_

/-- Source: `operator*`. -/
def deref (it : EdgeIterator) : Index := it.coordinates_

/-- Source: the prefix `operator++`.  The result is `none` when
`WALBERLA_ASSERT_LESS_EQUAL( step_, totalNumberOfDoFs_ )` fails. -/
def preIncrement (it : EdgeIterator) : Option EdgeIterator :=
  if it.step_ ≤ it.totalNumberOfDoFs_ then
    some { it with step_ := it.step_ + 1
                   coordinates_ := { it.coordinates_ with col := it.coordinates_.col + 1 } }
  else none

/-- The loop `for ( ; it != e; ++it ) visit( *it )`: the coordinates visited, in order.  The
first argument bounds the number of loop iterations; `none` means that the bound was reached
before `it == e`, or that an assertion failed. -/
def forLoop : Nat → EdgeIterator → EdgeIterator → Option (List Index)
  | 0, it, e => if it.ne e then none else some []
  | fuel + 1, it, e =>
    if it.ne e then
      match it.preIncrement with
      | none => none
      | some it' =>
        match forLoop fuel it' e with
        | none => none
        | some rest => some (it.deref :: rest)
    else some []

/-- The range-based loop `for ( const auto & idx : range )`, which runs from `range.begin()`
to `range.end()`. -/
def iterate (fuel : Nat) (range : EdgeIterator) : Option (List Index) :=
  match range.begin, range.end_ with
  | some b, some e => forLoop fuel b e
  | _, _ => none

/-- The iterator after `k` applications of `operator++`. -/
def advance : Nat → EdgeIterator → Option EdgeIterator
  | 0, it => some it
  | k + 1, it =>
    match it.preIncrement with
    | none => none
    | some it' => advance k it'

end EdgeIterator

end indexing

/-! ## Buffers (`walberla::mpi::SendBuffer` / `RecvBuffer`) -/

/-- One entry of a message buffer: an unsigned integer or a floating point value. -/
inductive BufferWord (R : Type) where
  | uint (n : Nat)
  | real (x : R)
deriving DecidableEq, Repr

/-- A buffer is the sequence of its entries.  `operator<<` appends at the end of a send
buffer, `operator>>` reads from the front of a receive buffer. -/
abbrev Buffer (R : Type) := List (BufferWord R)

section Buffers

variable {R : Type} {α β : Type}

/-- Writing a `real_t`. -/
def putReal (x : R) : Buffer R := [BufferWord.real x]

/-- Reading a `real_t`. -/
def getReal : Buffer R → Option (R × Buffer R)
  | BufferWord.real x :: rest => some (x, rest)
  | _ => none

/-- Writing a `uint_t` (or a `PrimitiveID`). -/
def putUInt (n : Nat) : Buffer R := [BufferWord.uint n]

/-- Reading a `uint_t` (or a `PrimitiveID`). -/
def getUInt : Buffer R → Option (Nat × Buffer R)
  | BufferWord.uint n :: rest => some (n, rest)
  | _ => none

/-- Writing a pair: first component, then second component. -/
def putPair (putA : α → Buffer R) (putB : β → Buffer R) (p : α × β) : Buffer R :=
  putA p.1 ++ putB p.2

/-- Reading a pair. -/
def getPair (getA : Buffer R → Option (α × Buffer R)) (getB : Buffer R → Option (β × Buffer R))
    (buf : Buffer R) : Option ((α × β) × Buffer R) :=
  match getA buf with
  | none => none
  | some (a, buf1) =>
    match getB buf1 with
    | none => none
    | some (b, buf2) => some ((a, b), buf2)

/-- Writing the elements of a container one after the other. -/
def putElems (put : α → Buffer R) : List α → Buffer R
  | [] => []
  | x :: xs => put x ++ putElems put xs

/-- Reading a given number of elements. -/
def getElems (get : Buffer R → Option (α × Buffer R)) : Nat → Buffer R → Option (List α × Buffer R)
  | 0, buf => some ([], buf)
  | n + 1, buf =>
    match get buf with
    | none => none
    | some (x, buf1) =>
      match getElems get n buf1 with
      | none => none
      | some (xs, buf2) => some (x :: xs, buf2)

/-- Writing a `std::vector` or `std::map`: the number of elements, then the elements. -/
def putContainer (put : α → Buffer R) (xs : List α) : Buffer R :=
  putUInt xs.length ++ putElems put xs

/-- Reading a `std::vector` or `std::map`. -/
def getContainer (get : Buffer R → Option (α × Buffer R)) (buf : Buffer R) :
    Option (List α × Buffer R) :=
  match getUInt buf with
  | none => none
  | some (n, buf1) => getElems get n buf1

/-- Writing a `std::array< T, N >`: its `N` elements in order. -/
def putArray (put : α → Buffer R) : (n : Nat) → (Fin n → α) → Buffer R
  | 0, _ => []
  | n + 1, a => put (a 0) ++ putArray put n (fun i => a i.succ)

/-- Reading a `std::array< T, N >`: its `N` elements in order. -/
def getArray (get : Buffer R → Option (α × Buffer R)) :
    (n : Nat) → Buffer R → Option ((Fin n → α) × Buffer R)
  | 0, buf => some (Fin.elim0, buf)
  | n + 1, buf =>
    match get buf with
    | none => none
    | some (x, buf1) =>
      match getArray get n buf1 with
      | none => none
      | some (a, buf2) => some (Fin.cons x a, buf2)

end Buffers

/-! ## Points and matrices -/

/-- `Point3D`: three coordinates. -/
abbrev Point3D (R : Type) := Fin 3 → R

/-- `Matrix3r`: entry `( i, j )` is `m i j`. -/
abbrev Matrix3r (R : Type) := Fin 3 → Fin 3 → R

/-- Writing a `Point3D`: its three coordinates. -/
def putPoint3D {R : Type} (p : Point3D R) : Buffer R :=
  putArray putReal 3 p

/-- Reading a `Point3D`. -/
def getPoint3D {R : Type} (buf : Buffer R) : Option (Point3D R × Buffer R) :=
  getArray getReal 3 buf

/-! ## primitives/Cell.cpp -/

/-- `PrimitiveID`. -/
abbrev PrimitiveID := Nat

/-- A `std::map< uint_t, uint_t >`: its entries in key order. -/
abbrev LocalVertexMap := List (Nat × Nat)

/-- `std::numeric_limits< uint_t >::max()`. -/
def uintMax : Nat := uintModulus - 1

/-- The data members of class `Cell`, those inherited from `Primitive` included.
Modelled from the spec: the member declarations are in `Cell.hpp` and `Primitive.hpp`, which
are not part of the sources at hand; the neighbor lists are `std::vector< PrimitiveID >`, the
indirect neighbors over vertices are a `std::vector< PrimitiveID >` and those over faces a
`std::map< uint_t, PrimitiveID >`. -/
structure Cell (R : Type) where
  primitiveID_ : PrimitiveID
  neighborVertices_ : List PrimitiveID
  neighborEdges_ : List PrimitiveID
  neighborFaces_ : List PrimitiveID
  neighborCells_ : List PrimitiveID
  coordinates_ : Fin 4 → Point3D R
  edgeLocalVertexToCellLocalVertexMaps_ : Fin 6 → LocalVertexMap
  faceLocalVertexToCellLocalVertexMaps_ : Fin 4 → LocalVertexMap
  faceInwardNormals_ : Fin 4 → Point3D R
  indirectNeighborCellIDsOverVertices_ : List PrimitiveID
  indirectNeighborCellIDsOverFaces_ : List (Nat × PrimitiveID)

namespace Cell

variable {R : Type}

/-- Source: the constructor `Cell::Cell`.  The result is `none` when one of its assertions
fails.  The function `tetrahedronInwardNormal` of `geometry/Intersection.hpp` is a parameter. -/
def new (tetrahedronInwardNormal : Point3D R → Point3D R → Point3D R → Point3D R → Point3D R)
    (primitiveID : PrimitiveID) (vertexIDs edgeIDs faceIDs : List PrimitiveID)
    (coordinates : Fin 4 → Point3D R)
    (edgeLocalVertexToCellLocalVertexMaps : Fin 6 → LocalVertexMap)
    (faceLocalVertexToCellLocalVertexMaps : Fin 4 → LocalVertexMap) : Option (Cell R) :=
  if vertexIDs.length = 4 ∧ edgeIDs.length = 6 ∧ faceIDs.length = 4 ∧
      (edgeLocalVertexToCellLocalVertexMaps 0).length = 2 ∧
      (edgeLocalVertexToCellLocalVertexMaps 1).length = 2 ∧
      (edgeLocalVertexToCellLocalVertexMaps 2).length = 2 ∧
      (edgeLocalVertexToCellLocalVertexMaps 3).length = 2 ∧
      (edgeLocalVertexToCellLocalVertexMaps 4).length = 2 ∧
      (edgeLocalVertexToCellLocalVertexMaps 5).length = 2 ∧
      (faceLocalVertexToCellLocalVertexMaps 0).length = 3 ∧
      (faceLocalVertexToCellLocalVertexMaps 1).length = 3 ∧
      (faceLocalVertexToCellLocalVertexMaps 2).length = 3 ∧
      (faceLocalVertexToCellLocalVertexMaps 3).length = 3 then
    some { primitiveID_ := primitiveID
           neighborVertices_ := vertexIDs
           neighborEdges_ := edgeIDs
           neighborFaces_ := faceIDs
           neighborCells_ := []
           coordinates_ := coordinates
           edgeLocalVertexToCellLocalVertexMaps_ := edgeLocalVertexToCellLocalVertexMaps
           faceLocalVertexToCellLocalVertexMaps_ := faceLocalVertexToCellLocalVertexMaps
           faceInwardNormals_ := fun i =>
             match i with
             | 0 => tetrahedronInwardNormal (coordinates 1) (coordinates 2) (coordinates 3) (coordinates 0)
             | 1 => tetrahedronInwardNormal (coordinates 0) (coordinates 2) (coordinates 3) (coordinates 1)
             | 2 => tetrahedronInwardNormal (coordinates 1) (coordinates 0) (coordinates 3) (coordinates 2)
             | 3 => tetrahedronInwardNormal (coordinates 1) (coordinates 2) (coordinates 0) (coordinates 3)
           indirectNeighborCellIDsOverVertices_ := []
           indirectNeighborCellIDsOverFaces_ := [] }
  else none

/-- Modelled from the spec: `Primitive::neighborPrimitiveExists` is defined in
`Primitive.cpp`, which is not part of the sources at hand; it tells whether the ID is among
the neighbor vertices, edges, faces or cells of the primitive. -/
def neighborPrimitiveExists (c : Cell R) (id : PrimitiveID) : Bool :=
  decide (id ∈ c.neighborVertices_) || decide (id ∈ c.neighborEdges_) ||
    decide (id ∈ c.neighborFaces_) || decide (id ∈ c.neighborCells_)

/-- Modelled from the spec: `Primitive::getNumNeighborVertices` is defined in `Primitive.hpp`,
which is not part of the sources at hand; it is the size of the vertex neighbor list. -/
def getNumNeighborVertices (c : Cell R) : Nat := c.neighborVertices_.length

/-- The loop shared by the three local index queries:
`for ( i = 0; i < bound; i++ ) if ( ids[i] == id ) return i;` followed by
`return std::numeric_limits< uint_t >::max();`. -/
def localIDLoop (ids : List PrimitiveID) (id : PrimitiveID) (bound : Nat) : Nat :=
  match (List.range bound).find? (fun i => ids[i]? == some id) with
  | some i => i
  | none => uintMax

/-- Source: `Cell::getLocalFaceID`; `none` when the assertion fails. -/
def getLocalFaceID (c : Cell R) (faceID : PrimitiveID) : Option Nat :=
  if c.neighborPrimitiveExists faceID then some (localIDLoop c.neighborFaces_ faceID 4) else none

/-- Source: `Cell::getLocalEdgeID`; `none` when the assertion fails. -/
def getLocalEdgeID (c : Cell R) (edgeID : PrimitiveID) : Option Nat :=
  if c.neighborPrimitiveExists edgeID then some (localIDLoop c.neighborEdges_ edgeID 6) else none

/-- Source: `Cell::getLocalVertexID`; `none` when the assertion fails. -/
def getLocalVertexID (c : Cell R) (vertexID : PrimitiveID) : Option Nat :=
  if c.neighborPrimitiveExists vertexID then
    some (localIDLoop c.neighborVertices_ vertexID c.getNumNeighborVertices)
  else none

/-- Source: `Cell::serializeSubclass`. -/
def serializeSubclass (c : Cell R) (sendBuffer : Buffer R) : Buffer R :=
  let sendBuffer := sendBuffer ++ putArray putPoint3D 4 c.coordinates_
  let sendBuffer := sendBuffer ++
    putArray (putContainer (putPair putUInt putUInt)) 6 c.edgeLocalVertexToCellLocalVertexMaps_
  let sendBuffer := sendBuffer ++
    putArray (putContainer (putPair putUInt putUInt)) 4 c.faceLocalVertexToCellLocalVertexMaps_
  let sendBuffer := sendBuffer ++ putArray putPoint3D 4 c.faceInwardNormals_
  let sendBuffer := sendBuffer ++ putContainer putUInt c.indirectNeighborCellIDsOverVertices_
  sendBuffer ++ putContainer (putPair putUInt putUInt) c.indirectNeighborCellIDsOverFaces_

/-- Source: `Cell::deserializeSubclass`.  The result is the cell after the call together with
the unread rest of the buffer, or `none` when the buffer does not hold the expected data. -/
def deserializeSubclass (c : Cell R) (recvBuffer : Buffer R) : Option (Cell R × Buffer R) :=
  match getArray getPoint3D 4 recvBuffer with
  | none => none
  | some (coordinates, buf1) =>
  match getArray (getContainer (getPair getUInt getUInt)) 6 buf1 with
  | none => none
  | some (edgeMaps, buf2) =>
  match getArray (getContainer (getPair getUInt getUInt)) 4 buf2 with
  | none => none
  | some (faceMaps, buf3) =>
  match getArray getPoint3D 4 buf3 with
  | none => none
  | some (normals, buf4) =>
  match getContainer getUInt buf4 with
  | none => none
  | some (overVertices, buf5) =>
  match getContainer (getPair getUInt getUInt) buf5 with
  | none => none
  | some (overFaces, buf6) =>
    some ({ c with coordinates_ := coordinates
                   edgeLocalVertexToCellLocalVertexMaps_ := edgeMaps
                   faceLocalVertexToCellLocalVertexMaps_ := faceMaps
                   faceInwardNormals_ := normals
                   indirectNeighborCellIDsOverVertices_ := overVertices
                   indirectNeighborCellIDsOverFaces_ := overFaces }, buf6)

/-- The matrix `mat` that `Cell::getVolume` fills: row `rowIdx` holds the three coordinates
of vertex `rowIdx` followed by 1. -/
def getVolumeMatrix [One R] (c : Cell R) : Matrix (Fin 4) (Fin 4) R :=
  Matrix.of fun rowIdx colIdx =>
    if h : colIdx.val < 3 then c.coordinates_ rowIdx ⟨colIdx.val, h⟩ else 1

/-- Source: `Cell::getVolume`; `determinant()` is the determinant of the matrix. -/
def getVolume [LinearOrderedField R] (c : Cell R) : R :=
  |c.getVolumeMatrix.det| / 6

/-- Source: `Cell::getInsphereRadius`; `cross` is the cross product, and the Euclidean norm
`norm()` of the linear algebra library is the parameter `norm`. -/
def getInsphereRadius [LinearOrderedField R] (norm : Point3D R → R) (cell : Cell R) : R :=
  let a := cell.coordinates_ 0
  let b := cell.coordinates_ 1
  let c := cell.coordinates_ 2
  let d := cell.coordinates_ 3
  let lengthNormalABC := norm (crossProduct (b - a) (c - a))
  let lengthNormalABD := norm (crossProduct (b - a) (d - a))
  let lengthNormalACD := norm (crossProduct (c - a) (d - a))
  let lengthNormalBCD := norm (crossProduct (c - b) (d - b))
  6 * cell.getVolume / (lengthNormalABC + lengthNormalABD + lengthNormalACD + lengthNormalBCD)

end Cell

/-- The statement that a local index query inverts indexing into the neighbor list `ids` of
length `bound`: for every ID of the list the query returns the least position at which the
list holds the ID, and when the IDs of the list are pairwise distinct the query applied to
the entry at position `i` returns `i`. -/
def InvertsIndexing (ids : List PrimitiveID) (bound : Nat) (query : PrimitiveID → Option Nat) :
    Prop :=
  (∀ id ∈ ids, ∃ k, query id = some k ∧ k < bound ∧ ids[k]? = some id ∧
      ∀ j, j < k → ids[j]? ≠ some id) ∧
  (ids.Nodup → ∀ i, i < bound → ∃ id, ids[i]? = some id ∧ query id = some i)

/-- The statement about a local index query over the neighbor list `ids` of length `bound`,
guarded by the assertion `asserted`: the query returns a valid local index (below `bound`)
exactly for the IDs of the list; for every other ID that passes the assertion it returns
`std::numeric_limits< uint_t >::max()`; and for an ID that fails the assertion it does not
return. -/
def SentinelUnlessListed (asserted : PrimitiveID → Bool) (ids : List PrimitiveID) (bound : Nat)
    (query : PrimitiveID → Option Nat) : Prop :=
  (∀ id, (∃ k, query id = some k ∧ k < bound) ↔ id ∈ ids) ∧
  (∀ id, id ∉ ids → asserted id = true → query id = some uintMax) ∧
  (∀ id, asserted id = false → query id = none)

/-- The statement that reading undoes writing: `get` applied to a buffer that starts with what
`put` wrote for `a` returns `a` and the rest of the buffer. -/
def RoundTrips {R α : Type} (put : α → Buffer R) (get : Buffer R → Option (α × Buffer R)) :
    Prop :=
  ∀ (a : α) (rest : Buffer R), get (put a ++ rest) = some (a, rest)

/-! ## Aborting calls -/

/-- How a call that may run into `WALBERLA_ABORT` ends: it aborts the program with a message,
or it returns a value. -/
inductive Outcome (α : Type) where
  | aborted (message : String)
  | returned (value : α)
deriving DecidableEq, Repr

/-- `Matrix2r`: entry `( i, j )` is `m i j`. -/
abbrev Matrix2r (R : Type) := Fin 2 → Fin 2 → R

/-! ## geometry/AffineMap3D.hpp -/

/-- The data members of class `AffineMap3D`. -/
structure AffineMap3D (R : Type) where
  mat_ : Matrix3r R
  vec_ : Point3D R
  jacDet_ : R

namespace AffineMap3D

variable {R : Type}

/-- Source: the constructor `AffineMap3D( mat, vec )`, which precomputes the Jacobian
determinant. -/
def new [Ring R] (mat : Matrix3r R) (vec : Point3D R) : AffineMap3D R :=
  let tmp1 := mat 0 0 * mat 1 1 * mat 2 2
  let tmp2 := -mat 0 0 * mat 2 1 * mat 1 2
  let tmp3 := -mat 1 0 * mat 0 1 * mat 2 2
  let tmp4 := mat 1 0 * mat 2 1 * mat 0 2
  let tmp5 := mat 2 0 * mat 0 1 * mat 1 2
  let tmp6 := -mat 2 0 * mat 1 1 * mat 0 2
  { mat_ := mat, vec_ := vec, jacDet_ := tmp1 + tmp2 + tmp3 + tmp4 + tmp5 + tmp6 }

/-- Source: the constructor `AffineMap3D( recvBuffer )`.  It reads the nine matrix entries row
by row and then the three vector components; it does not assign `jacDet_`, which keeps the
indeterminate content `uninitialized` of the fresh object.  The result is the map together
with the unread rest of the buffer. -/
def fromRecvBuffer (uninitialized : R) (recvBuffer : Buffer R) :
    Option (AffineMap3D R × Buffer R) :=
  match getArray (getArray getReal 3) 3 recvBuffer with
  | none => none
  | some (mat, buf1) =>
  match getReal buf1 with
  | none => none
  | some (v0, buf2) =>
  match getReal buf2 with
  | none => none
  | some (v1, buf3) =>
  match getReal buf3 with
  | none => none
  | some (v2, buf4) =>
    some ({ mat_ := mat, vec_ := fun i => match i with | 0 => v0 | 1 => v1 | 2 => v2,
            jacDet_ := uninitialized }, buf4)

/-- Source: `AffineMap3D::evalF`; the result is `xnew`. -/
def evalF [Ring R] (m : AffineMap3D R) (xold : Point3D R) : Point3D R :=
  fun i => match i with
    | 0 => m.mat_ 0 0 * xold 0 + m.mat_ 0 1 * xold 1 + m.mat_ 0 2 * xold 2 + m.vec_ 0
    | 1 => m.mat_ 1 0 * xold 0 + m.mat_ 1 1 * xold 1 + m.mat_ 1 2 * xold 2 + m.vec_ 1
    | 2 => m.mat_ 2 0 * xold 0 + m.mat_ 2 1 * xold 1 + m.mat_ 2 2 * xold 2 + m.vec_ 2

/-- Source: `AffineMap3D::evalDF` (3D): the matrix written to `DFx` and the returned value. -/
def evalDF (m : AffineMap3D R) (_x : Point3D R) : Matrix3r R × R :=
  (m.mat_, m.jacDet_)

/-- Source: `AffineMap3D::serializeSubClass`.  The value of the enumerator `Type::AFFINE_3D`
of `GeometryMap.hpp` is the parameter `affine3DTag`. -/
def serializeSubClass (affine3DTag : Nat) (m : AffineMap3D R) (sendBuffer : Buffer R) :
    Buffer R :=
  let sendBuffer := sendBuffer ++ putUInt affine3DTag
  let sendBuffer := sendBuffer ++ putArray (putArray putReal 3) 3 m.mat_
  sendBuffer ++ putReal (m.vec_ 0) ++ putReal (m.vec_ 1) ++ putReal (m.vec_ 2)

/-- Source: `AffineMap3D::evalDF` with a 2D matrix argument; a returned value would be the
content of `DFx` after the call. -/
def evalDF2D (_m : AffineMap3D R) (_x : Point3D R) (_DFx : Matrix2r R) : Outcome (Matrix2r R) :=
  Outcome.aborted "AffineMap3D::evalDF unimplemented for 2D!"

/-- Source: `AffineMap3D::evalDFinv` with a 2D matrix argument; a returned value would be the
content of `DFinvx` after the call. -/
def evalDFinv2D (_m : AffineMap3D R) (_x : Point3D R) (_DFinvx : Matrix2r R) :
    Outcome (Matrix2r R) :=
  Outcome.aborted "AffineMap3D::evalDFinv unimplemented for 2D!"

end AffineMap3D

/-! ## p1functionspace/P1Vertex.hpp -/

/-- `UpdateType`. -/
inductive UpdateType where
  | Replace
  | Add
deriving DecidableEq, Repr

/-- A macro vertex with the data attached to it: `functionMemory id level i` is
`vertex.getData( id )->data[level][i]` for a function memory ID, `stencilMemory` the same for
a stencil memory ID.  Entry 0 of a function array is the DoF of the vertex itself, entry
`i + 1` the ghost copy of the DoF on the `i`-th neighbor edge.  A data ID identifies one data
item of the vertex whatever its type, so that the arrays of a bubble function or of a
bubble-to-P1 stencil are found under their own IDs in the same two tables. -/
structure Vertex (R : Type) where
  numNeighborEdges : Nat
  numNeighborFaces : Nat
  functionMemory : Nat → Nat → Nat → R
  stencilMemory : Nat → Nat → Nat → R

namespace Vertex

variable {R : Type}

/-- Source: `vertex.getNumNeighborEdges()`. -/
def getNumNeighborEdges (vertex : Vertex R) : Nat := vertex.numNeighborEdges

/-- Source: `vertex.getNumNeighborFaces()`. -/
def getNumNeighborFaces (vertex : Vertex R) : Nat := vertex.numNeighborFaces

/-- The assignment `vertex.getData( id )->data[level][i] = value`. -/
def write (vertex : Vertex R) (id level i : Nat) (value : R) : Vertex R :=
  { vertex with functionMemory := fun id' level' i' =>
      if id' = id ∧ level' = level ∧ i' = i then value else vertex.functionMemory id' level' i' }

/-- The vertex whose array `vertex.getData( id )->data[level]` holds `values` and whose other
data is that of `vertex`. -/
def setArray (vertex : Vertex R) (id level : Nat) (values : Nat → R) : Vertex R :=
  { vertex with functionMemory := fun id' level' i' =>
      if id' = id ∧ level' = level then values i' else vertex.functionMemory id' level' i' }

/-- The statement that `after` differs from `before` at most in entry 0 of the array
`getData( id )->data[level]`: the numbers of neighbors, all stencil arrays, all other function
arrays and levels, and all other entries of that array (the ghost entries) are the same. -/
def OnlyEntryZeroModified (before after : Vertex R) (id level : Nat) : Prop :=
  after.numNeighborEdges = before.numNeighborEdges ∧
  after.numNeighborFaces = before.numNeighborFaces ∧
  after.stencilMemory = before.stencilMemory ∧
  ∀ id' level' i', ¬ (id' = id ∧ level' = level ∧ i' = 0) →
    after.functionMemory id' level' i' = before.functionMemory id' level' i'

end Vertex

namespace P1Vertex

variable {R : Type}

/-- Source: `P1Vertex::interpolate`; `coordinates` is `vertex.getCoordinates()`. -/
def interpolate {P : Type} (vertex : Vertex R) (coordinates : P) (vertexMemoryId : Nat)
    (expr : P → R) (level : Nat) : Vertex R :=
  vertex.write vertexMemoryId level 0 (expr coordinates)

/-- Source: `P1Vertex::enumerate`; the result is the vertex and the counter `num` after the
call. -/
def enumerate [NatCast R] (vertex : Vertex R) (dstId level : Nat) (num : Nat) : Vertex R × Nat :=
  (vertex.write dstId level 0 (num : R), num + 1)

/-- Source: `P1Vertex::apply`. -/
def apply [Ring R] (vertex : Vertex R) (operatorId srcId dstId level : Nat)
    (update : UpdateType) : Vertex R :=
  let opr_data := vertex.stencilMemory operatorId level
  let vertex :=
    match update with
    | UpdateType.Replace =>
      vertex.write dstId level 0 (opr_data 0 * vertex.functionMemory srcId level 0)
    | UpdateType.Add =>
      vertex.write dstId level 0
        (vertex.functionMemory dstId level 0 + opr_data 0 * vertex.functionMemory srcId level 0)
  (List.range vertex.getNumNeighborEdges).foldl
    (fun vertex i =>
      vertex.write dstId level 0
        (vertex.functionMemory dstId level 0
          + opr_data (i + 1) * vertex.functionMemory srcId level (i + 1)))
    vertex

/-- Source: `P1Vertex::assign`.  The result is `none` when the kernel reads `scalars[i]` or
`srcIds[i]` out of range (`srcIds` empty, or fewer scalars than sources). -/
def assign [Ring R] (vertex : Vertex R) (scalars : List R) (srcIds : List Nat)
    (dstId level : Nat) : Option (Vertex R) :=
  if 0 < srcIds.length ∧ srcIds.length ≤ scalars.length then
    let tmp := scalars.getD 0 0 * vertex.functionMemory (srcIds.getD 0 0) level 0
    let tmp := (List.range' 1 (srcIds.length - 1)).foldl
      (fun tmp i => tmp + scalars.getD i 0 * vertex.functionMemory (srcIds.getD i 0) level 0) tmp
    some (vertex.write dstId level 0 tmp)
  else none

/-- Source: `P1Vertex::add`.  The result is `none` when the kernel reads `scalars[i]` out of
range (fewer scalars than sources). -/
def add [Ring R] (vertex : Vertex R) (scalars : List R) (srcIds : List Nat)
    (dstId level : Nat) : Option (Vertex R) :=
  if srcIds.length ≤ scalars.length then
    let tmp := (List.range' 0 srcIds.length).foldl
      (fun tmp i => tmp + scalars.getD i 0 * vertex.functionMemory (srcIds.getD i 0) level 0) 0
    some (vertex.write dstId level 0 (vertex.functionMemory dstId level 0 + tmp))
  else none

/-- Source: `P1Vertex::dot`. -/
def dot [Ring R] (vertex : Vertex R) (lhsMemoryId rhsMemoryId level : Nat) : R :=
  vertex.functionMemory lhsMemoryId level 0 * vertex.functionMemory rhsMemoryId level 0

/-- Source: `P1Vertex::smooth_gs`. -/
def smooth_gs [Field R] (vertex : Vertex R) (operatorId dstId rhsId level : Nat) : Vertex R :=
  let opr_data := vertex.stencilMemory operatorId level
  let vertex := vertex.write dstId level 0 (vertex.functionMemory rhsId level 0)
  let vertex := (List.range vertex.getNumNeighborEdges).foldl
    (fun vertex i =>
      vertex.write dstId level 0
        (vertex.functionMemory dstId level 0
          - opr_data (i + 1) * vertex.functionMemory dstId level (i + 1)))
    vertex
  vertex.write dstId level 0 (vertex.functionMemory dstId level 0 / opr_data 0)

/-- Source: `P1Vertex::smooth_jac`. -/
def smooth_jac [Field R] (vertex : Vertex R) (operatorId dstId rhsId tmpId level : Nat) :
    Vertex R :=
  let opr_data := vertex.stencilMemory operatorId level
  let vertex := vertex.write dstId level 0 (vertex.functionMemory rhsId level 0)
  let vertex := (List.range vertex.getNumNeighborEdges).foldl
    (fun vertex i =>
      vertex.write dstId level 0
        (vertex.functionMemory dstId level 0
          - opr_data (i + 1) * vertex.functionMemory tmpId level (i + 1)))
    vertex
  vertex.write dstId level 0 (vertex.functionMemory dstId level 0 / opr_data 0)

/-- Source: `P1Vertex::prolongate`. -/
def prolongate (vertex : Vertex R) (memoryId sourceLevel : Nat) : Vertex R :=
  vertex.write memoryId (sourceLevel + 1) 0 (vertex.functionMemory memoryId sourceLevel 0)

/-- Source: `P1Vertex::prolongateQuadratic`. -/
def prolongateQuadratic (vertex : Vertex R) (memoryId level : Nat) : Vertex R :=
  prolongate vertex memoryId level

/-- The loop of `P1Vertex::restrict`, entered with loop variable `i`:
`for ( ; i < vertex.getNumNeighborEdges(); ++i ) { c[0] += 0.5 * f[i+1]; i += 1; }`,
where `f` is the array of the given level and `c` the array of the level below. -/
def restrictLoop [Field R] (memoryId level : Nat) (i : Nat) (vertex : Vertex R) : Vertex R :=
  if i < vertex.numNeighborEdges then
    restrictLoop memoryId level (i + 1 + 1)
      (vertex.write memoryId (usub level 1) 0
        (vertex.functionMemory memoryId (usub level 1) 0
          + 1 / 2 * vertex.functionMemory memoryId level (i + 1)))
  else vertex
termination_by vertex.numNeighborEdges - i
decreasing_by
  simp only [Vertex.write]
  omega

/-- Source: `P1Vertex::restrict`. -/
def restrict [Field R] (vertex : Vertex R) (memoryId level : Nat) : Vertex R :=
  let vertex := vertex.write memoryId (usub level 1) 0 (vertex.functionMemory memoryId level 0)
  restrictLoop memoryId level 0 vertex

end P1Vertex

/-! ## mixedoperators/BubbleToP1/BubbleToP1Vertex.hpp -/

namespace BubbleToP1Vertex

variable {R : Type}

/-- Source: `BubbleToP1Vertex::apply`. -/
def apply [Ring R] (vertex : Vertex R) (operatorId srcId dstId level : Nat)
    (update : UpdateType) : Vertex R :=
  let opr_data := vertex.stencilMemory operatorId level
  let src := vertex.functionMemory srcId level
  let tmp := (List.range vertex.getNumNeighborFaces).foldl
    (fun tmp i => tmp + opr_data i * src i) 0
  match update with
  | UpdateType.Replace => vertex.write dstId level 0 tmp
  | UpdateType.Add => vertex.write dstId level 0 (vertex.functionMemory dstId level 0 + tmp)

end BubbleToP1Vertex

/-! ## n1e1functionspace/N1E1VectorFunction.cpp -/

/-- An instance of the class template `N1E1VectorFunction< ValueType >`, as far as its member
functions depend on it.  `R` is `real_t`, `S` is `ValueType`, `V` is `VectorType` and `D` is the
state of all DoFs of the function on all primitives.  `valueTypeIsReal` is
`std::is_same< ValueType, real_t >::value`.  The other fields are what the member functions
call once they have passed the test of the value type: `evaluateReal`, ...,
`interpolateExtendedBoundaryReal` are the `else` branches of the guarded member functions,
which run kernels of `N1E1MacroEdge.hpp`, `N1E1MacroFace.hpp` and `N1E1MacroCell.hpp`;
`getDoFs` is `function.getDoFs()`; `dofsAssign`, `dofsAdd` and `dofsMultElementwise` are the
member functions of `EdgeDoFFunction< ValueType >` called on `dofs_`.  None of the callees is
part of the sources at hand.  Functions are referred to by a number, a DoF flag, a boundary
UID and a cell type are numbers. -/
structure N1E1VectorFunction (R S V D : Type) where
  valueTypeIsReal : Bool
  evaluateReal : Point3D R → Nat → V → R → D → Bool × V
  evaluateOnMicroElementReal : Point3D R → Nat → PrimitiveID → indexing.Index → Nat → V → D → V
  addVectorReal : V → Nat → Nat → D → D
  interpolateConstantReal : V → Nat → Nat → D → D
  interpolateConstantBoundaryReal : V → Nat → Nat → D → D
  interpolateExtendedReal : (Point3D R → List V → V) → List Nat → Nat → Nat → D → D
  interpolateExtendedBoundaryReal : (Point3D R → List V → V) → List Nat → Nat → Nat → D → D
  getDoFs : Nat → Nat
  dofsAssign : List S → List Nat → Nat → Nat → D → Outcome Unit × D
  dofsAdd : List S → List Nat → Nat → Nat → D → Outcome Unit × D
  dofsMultElementwise : List Nat → Nat → Nat → D → Outcome Unit × D

namespace N1E1VectorFunction

variable {R S V D : Type}

/-- Source: `N1E1VectorFunction::evaluate`.  The result is how the call ends (with the
returned flag and the content of `value`) and the state of the DoFs afterwards. -/
def evaluate (f : N1E1VectorFunction R S V D) (physicalCoords : Point3D R) (level : Nat)
    (value : V) (searchToleranceRadius : R) (dofs : D) : Outcome (Bool × V) × D :=
  if !f.valueTypeIsReal then
    (Outcome.aborted
      "N1E1VectorFunction< ValueType >::evaluate not implemented for requested template parameter",
      dofs)
  else
    (Outcome.returned (f.evaluateReal physicalCoords level value searchToleranceRadius dofs), dofs)

/-- Source: `N1E1VectorFunction::evaluateOnMicroElement`. -/
def evaluateOnMicroElement (f : N1E1VectorFunction R S V D) (xComp : Point3D R) (level : Nat)
    (cellID : PrimitiveID) (elementIndex : indexing.Index) (cellType : Nat) (value : V)
    (dofs : D) : Outcome V × D :=
  if !f.valueTypeIsReal then
    (Outcome.aborted
      "N1E1VectorFunction< ValueType >::evaluateOnMicroElement not implemented for requested template parameter",
      dofs)
  else
    (Outcome.returned
      (f.evaluateOnMicroElementReal xComp level cellID elementIndex cellType value dofs), dofs)

/-- Source: `N1E1VectorFunction::assign`. -/
def assign (f : N1E1VectorFunction R S V D) (scalars : List S) (functions : List Nat)
    (level flag : Nat) (dofs : D) : Outcome Unit × D :=
  let dofFunctions := functions.map f.getDoFs
  f.dofsAssign scalars dofFunctions level flag dofs

/-- Source: `N1E1VectorFunction::multElementwise`. -/
def multElementwise (f : N1E1VectorFunction R S V D) (functions : List Nat) (level flag : Nat)
    (dofs : D) : Outcome Unit × D :=
  let dofFunctions := functions.map f.getDoFs
  f.dofsMultElementwise dofFunctions level flag dofs

/-- Source: `N1E1VectorFunction::add( vector, level, flag )`. -/
def addVector (f : N1E1VectorFunction R S V D) (vector : V) (level flag : Nat) (dofs : D) :
    Outcome Unit × D :=
  if !f.valueTypeIsReal then
    (Outcome.aborted
      "N1E1VectorFunction< ValueType >::add not implemented for requested template parameter",
      dofs)
  else
    (Outcome.returned (), f.addVectorReal vector level flag dofs)

/-- Source: `N1E1VectorFunction::add( scalars, functions, level, flag )`. -/
def add (f : N1E1VectorFunction R S V D) (scalars : List S) (functions : List Nat)
    (level flag : Nat) (dofs : D) : Outcome Unit × D :=
  let dofFunctions := functions.map f.getDoFs
  f.dofsAdd scalars dofFunctions level flag dofs

/-- Source: `N1E1VectorFunction::interpolate( constant, level, flag )`. -/
def interpolateConstant (f : N1E1VectorFunction R S V D) (constant : V) (level flag : Nat)
    (dofs : D) : Outcome Unit × D :=
  if !f.valueTypeIsReal then
    (Outcome.aborted
      "N1E1VectorFunction< ValueType >::interpolate not implemented for requested template parameter",
      dofs)
  else
    (Outcome.returned (), f.interpolateConstantReal constant level flag dofs)

/-- Source: `N1E1VectorFunction::interpolate( constant, level, boundaryUID )`. -/
def interpolateConstantBoundary (f : N1E1VectorFunction R S V D) (constant : V)
    (level boundaryUID : Nat) (dofs : D) : Outcome Unit × D :=
  if !f.valueTypeIsReal then
    (Outcome.aborted
      "N1E1VectorFunction< ValueType >::interpolate not implemented for requested template parameter",
      dofs)
  else
    (Outcome.returned (), f.interpolateConstantBoundaryReal constant level boundaryUID dofs)

/-- Source: `N1E1VectorFunction::interpolate( expr, srcFunctions, level, flag )`. -/
def interpolateExtended (f : N1E1VectorFunction R S V D) (expr : Point3D R → List V → V)
    (srcFunctions : List Nat) (level flag : Nat) (dofs : D) : Outcome Unit × D :=
  if !f.valueTypeIsReal then
    (Outcome.aborted
      "N1E1VectorFunction< ValueType >::interpolate not implemented for requested template parameter",
      dofs)
  else
    (Outcome.returned (), f.interpolateExtendedReal expr srcFunctions level flag dofs)

/-- Source: `N1E1VectorFunction::interpolate( expr, srcFunctions, level, boundaryUID )`. -/
def interpolateExtendedBoundary (f : N1E1VectorFunction R S V D)
    (expr : Point3D R → List V → V) (srcFunctions : List Nat) (level boundaryUID : Nat)
    (dofs : D) : Outcome Unit × D :=
  if !f.valueTypeIsReal then
    (Outcome.aborted
      "N1E1VectorFunction< ValueType >::interpolate not implemented for requested template parameter",
      dofs)
  else
    (Outcome.returned (),
      f.interpolateExtendedBoundaryReal expr srcFunctions level boundaryUID dofs)

/-- Source: `N1E1VectorFunction::interpolate( expr, level, flag )`. -/
def interpolateExpr (f : N1E1VectorFunction R S V D) (expr : Point3D R → V) (level flag : Nat)
    (dofs : D) : Outcome Unit × D :=
  let exprExtended : Point3D R → List V → V := fun x _ => expr x
  f.interpolateExtended exprExtended [] level flag dofs

/-- Source: `N1E1VectorFunction::interpolate( expr, level, boundaryUID )`. -/
def interpolateExprBoundary (f : N1E1VectorFunction R S V D) (expr : Point3D R → V)
    (level boundaryUID : Nat) (dofs : D) : Outcome Unit × D :=
  let exprExtended : Point3D R → List V → V := fun x _ => expr x
  f.interpolateExtendedBoundary exprExtended [] level boundaryUID dofs

end N1E1VectorFunction

/-! ## p1functionspace/P1ProjectNormalOperator.cpp -/

/-- The four kinds of primitives. -/
inductive PrimitiveKind where
  | vertex
  | edge
  | face
  | cell
deriving DecidableEq, Repr

/-- A macro primitive as far as the projection operator looks at it: its ID and its mesh
boundary flag. -/
structure MacroPrimitive where
  id : PrimitiveID
  meshBoundaryFlag : Nat
deriving DecidableEq, Repr

/-- The primitive storage: the vertices, edges, faces and cells in the order in which
`getVertices()`, `getEdges()`, `getFaces()` and `getCells()` run through them, and the value
of `hasGlobalCells()`. -/
structure PrimitiveStorage where
  vertices : List MacroPrimitive
  edges : List MacroPrimitive
  faces : List MacroPrimitive
  cells : List MacroPrimitive
  globalCells : Bool
deriving DecidableEq, Repr

/-- Source: `storage_->hasGlobalCells()`. -/
def PrimitiveStorage.hasGlobalCells (storage : PrimitiveStorage) : Bool := storage.globalCells

/-- The calls that the projection operator issues to the communication layer, to the kernels
of `VertexDoFProjectNormal.hpp` and to the matrix assembly, none of which is part of the
sources at hand.  A velocity component is referred to by its number (u, v, w are 0, 1, 2);
`components` lists the components whose data IDs a kernel receives. -/
inductive Event where
  | communicate (component : Nat) (sender receiver : PrimitiveKind) (level : Nat)
  | syncFunctionBetweenPrimitives (component : Nat) (level : Nat)
  | projectNormal3D (kind : PrimitiveKind) (primitive : PrimitiveID) (level : Nat)
      (components : List Nat)
  | projectNormal2D (kind : PrimitiveKind) (primitive : PrimitiveID) (level : Nat)
      (components : List Nat)
  | saveProjectNormalOperator3D (kind : PrimitiveKind) (primitive : PrimitiveID) (level : Nat)
      (components : List Nat)
  | saveProjectNormalOperator2D (kind : PrimitiveKind) (primitive : PrimitiveID) (level : Nat)
      (components : List Nat)
  | saveIdentityOperator (kind : PrimitiveKind) (primitive : PrimitiveID) (component : Nat)
      (level : Nat)
deriving DecidableEq, Repr

/-- The matrix assembly call that stands for a projection kernel call. -/
def Event.toSaved : Event → Event
  | Event.projectNormal3D kind primitive level components =>
    Event.saveProjectNormalOperator3D kind primitive level components
  | Event.projectNormal2D kind primitive level components =>
    Event.saveProjectNormalOperator2D kind primitive level components
  | event => event

namespace P1ProjectNormalOperator

/-- A loop `for ( const auto& x : xs ) body( x )`: the calls issued by the body are appended
to the calls issued so far. -/
def forEach {α : Type} (xs : List α) (body : α → List Event) (log : List Event) : List Event :=
  xs.foldl (fun log x => log ++ body x) log

/-- A loop whose body may run into `WALBERLA_ABORT`, which ends the program. -/
def forEachOrAbort {α : Type} (xs : List α) (body : α → Outcome (List Event))
    (state : Outcome (List Event)) : Outcome (List Event) :=
  xs.foldl
    (fun state x =>
      match state with
      | Outcome.aborted message => Outcome.aborted message
      | Outcome.returned log =>
        match body x with
        | Outcome.aborted message => Outcome.aborted message
        | Outcome.returned events => Outcome.returned (log ++ events))
    state

/-- Source: the body of the loop over the vertices in `project`.  `getBoundaryType` is
`getBoundaryCondition().getBoundaryType` of the destination and `testFlag` the function of that
name; both are parameters. -/
def projectVertex (storage : PrimitiveStorage) (getBoundaryType : Nat → Nat)
    (testFlag : Nat → Nat → Bool) (level flag : Nat) (vertex : MacroPrimitive) : List Event :=
  let vertexBC := getBoundaryType vertex.meshBoundaryFlag
  if testFlag vertexBC flag then
    if storage.hasGlobalCells then
      [Event.projectNormal3D PrimitiveKind.vertex vertex.id level [0, 1, 2]]
    else
      [Event.projectNormal2D PrimitiveKind.vertex vertex.id level [0, 1]]
  else []

/-- Source: the body of the loop over the edges in `project`. -/
def projectEdge (storage : PrimitiveStorage) (getBoundaryType : Nat → Nat)
    (testFlag : Nat → Nat → Bool) (level flag : Nat) (edge : MacroPrimitive) : List Event :=
  let edgeBC := getBoundaryType edge.meshBoundaryFlag
  if testFlag edgeBC flag then
    if storage.hasGlobalCells then
      [Event.projectNormal3D PrimitiveKind.edge edge.id level [0, 1, 2]]
    else
      [Event.projectNormal2D PrimitiveKind.edge edge.id level [0, 1]]
  else []

/-- Source: the body of the loop over the faces in `project`. -/
def projectFace (storage : PrimitiveStorage) (getBoundaryType : Nat → Nat)
    (testFlag : Nat → Nat → Bool) (level flag : Nat) (face : MacroPrimitive) : List Event :=
  let faceBC := getBoundaryType face.meshBoundaryFlag
  if testFlag faceBC flag then
    if storage.hasGlobalCells then
      [Event.projectNormal3D PrimitiveKind.face face.id level [0, 1, 2]]
    else []
  else []

/-- Source: `P1ProjectNormalOperator::project( dst_u, dst_v, dst_w, level, flag )`: the calls
it issues, in order. -/
def project (storage : PrimitiveStorage) (getBoundaryType : Nat → Nat)
    (testFlag : Nat → Nat → Bool) (level flag : Nat) : List Event :=
  let log := forEach storage.vertices (projectVertex storage getBoundaryType testFlag level flag) []
  let log := forEach storage.edges (projectEdge storage getBoundaryType testFlag level flag) log
  forEach storage.faces (projectFace storage getBoundaryType testFlag level flag) log

/-- Source: `P1ProjectNormalOperator::project( dst, level, flag )` for a `P1StokesFunction`;
`dimension` is `dst.uvw().getDimension()`. -/
def projectStokesFunction (storage : PrimitiveStorage) (dimension : Nat)
    (getBoundaryType : Nat → Nat) (testFlag : Nat → Nat → Bool) (level flag : Nat) :
    List Event :=
  let log := forEach (List.range dimension)
    (fun k =>
      [Event.communicate k PrimitiveKind.vertex PrimitiveKind.edge level,
       Event.communicate k PrimitiveKind.edge PrimitiveKind.face level,
       Event.communicate k PrimitiveKind.face PrimitiveKind.cell level]) []
  let log := forEach (List.range dimension)
    (fun k =>
      [Event.communicate k PrimitiveKind.cell PrimitiveKind.face level,
       Event.communicate k PrimitiveKind.face PrimitiveKind.edge level,
       Event.communicate k PrimitiveKind.edge PrimitiveKind.vertex level]) log
  let log := forEach storage.vertices (projectVertex storage getBoundaryType testFlag level flag) log
  let log := forEach storage.edges (projectEdge storage getBoundaryType testFlag level flag) log
  forEach storage.faces (projectFace storage getBoundaryType testFlag level flag) log

/-- Source: `P1ProjectNormalOperator::project( dst, level, flag )` for a `P1VectorFunction`;
`dimension` is `dst.getDimension()`. -/
def projectVectorFunction (storage : PrimitiveStorage) (dimension : Nat)
    (getBoundaryType : Nat → Nat) (testFlag : Nat → Nat → Bool) (level flag : Nat) :
    List Event :=
  let log := forEach (List.range dimension)
    (fun k =>
      [Event.communicate k PrimitiveKind.vertex PrimitiveKind.edge level,
       Event.communicate k PrimitiveKind.edge PrimitiveKind.face level,
       Event.communicate k PrimitiveKind.face PrimitiveKind.cell level]) []
  let log := forEach (List.range dimension)
    (fun k =>
      [Event.communicate k PrimitiveKind.cell PrimitiveKind.face level,
       Event.communicate k PrimitiveKind.face PrimitiveKind.edge level,
       Event.communicate k PrimitiveKind.edge PrimitiveKind.vertex level]) log
  let log := forEach storage.vertices (projectVertex storage getBoundaryType testFlag level flag) log
  let log := forEach storage.edges (projectEdge storage getBoundaryType testFlag level flag) log
  forEach storage.faces (projectFace storage getBoundaryType testFlag level flag) log

/-- Source: the body of the loop over the vertices in `toMatrix`. -/
def toMatrixVertex (storage : PrimitiveStorage) (getBoundaryType : Nat → Nat)
    (testFlag : Nat → Nat → Bool) (level flag : Nat) (vertex : MacroPrimitive) :
    Outcome (List Event) :=
  let vertexBC := getBoundaryType vertex.meshBoundaryFlag
  if testFlag vertexBC flag then
    if storage.hasGlobalCells then
      Outcome.returned
        [Event.saveProjectNormalOperator3D PrimitiveKind.vertex vertex.id level [0, 1, 2]]
    else
      Outcome.returned
        [Event.saveProjectNormalOperator2D PrimitiveKind.vertex vertex.id level [0, 1]]
  else
    let log := [Event.saveIdentityOperator PrimitiveKind.vertex vertex.id 0 level,
                Event.saveIdentityOperator PrimitiveKind.vertex vertex.id 1 level]
    if storage.hasGlobalCells then
      Outcome.returned (log ++ [Event.saveIdentityOperator PrimitiveKind.vertex vertex.id 2 level])
    else Outcome.returned log

/-- Source: the body of the loop over the edges in `toMatrix`. -/
def toMatrixEdge (storage : PrimitiveStorage) (getBoundaryType : Nat → Nat)
    (testFlag : Nat → Nat → Bool) (level flag : Nat) (edge : MacroPrimitive) :
    Outcome (List Event) :=
  let edgeBC := getBoundaryType edge.meshBoundaryFlag
  if testFlag edgeBC flag then
    if storage.hasGlobalCells then
      Outcome.returned
        [Event.saveProjectNormalOperator3D PrimitiveKind.edge edge.id level [0, 1, 2]]
    else
      Outcome.returned
        [Event.saveProjectNormalOperator2D PrimitiveKind.edge edge.id level [0, 1]]
  else
    let log := [Event.saveIdentityOperator PrimitiveKind.edge edge.id 0 level,
                Event.saveIdentityOperator PrimitiveKind.edge edge.id 1 level]
    if storage.hasGlobalCells then
      Outcome.returned (log ++ [Event.saveIdentityOperator PrimitiveKind.edge edge.id 2 level])
    else Outcome.returned log

/-- Source: the body of the loop over the faces in `toMatrix`. -/
def toMatrixFace (storage : PrimitiveStorage) (getBoundaryType : Nat → Nat)
    (testFlag : Nat → Nat → Bool) (level flag : Nat) (face : MacroPrimitive) :
    Outcome (List Event) :=
  let faceBC := getBoundaryType face.meshBoundaryFlag
  if testFlag faceBC flag then
    if storage.hasGlobalCells then
      Outcome.returned
        [Event.saveProjectNormalOperator3D PrimitiveKind.face face.id level [0, 1, 2]]
    else
      Outcome.aborted "Normal projection for inner primitives?"
  else
    let log := [Event.saveIdentityOperator PrimitiveKind.face face.id 0 level,
                Event.saveIdentityOperator PrimitiveKind.face face.id 1 level]
    if storage.hasGlobalCells then
      Outcome.returned (log ++ [Event.saveIdentityOperator PrimitiveKind.face face.id 2 level])
    else Outcome.returned log

/-- Source: the body of the loop over the cells in `toMatrix`. -/
def toMatrixCell (level : Nat) (cell : MacroPrimitive) : Outcome (List Event) :=
  Outcome.returned
    [Event.saveIdentityOperator PrimitiveKind.cell cell.id 0 level,
     Event.saveIdentityOperator PrimitiveKind.cell cell.id 1 level,
     Event.saveIdentityOperator PrimitiveKind.cell cell.id 2 level]

/-- Source: `P1ProjectNormalOperator::toMatrix`: the calls it issues, in order, when it
returns, or the message with which it aborts. -/
def toMatrix (storage : PrimitiveStorage) (getBoundaryType : Nat → Nat)
    (testFlag : Nat → Nat → Bool) (level flag : Nat) : Outcome (List Event) :=
  let state := Outcome.returned
    [Event.syncFunctionBetweenPrimitives 0 level,
     Event.syncFunctionBetweenPrimitives 1 level,
     Event.syncFunctionBetweenPrimitives 2 level]
  let state := forEachOrAbort storage.vertices
    (toMatrixVertex storage getBoundaryType testFlag level flag) state
  let state := forEachOrAbort storage.edges
    (toMatrixEdge storage getBoundaryType testFlag level flag) state
  let state := forEachOrAbort storage.faces
    (toMatrixFace storage getBoundaryType testFlag level flag) state
  forEachOrAbort storage.cells (toMatrixCell level) state

end P1ProjectNormalOperator

/-! ## Theorems -/

open indexing indexing.optimization

/-- The number of columns of the rectangle is at most the value without wrap-around. -/
theorem unwrapNumCols_le (width : Nat) :
    unwrapNumCols width ≤ if width % 2 = 0 then width + 1 else width := by
  unfold unwrapNumCols uadd
  split_ifs
  · exact Nat.mod_le _ _
  · exact le_rfl

/-- The number of rows of the rectangle is at most the value without wrap-around. -/
theorem unwrapNumRows_le (width : Nat) :
    unwrapNumRows width ≤ if width % 2 = 0 then width / 2 else (width + 1) / 2 := by
  unfold unwrapNumRows uadd
  split_ifs
  · exact le_rfl
  · exact Nat.div_le_div_right (Nat.mod_le _ _)

/-- The number of columns when `width + 1` is representable in `uint_t`. -/
theorem unwrapNumCols_eq (width : Nat) (hmax : width + 1 < uintModulus) :
    unwrapNumCols width = if width % 2 = 0 then width + 1 else width := by
  unfold unwrapNumCols uadd
  rw [Nat.mod_eq_of_lt hmax]

/-- The number of rows when `width + 1` is representable in `uint_t`. -/
theorem unwrapNumRows_eq (width : Nat) (hmax : width + 1 < uintModulus) :
    unwrapNumRows width = if width % 2 = 0 then width / 2 else (width + 1) / 2 := by
  unfold unwrapNumRows uadd
  rw [Nat.mod_eq_of_lt hmax]

/-- Inside the rectangle no subtraction of `unwrapCol` wraps: closed form of the result. -/
theorem unwrapCol_eq (width col row : Nat) (hr : row < unwrapNumRows width) :
    unwrapCol width col row = if width - row ≤ col then col - (width - row) else col := by
  replace hr := lt_of_lt_of_le hr (unwrapNumRows_le width)
  unfold unwrapCol usub
  split_ifs at hr ⊢ <;> omega

/-- Inside the rectangle no subtraction of `unwrapRow` wraps: closed form of the result. -/
theorem unwrapRow_eq (width col row : Nat) (hc : col < unwrapNumCols width)
    (hr : row < unwrapNumRows width) :
    unwrapRow width col row =
      if width - row ≤ col then (if width % 2 = 0 then width - 1 - row else width - row)
      else row := by
  replace hr := lt_of_lt_of_le hr (unwrapNumRows_le width)
  replace hc := lt_of_lt_of_le hc (unwrapNumCols_le width)
  unfold unwrapRow usub uintModulus
  split_ifs at hr hc ⊢ <;> omega

/-- C1, refuted as stated: for width = 2^64 - 1, the largest value of `uint_t`, the sum
`width + 1` in `unwrapNumRows` wraps around to 0, so the rectangle has no row at all, while
the triangle `c + r < width` is not empty: its point (0, 0) is the image of no rectangle
coordinate. -/
theorem unwrap_rectangle_empty_at_max_width :
    1 ≤ uintMax ∧ unwrapNumRows uintMax = 0 ∧ 0 + 0 < uintMax ∧
    ¬ ∃ p : Nat × Nat, p.1 < unwrapNumCols uintMax ∧ p.2 < unwrapNumRows uintMax ∧
        unwrapCol uintMax p.1 p.2 = 0 ∧ unwrapRow uintMax p.1 p.2 = 0 := by
  have h0 : unwrapNumRows uintMax = 0 := by decide
  refine ⟨by decide, h0, by decide, ?_⟩
  rintro ⟨p, _, hr, _⟩
  rw [h0] at hr
  exact Nat.not_lt_zero _ hr

/-- C1, amended: for every width with 1 <= width < 2^64 - 1 (so that `width + 1` is
representable in `uint_t`) the map (col,row) -> (unwrapCol, unwrapRow), restricted to the
rectangle `col < unwrapNumCols`, `row < unwrapNumRows`, is a bijection onto the triangle
`c + r < width`: every rectangle coordinate lands in the triangle, and every triangle
coordinate is the image of exactly one rectangle coordinate. -/
theorem unwrap_bijective_onto_triangle (width : Nat) (hw : 1 ≤ width)
    (hmax : width + 1 < uintModulus) :
    (∀ col row, col < unwrapNumCols width → row < unwrapNumRows width →
        unwrapCol width col row + unwrapRow width col row < width) ∧
    (∀ c r, c + r < width →
        ∃! p : Nat × Nat, p.1 < unwrapNumCols width ∧ p.2 < unwrapNumRows width ∧
          unwrapCol width p.1 p.2 = c ∧ unwrapRow width p.1 p.2 = r) := by
  have hC := unwrapNumCols_eq width hmax
  have hR := unwrapNumRows_eq width hmax
  constructor
  · intro col row hc hr
    rw [unwrapCol_eq width col row hr, unwrapRow_eq width col row hc hr]
    rw [hR] at hr
    rw [hC] at hc
    split_ifs at hr hc ⊢ <;> omega
  · intro c r hcr
    by_cases hlow : r < unwrapNumRows width
    · refine ⟨(c, r), ?_, ?_⟩
      · have hc : c < unwrapNumCols width := by
          rw [hC]; split_ifs <;> omega
        refine ⟨hc, hlow, ?_, ?_⟩
        · show unwrapCol width c r = c
          rw [unwrapCol_eq width c r hlow]; split_ifs <;> omega
        · show unwrapRow width c r = r
          rw [unwrapRow_eq width c r hc hlow]; split_ifs <;> omega
      · rintro ⟨col, row⟩ ⟨hc, hr, h1, h2⟩
        simp only at hc hr h1 h2
        rw [unwrapCol_eq width col row hr] at h1
        rw [unwrapRow_eq width col row hc hr] at h2
        rw [hR] at hr hlow
        rw [hC] at hc
        have : col = c ∧ row = r := by
          split_ifs at hr hc h1 h2 hlow <;> omega
        rw [this.1, this.2]
    · by_cases hev : width % 2 = 0
      · refine ⟨(c + r + 1, width - 1 - r), ?_, ?_⟩
        · have hc : c + r + 1 < unwrapNumCols width := by
            rw [hC]; split_ifs; omega
          have hr : width - 1 - r < unwrapNumRows width := by
            rw [hR] at hlow ⊢; split_ifs at hlow ⊢; omega
          refine ⟨hc, hr, ?_, ?_⟩
          · show unwrapCol width (c + r + 1) (width - 1 - r) = c
            rw [unwrapCol_eq width _ _ hr]; split_ifs <;> omega
          · show unwrapRow width (c + r + 1) (width - 1 - r) = r
            rw [unwrapRow_eq width _ _ hc hr]; split_ifs <;> omega
        · rintro ⟨col, row⟩ ⟨hc, hr, h1, h2⟩
          simp only at hc hr h1 h2
          rw [unwrapCol_eq width col row hr] at h1
          rw [unwrapRow_eq width col row hc hr] at h2
          rw [hR] at hr hlow
          rw [hC] at hc
          have : col = c + r + 1 ∧ row = width - 1 - r := by
            split_ifs at hr hc h1 h2 hlow <;> omega
          rw [this.1, this.2]
      · refine ⟨(c + r, width - r), ?_, ?_⟩
        · have hc : c + r < unwrapNumCols width := by
            rw [hC]; split_ifs; omega
          have hr : width - r < unwrapNumRows width := by
            rw [hR] at hlow ⊢; split_ifs at hlow ⊢; omega
          refine ⟨hc, hr, ?_, ?_⟩
          · show unwrapCol width (c + r) (width - r) = c
            rw [unwrapCol_eq width _ _ hr]; split_ifs <;> omega
          · show unwrapRow width (c + r) (width - r) = r
            rw [unwrapRow_eq width _ _ hc hr]; split_ifs <;> omega
        · rintro ⟨col, row⟩ ⟨hc, hr, h1, h2⟩
          simp only at hc hr h1 h2
          rw [unwrapCol_eq width col row hr] at h1
          rw [unwrapRow_eq width col row hc hr] at h2
          rw [hR] at hr hlow
          rw [hC] at hc
          have : col = c + r ∧ row = width - r := by
            split_ifs at hr hc h1 h2 hlow <;> omega
          rw [this.1, this.2]

/-- Witness for the amended C1 at width 5 (level 2). -/
theorem unwrap_bijective_onto_triangle_witness :
    1 ≤ 5 ∧ 5 + 1 < uintModulus ∧
    ((∀ col row, col < unwrapNumCols 5 → row < unwrapNumRows 5 →
        unwrapCol 5 col row + unwrapRow 5 col row < 5) ∧
     (∀ c r, c + r < 5 →
        ∃! p : Nat × Nat, p.1 < unwrapNumCols 5 ∧ p.2 < unwrapNumRows 5 ∧
          unwrapCol 5 p.1 p.2 = c ∧ unwrapRow 5 p.1 p.2 = r)) :=
  ⟨by decide, by decide, unwrap_bijective_onto_triangle 5 (by decide) (by decide)⟩

/-- C2, refuted as stated: at level 2 (width 5) the rectangle coordinate (4, 1) is unwrapped
to the triangle coordinate (0, 4), whose row-wise index is 14, while the direct row-wise
index of (4, 1) is 9. -/
theorem unwrap_index_counterexample :
    ¬ (∀ level c r : Nat, c < unwrapNumCols (2 ^ level + 1) → r < unwrapNumRows (2 ^ level + 1) →
        macroFaceIndex (2 ^ level + 1) (unwrapCol (2 ^ level + 1) c r)
            (unwrapRow (2 ^ level + 1) c r)
          = macroFaceIndex (2 ^ level + 1) c r) := by
  intro h
  have h421 := h 2 4 1 (by decide) (by decide)
  revert h421
  decide

/-- C2, amended: for every level and every rectangle coordinate (c, r) of the unwrap iteration
space that is itself a point of the triangle (c + r < width), `unwrapCol` and `unwrapRow`
return (c, r) unchanged, so that the index of the unwrapped coordinate is the direct row-wise
index of (c, r). -/
theorem unwrap_index_eq_of_in_triangle (level c r : Nat)
    (hc : c < unwrapNumCols (2 ^ level + 1)) (hr : r < unwrapNumRows (2 ^ level + 1))
    (hcr : c + r < 2 ^ level + 1) :
    unwrapCol (2 ^ level + 1) c r = c ∧ unwrapRow (2 ^ level + 1) c r = r ∧
    macroFaceIndex (2 ^ level + 1) (unwrapCol (2 ^ level + 1) c r)
        (unwrapRow (2 ^ level + 1) c r)
      = macroFaceIndex (2 ^ level + 1) c r := by
  have h1 : unwrapCol (2 ^ level + 1) c r = c := by
    rw [unwrapCol_eq _ c r hr]; split_ifs <;> omega
  have h2 : unwrapRow (2 ^ level + 1) c r = r := by
    rw [unwrapRow_eq _ c r hc hr]; split_ifs <;> omega
  refine ⟨h1, h2, ?_⟩
  rw [h1, h2]

/-- Witness for the amended C2 at level 2, coordinate (3, 1). -/
theorem unwrap_index_eq_of_in_triangle_witness :
    3 < unwrapNumCols (2 ^ 2 + 1) ∧ 1 < unwrapNumRows (2 ^ 2 + 1) ∧ 3 + 1 < 2 ^ 2 + 1 ∧
    (unwrapCol (2 ^ 2 + 1) 3 1 = 3 ∧ unwrapRow (2 ^ 2 + 1) 3 1 = 1 ∧
     macroFaceIndex (2 ^ 2 + 1) (unwrapCol (2 ^ 2 + 1) 3 1) (unwrapRow (2 ^ 2 + 1) 3 1)
       = macroFaceIndex (2 ^ 2 + 1) 3 1) :=
  ⟨by decide, by decide, by decide,
    unwrap_index_eq_of_in_triangle 2 3 1 (by decide) (by decide) (by decide)⟩

/-! ### EdgeIterator -/

/-- The begin iterator of a successfully constructed range. -/
theorem edgeIterator_new_begin (width offsetToCenter : Nat) (h : offsetToCenter < width) :
    EdgeIterator.new width offsetToCenter false =
      some { width_ := width, offsetToCenter_ := offsetToCenter,
             totalNumberOfDoFs_ := usub width (2 * offsetToCenter), step_ := 0,
             coordinates_ := { col := offsetToCenter, row := 0, dep := 0 } } := by
  simp [EdgeIterator.new, h]

/-- The end iterator of a successfully constructed range. -/
theorem edgeIterator_new_end (width offsetToCenter : Nat) (h : offsetToCenter < width) :
    EdgeIterator.new width offsetToCenter true =
      some { width_ := width, offsetToCenter_ := offsetToCenter,
             totalNumberOfDoFs_ := usub width (2 * offsetToCenter),
             step_ := usub width (2 * offsetToCenter),
             coordinates_ := { col := offsetToCenter, row := 0, dep := 0 } } := by
  simp [EdgeIterator.new, h]

/-- The loop from an iterator that is `n` steps before the end visits the next `n` columns and
stops, whenever the bound on the number of iterations is at least `n`. -/
theorem edgeIterator_forLoop_eq (e : EdgeIterator) :
    ∀ (n fuel : Nat) (it : EdgeIterator), it.step_ + n = e.step_ →
      e.step_ ≤ it.totalNumberOfDoFs_ → n ≤ fuel →
      EdgeIterator.forLoop fuel it e =
        some ((List.range' it.coordinates_.col n).map
          (fun c => ({ col := c, row := it.coordinates_.row, dep := it.coordinates_.dep } : Index))) := by
  intro n
  induction n with
  | zero =>
    intro fuel it hstep _ _
    have hne : it.ne e = false := by simp [EdgeIterator.ne]; omega
    cases fuel <;> simp [EdgeIterator.forLoop, hne]
  | succ n ih =>
    intro fuel it hstep htot hfuel
    have hne : it.ne e = true := by simp [EdgeIterator.ne]; omega
    obtain ⟨fuel, rfl⟩ : ∃ f, fuel = f + 1 := ⟨fuel - 1, by omega⟩
    have hle : it.step_ ≤ it.totalNumberOfDoFs_ := by omega
    have hinc : it.preIncrement = some { it with
        step_ := it.step_ + 1,
        coordinates_ := { it.coordinates_ with col := it.coordinates_.col + 1 } } := by
      simp [EdgeIterator.preIncrement, hle]
    have hrec := ih fuel { it with
        step_ := it.step_ + 1,
        coordinates_ := { it.coordinates_ with col := it.coordinates_.col + 1 } }
      (by simp; omega) (by simpa using htot) (by omega)
    simp only [EdgeIterator.forLoop, hne, hinc, hrec, if_true]
    simp [EdgeIterator.deref, List.range'_succ]

/-- The range-based loop over `EdgeIterator( width, offsetToCenter )` with
`2 * offsetToCenter <= width` and `offsetToCenter < width`. -/
theorem edgeIterator_iterate_eq (width offsetToCenter fuel : Nat) (it : EdgeIterator)
    (h2 : 2 * offsetToCenter ≤ width) (hit : EdgeIterator.new width offsetToCenter false = some it)
    (hfuel : width - 2 * offsetToCenter ≤ fuel) :
    it.iterate fuel =
      some ((List.range' offsetToCenter (width - 2 * offsetToCenter)).map
        (fun c => ({ col := c, row := 0, dep := 0 } : Index))) := by
  have hlt : offsetToCenter < width := by
    by_contra hcon
    simp [EdgeIterator.new, hcon] at hit
  rw [edgeIterator_new_begin width offsetToCenter hlt] at hit
  have hitw : it.width_ = width := by rw [← Option.some.inj hit]
  have hito : it.offsetToCenter_ = offsetToCenter := by rw [← Option.some.inj hit]
  have hsub : usub width (2 * offsetToCenter) = width - 2 * offsetToCenter := by
    simp [usub, h2]
  unfold EdgeIterator.iterate EdgeIterator.begin EdgeIterator.end_
  rw [hitw, hito, edgeIterator_new_begin width offsetToCenter hlt,
    edgeIterator_new_end width offsetToCenter hlt]
  simp only []
  rw [edgeIterator_forLoop_eq _ (width - 2 * offsetToCenter) fuel _ (by simp [hsub])
    (by simp) hfuel]

/-- With fewer iterations allowed than steps remain, the loop does not reach the end. -/
theorem edgeIterator_forLoop_none (e : EdgeIterator) :
    ∀ (fuel n : Nat) (it : EdgeIterator), it.step_ + n = e.step_ →
      e.step_ ≤ it.totalNumberOfDoFs_ → fuel < n →
      EdgeIterator.forLoop fuel it e = none := by
  intro fuel
  induction fuel with
  | zero =>
    intro n it hstep _ hn
    have hne : it.ne e = true := by simp [EdgeIterator.ne]; omega
    simp [EdgeIterator.forLoop, hne]
  | succ fuel ih =>
    intro n it hstep htot hn
    have hne : it.ne e = true := by simp [EdgeIterator.ne]; omega
    have hle : it.step_ ≤ it.totalNumberOfDoFs_ := by omega
    have hinc : it.preIncrement = some { it with
        step_ := it.step_ + 1,
        coordinates_ := { it.coordinates_ with col := it.coordinates_.col + 1 } } := by
      simp [EdgeIterator.preIncrement, hle]
    have hrec := ih (n - 1) { it with
        step_ := it.step_ + 1,
        coordinates_ := { it.coordinates_ with col := it.coordinates_.col + 1 } }
      (by simp; omega) (by simpa using htot) (by omega)
    simp only [EdgeIterator.forLoop, hne, hinc, hrec, if_true]

/-- Applying `operator++` `k` times keeps the range parameters and moves `k` columns on. -/
theorem edgeIterator_advance_eq :
    ∀ (k : Nat) (it : EdgeIterator), it.step_ + k ≤ it.totalNumberOfDoFs_ + 1 →
      EdgeIterator.advance k it = some { it with
        step_ := it.step_ + k,
        coordinates_ := { it.coordinates_ with col := it.coordinates_.col + k } } := by
  intro k
  induction k with
  | zero => intro it _; simp [EdgeIterator.advance]
  | succ k ih =>
    intro it h
    have hle : it.step_ ≤ it.totalNumberOfDoFs_ := by omega
    have hinc : it.preIncrement = some { it with
        step_ := it.step_ + 1,
        coordinates_ := { it.coordinates_ with col := it.coordinates_.col + 1 } } := by
      simp [EdgeIterator.preIncrement, hle]
    have hrec := ih { it with
        step_ := it.step_ + 1,
        coordinates_ := { it.coordinates_ with col := it.coordinates_.col + 1 } }
      (by simp; omega)
    simp only [EdgeIterator.advance, hinc, hrec]
    simp [Nat.add_assoc, Nat.add_comm 1 k]

/-- C3: for every level, with width = 2^level + 1, the range-based loop over
`EdgeIterator( width )` (offset 0) runs to its end, and mapping the column of each visited
coordinate through `macroEdgeIndex< width >` gives the integers 0, 1, ...,
`macroEdgeSize< width >() - 1` in this order, each exactly once, where
`macroEdgeSize< width >() = width`. -/
theorem macroEdgeIndex_enumerates_range (level fuel : Nat) (hfuel : 2 ^ level + 1 ≤ fuel) :
    ∃ (range : EdgeIterator) (coords : List Index),
      EdgeIterator.new (2 ^ level + 1) 0 false = some range ∧
      range.iterate fuel = some coords ∧
      coords.map (fun idx => macroEdgeIndex (2 ^ level + 1) idx.col)
        = List.range (macroEdgeSize (2 ^ level + 1)) ∧
      macroEdgeSize (2 ^ level + 1) = 2 ^ level + 1 := by
  have hlt : 0 < 2 ^ level + 1 := Nat.succ_pos _
  refine ⟨_, (List.range' 0 (2 ^ level + 1 - 2 * 0)).map
      (fun c => ({ col := c, row := 0, dep := 0 } : Index)),
    edgeIterator_new_begin _ 0 hlt, ?_, ?_, rfl⟩
  · exact edgeIterator_iterate_eq (2 ^ level + 1) 0 fuel _ (Nat.zero_le _)
      (edgeIterator_new_begin _ 0 hlt) (by simpa using hfuel)
  · simp only [List.map_map, macroEdgeSize, layout.linearMacroEdgeSize]
    have hfun : ((fun idx : Index => macroEdgeIndex (2 ^ level + 1) idx.col) ∘
        fun c => ({ col := c, row := 0, dep := 0 } : Index)) = id := by
      funext c; simp [macroEdgeIndex, layout.linearMacroEdgeIndex]
    rw [hfun, List.map_id, List.range_eq_range']
    simp

/-- Witness for C3 at level 2 (width 5). -/
theorem macroEdgeIndex_enumerates_range_witness :
    2 ^ 2 + 1 ≤ 5 ∧
    ∃ (range : EdgeIterator) (coords : List Index),
      EdgeIterator.new (2 ^ 2 + 1) 0 false = some range ∧
      range.iterate 5 = some coords ∧
      coords.map (fun idx => macroEdgeIndex (2 ^ 2 + 1) idx.col)
        = List.range (macroEdgeSize (2 ^ 2 + 1)) ∧
      macroEdgeSize (2 ^ 2 + 1) = 2 ^ 2 + 1 :=
  ⟨by decide, macroEdgeIndex_enumerates_range 2 5 (by decide)⟩

/-- C4, refuted as stated: width 0 with offset 0 satisfies `2 * offsetToCenter <= width`, but
the constructor's assertion `offsetToCenter < width` fails, so that there is no iterator to
run. -/
theorem edgeIterator_iteration_counterexample :
    ¬ (∀ width offsetToCenter : Nat, 2 * offsetToCenter ≤ width →
        ∃ (range : EdgeIterator) (coords : List Index),
          EdgeIterator.new width offsetToCenter false = some range ∧
          range.iterate (width - 2 * offsetToCenter) = some coords) := by
  intro h
  obtain ⟨range, _, hnew, _⟩ := h 0 0 (by decide)
  simp [EdgeIterator.new] at hnew

/-- C4, amended: for every width and offsetToCenter with `2 * offsetToCenter <= width` and
`offsetToCenter < width` (the assertion of the constructor), the range-based loop over
`EdgeIterator( width, offsetToCenter )` ends after exactly `width - 2 * offsetToCenter` steps
(it ends within every larger bound on the number of steps and within no smaller one) and
visits exactly the coordinates (col, 0, 0) for col = offsetToCenter, ...,
width - 1 - offsetToCenter in ascending order; and `begin()` called on the iterator at any
position of the loop gives back the start of the range, from which the loop visits the same
sequence. -/
theorem edgeIterator_iteration (width offsetToCenter : Nat)
    (h2 : 2 * offsetToCenter ≤ width) (hlt : offsetToCenter < width) :
    ∃ range : EdgeIterator,
      EdgeIterator.new width offsetToCenter false = some range ∧
      (∀ fuel, width - 2 * offsetToCenter ≤ fuel →
        range.iterate fuel =
          some ((List.range' offsetToCenter (width - 2 * offsetToCenter)).map
            (fun c => ({ col := c, row := 0, dep := 0 } : Index)))) ∧
      (∀ fuel, fuel < width - 2 * offsetToCenter → range.iterate fuel = none) ∧
      (∀ k, k ≤ width - 2 * offsetToCenter →
        ∃ it : EdgeIterator, EdgeIterator.advance k range = some it ∧
          it.begin = some range ∧ ∀ fuel, it.iterate fuel = range.iterate fuel) := by
  have hsub : usub width (2 * offsetToCenter) = width - 2 * offsetToCenter := by
    simp [usub, h2]
  refine ⟨_, edgeIterator_new_begin width offsetToCenter hlt, ?_, ?_, ?_⟩
  · intro fuel hfuel
    exact edgeIterator_iterate_eq width offsetToCenter fuel _ h2
      (edgeIterator_new_begin width offsetToCenter hlt) hfuel
  · intro fuel hfuel
    unfold EdgeIterator.iterate EdgeIterator.begin EdgeIterator.end_
    simp only [edgeIterator_new_begin width offsetToCenter hlt,
      edgeIterator_new_end width offsetToCenter hlt]
    exact edgeIterator_forLoop_none _ fuel (width - 2 * offsetToCenter) _ (by simp [hsub])
      (by simp) hfuel
  · intro k hk
    refine ⟨_, edgeIterator_advance_eq k _ (by simp [hsub]; omega), ?_, ?_⟩
    · simp [EdgeIterator.begin, edgeIterator_new_begin width offsetToCenter hlt]
    · intro fuel
      simp [EdgeIterator.iterate, EdgeIterator.begin, EdgeIterator.end_]

/-- Witness for the amended C4: width 5 with offset 1, the inner DoFs of an edge at level 2. -/
theorem edgeIterator_iteration_witness :
    2 * 1 ≤ 5 ∧ 1 < 5 ∧
    ∃ range : EdgeIterator,
      EdgeIterator.new 5 1 false = some range ∧
      (∀ fuel, 5 - 2 * 1 ≤ fuel →
        range.iterate fuel =
          some ((List.range' 1 (5 - 2 * 1)).map
            (fun c => ({ col := c, row := 0, dep := 0 } : Index)))) ∧
      (∀ fuel, fuel < 5 - 2 * 1 → range.iterate fuel = none) ∧
      (∀ k, k ≤ 5 - 2 * 1 →
        ∃ it : EdgeIterator, EdgeIterator.advance k range = some it ∧
          it.begin = some range ∧ ∀ fuel, it.iterate fuel = range.iterate fuel) :=
  ⟨by decide, by decide, edgeIterator_iteration 5 1 (by decide) (by decide)⟩

/-! ### Cell -/

/-- C5: constructing a Cell fails an assertion exactly when `vertexIDs.size() != 4`,
`edgeIDs.size() != 6`, `faceIDs.size() != 4`, one of the 6 edge-local maps does not have 2
entries or one of the 4 face-local maps does not have 3 entries; in every other case the
construction succeeds and the neighbor lists of the cell are the given vertex, edge and face
IDs in the given order. -/
theorem cell_new_asserts_counts {R : Type}
    (normal : Point3D R → Point3D R → Point3D R → Point3D R → Point3D R)
    (primitiveID : PrimitiveID) (vertexIDs edgeIDs faceIDs : List PrimitiveID)
    (coordinates : Fin 4 → Point3D R) (edgeMaps : Fin 6 → LocalVertexMap)
    (faceMaps : Fin 4 → LocalVertexMap) :
    (Cell.new normal primitiveID vertexIDs edgeIDs faceIDs coordinates edgeMaps faceMaps = none ↔
      (vertexIDs.length ≠ 4 ∨ edgeIDs.length ≠ 6 ∨ faceIDs.length ≠ 4 ∨
        (∃ i, (edgeMaps i).length ≠ 2) ∨ (∃ i, (faceMaps i).length ≠ 3))) ∧
    (¬ (vertexIDs.length ≠ 4 ∨ edgeIDs.length ≠ 6 ∨ faceIDs.length ≠ 4 ∨
        (∃ i, (edgeMaps i).length ≠ 2) ∨ (∃ i, (faceMaps i).length ≠ 3)) →
      ∃ c, Cell.new normal primitiveID vertexIDs edgeIDs faceIDs coordinates edgeMaps faceMaps
          = some c ∧
        c.neighborVertices_ = vertexIDs ∧ c.neighborEdges_ = edgeIDs ∧
        c.neighborFaces_ = faceIDs) := by
  have hbad : (vertexIDs.length ≠ 4 ∨ edgeIDs.length ≠ 6 ∨ faceIDs.length ≠ 4 ∨
        (∃ i, (edgeMaps i).length ≠ 2) ∨ (∃ i, (faceMaps i).length ≠ 3)) ↔
      ¬ (vertexIDs.length = 4 ∧ edgeIDs.length = 6 ∧ faceIDs.length = 4 ∧
        (edgeMaps 0).length = 2 ∧ (edgeMaps 1).length = 2 ∧ (edgeMaps 2).length = 2 ∧
        (edgeMaps 3).length = 2 ∧ (edgeMaps 4).length = 2 ∧ (edgeMaps 5).length = 2 ∧
        (faceMaps 0).length = 3 ∧ (faceMaps 1).length = 3 ∧ (faceMaps 2).length = 3 ∧
        (faceMaps 3).length = 3) := by
    simp only [Fin.exists_fin_succ, IsEmpty.exists_iff, or_false]
    simp only [Fin.succ_zero_eq_one, Fin.succ_one_eq_two]
    tauto
  rw [hbad]
  unfold Cell.new
  split_ifs with h
  · simp [h]
  · simp [h]

/-- The first position below `n` at which `p` holds, as found by the search loop. -/
theorem range_find_spec (p : Nat → Bool) (n : Nat) :
    (∀ i, (List.range n).find? p = some i → i < n ∧ p i = true ∧ ∀ j, j < i → p j = false) ∧
    ((List.range n).find? p = none → ∀ j, j < n → p j = false) := by
  induction n with
  | zero => simp
  | succ n ih =>
    rw [List.range_succ, List.find?_append]
    cases hfind : (List.range n).find? p with
    | some k =>
      obtain ⟨hk, hpk, hmin⟩ := ih.1 k hfind
      simp only [Option.or_some, Option.some.injEq, reduceCtorEq, false_implies, and_true]
      rintro i rfl
      exact ⟨by omega, hpk, hmin⟩
    | none =>
      have hnone := ih.2 hfind
      simp only [Option.none_or]
      by_cases hpn : p n = true
      · simp only [List.find?_cons, hpn, Option.some.injEq, reduceCtorEq, false_implies, and_true]
        rintro i rfl
        exact ⟨by omega, hpn, hnone⟩
      · have hpn' : p n = false := by simpa using hpn
        simp only [List.find?_cons, hpn', List.find?_nil, reduceCtorEq, false_implies,
          true_implies, true_and, implies_true]
        intro j hj
        by_cases hjn : j = n
        · rw [hjn]; exact hpn'
        · exact hnone j (by omega)

/-- The search loop of the local index queries returns the least position of an ID that the
list holds. -/
theorem localIDLoop_spec (ids : List PrimitiveID) (id : PrimitiveID) (hmem : id ∈ ids) :
    Cell.localIDLoop ids id ids.length < ids.length ∧
    ids[Cell.localIDLoop ids id ids.length]? = some id ∧
    ∀ j, j < Cell.localIDLoop ids id ids.length → ids[j]? ≠ some id := by
  have hspec := range_find_spec (fun i => ids[i]? == some id) ids.length
  unfold Cell.localIDLoop
  cases hfind : (List.range ids.length).find? (fun i => ids[i]? == some id) with
  | some k =>
    obtain ⟨hk, hpk, hmin⟩ := hspec.1 k hfind
    refine ⟨hk, by simpa using hpk, ?_⟩
    intro j hj
    have := hmin j hj
    simpa using this
  | none =>
    exfalso
    obtain ⟨j, hj, hjid⟩ := List.getElem_of_mem hmem
    have := hspec.2 hfind j hj
    simp [List.getElem?_eq_getElem hj, hjid] at this

/-- A query that runs the search loop over the whole list inverts indexing into the list. -/
theorem invertsIndexing_of_loop (ids : List PrimitiveID) (query : PrimitiveID → Option Nat)
    (hq : ∀ id ∈ ids, query id = some (Cell.localIDLoop ids id ids.length)) :
    InvertsIndexing ids ids.length query := by
  constructor
  · intro id hmem
    obtain ⟨h1, h2, h3⟩ := localIDLoop_spec ids id hmem
    exact ⟨_, hq id hmem, h1, h2, h3⟩
  · intro hnodup i hi
    have hmem : ids[i] ∈ ids := List.getElem_mem hi
    obtain ⟨h1, h2, h3⟩ := localIDLoop_spec ids ids[i] hmem
    refine ⟨ids[i], List.getElem?_eq_getElem hi, ?_⟩
    rw [hq _ hmem]
    congr 1
    rw [List.getElem?_eq_getElem h1] at h2
    have heq : ids[Cell.localIDLoop ids ids[i] ids.length] = ids[i] := by simpa using h2
    exact (List.Nodup.getElem_inj_iff hnodup).mp heq

/-- C6: for every constructed Cell the local index queries invert indexing into the neighbor
lists: for every ID in the face list `getLocalFaceID` returns the least index at which the
list holds the ID (an index below 4), so that it returns `i` for the entry at index `i` when
the face IDs are pairwise distinct; the same holds for `getLocalEdgeID` over the 6 edges and
for `getLocalVertexID` over the 4 vertices. -/
theorem cell_local_ids_invert_indexing {R : Type}
    (normal : Point3D R → Point3D R → Point3D R → Point3D R → Point3D R)
    (primitiveID : PrimitiveID) (vertexIDs edgeIDs faceIDs : List PrimitiveID)
    (coordinates : Fin 4 → Point3D R) (edgeMaps : Fin 6 → LocalVertexMap)
    (faceMaps : Fin 4 → LocalVertexMap) (c : Cell R)
    (hc : Cell.new normal primitiveID vertexIDs edgeIDs faceIDs coordinates edgeMaps faceMaps
      = some c) :
    InvertsIndexing c.neighborFaces_ 4 c.getLocalFaceID ∧
    InvertsIndexing c.neighborEdges_ 6 c.getLocalEdgeID ∧
    InvertsIndexing c.neighborVertices_ 4 c.getLocalVertexID := by
  unfold Cell.new at hc
  split_ifs at hc with h
  obtain ⟨hv, he, hf, -⟩ := h
  have hcv : c.neighborVertices_ = vertexIDs := by rw [← Option.some.inj hc]
  have hce : c.neighborEdges_ = edgeIDs := by rw [← Option.some.inj hc]
  have hcf : c.neighborFaces_ = faceIDs := by rw [← Option.some.inj hc]
  have hlv : c.neighborVertices_.length = 4 := by rw [hcv, hv]
  have hle : c.neighborEdges_.length = 6 := by rw [hce, he]
  have hlf : c.neighborFaces_.length = 4 := by rw [hcf, hf]
  refine ⟨?_, ?_, ?_⟩
  · rw [← hlf]
    apply invertsIndexing_of_loop
    intro id hmem
    simp [Cell.getLocalFaceID, Cell.neighborPrimitiveExists, hmem, hlf]
  · rw [← hle]
    apply invertsIndexing_of_loop
    intro id hmem
    simp [Cell.getLocalEdgeID, Cell.neighborPrimitiveExists, hmem, hle]
  · rw [← hlv]
    apply invertsIndexing_of_loop
    intro id hmem
    simp [Cell.getLocalVertexID, Cell.neighborPrimitiveExists, Cell.getNumNeighborVertices, hmem]

/-- Witness for C6: the reference tetrahedron with vertices 1..4, edges 5..10, faces 11..14. -/
theorem cell_local_ids_invert_indexing_witness :
    ∃ c : Cell ℚ,
      Cell.new (fun _ _ _ d => d) 0 [1, 2, 3, 4] [5, 6, 7, 8, 9, 10] [11, 12, 13, 14]
        ![![0, 0, 0], ![1, 0, 0], ![0, 1, 0], ![0, 0, 1]]
        (fun _ => [(0, 0), (1, 1)]) (fun _ => [(0, 0), (1, 1), (2, 2)]) = some c ∧
      (InvertsIndexing c.neighborFaces_ 4 c.getLocalFaceID ∧
       InvertsIndexing c.neighborEdges_ 6 c.getLocalEdgeID ∧
       InvertsIndexing c.neighborVertices_ 4 c.getLocalVertexID) := by
  have hsome : ∃ c : Cell ℚ,
      Cell.new (fun _ _ _ d => d) 0 [1, 2, 3, 4] [5, 6, 7, 8, 9, 10] [11, 12, 13, 14]
        ![![0, 0, 0], ![1, 0, 0], ![0, 1, 0], ![0, 0, 1]]
        (fun _ => [(0, 0), (1, 1)]) (fun _ => [(0, 0), (1, 1), (2, 2)]) = some c := by
    simp [Cell.new]
  obtain ⟨c, hc⟩ := hsome
  exact ⟨c, hc, cell_local_ids_invert_indexing _ _ _ _ _ _ _ _ c hc⟩

/-! ### Buffers -/

/-- Reading a `real_t` undoes writing it. -/
theorem roundTrips_real {R : Type} : RoundTrips (putReal : R → Buffer R) getReal := by
  intro a rest; rfl

/-- Reading a `uint_t` undoes writing it. -/
theorem roundTrips_uint {R : Type} : RoundTrips (putUInt : Nat → Buffer R) getUInt := by
  intro a rest; rfl

/-- Reading a pair undoes writing it. -/
theorem roundTrips_pair {R α β : Type} {putA : α → Buffer R} {getA}
    {putB : β → Buffer R} {getB} (hA : RoundTrips putA getA) (hB : RoundTrips putB getB) :
    RoundTrips (putPair putA putB) (getPair getA getB) := by
  intro p rest
  simp [putPair, getPair, List.append_assoc, hA p.1, hB p.2]

/-- Reading as many elements as were written undoes writing them. -/
theorem getElems_putElems {R α : Type} {put : α → Buffer R} {get} (h : RoundTrips put get) :
    ∀ (xs : List α) (rest : Buffer R),
      getElems get xs.length (putElems put xs ++ rest) = some (xs, rest) := by
  intro xs
  induction xs with
  | nil => intro rest; rfl
  | cons x xs ih =>
    intro rest
    simp [putElems, getElems, List.append_assoc, h x, ih rest]

/-- Reading a `std::vector` or `std::map` undoes writing it. -/
theorem roundTrips_container {R α : Type} {put : α → Buffer R} {get} (h : RoundTrips put get) :
    RoundTrips (putContainer put) (getContainer get) := by
  intro xs rest
  simp [putContainer, getContainer, putUInt, getUInt, getElems_putElems h xs rest]

/-- Reading a `std::array` undoes writing it. -/
theorem roundTrips_array {R α : Type} {put : α → Buffer R} {get} (h : RoundTrips put get) :
    ∀ n : Nat, RoundTrips (putArray put n) (getArray get n) := by
  intro n
  induction n with
  | zero =>
    intro a rest
    simp only [putArray, getArray, List.nil_append]
    congr 2
    funext i
    exact i.elim0
  | succ n ih =>
    intro a rest
    simp only [putArray, getArray, List.append_assoc, h (a 0), ih (fun i => a i.succ) rest]
    congr 2
    exact Fin.cons_self_tail a

/-- Reading a `Point3D` undoes writing it. -/
theorem roundTrips_point3D {R : Type} :
    RoundTrips (putPoint3D : Point3D R → Buffer R) getPoint3D :=
  roundTrips_array roundTrips_real 3

/-- C7: `Cell::deserializeSubclass` undoes `Cell::serializeSubclass`: what `serializeSubclass`
of a cell `c` appends to a send buffer is read back by `deserializeSubclass` of any cell `d`
field by field in the order written: afterwards `d` holds the coordinates, the edge-local and
face-local vertex maps, the face inward normals and both indirect neighbor lists of `c` (its
other members are unchanged), and exactly what was written has been consumed. -/
theorem cell_deserializeSubclass_serializeSubclass {R : Type} (c d : Cell R)
    (sendBuffer : Buffer R) :
    ∃ written : Buffer R,
      c.serializeSubclass sendBuffer = sendBuffer ++ written ∧
      ∀ rest : Buffer R,
        d.deserializeSubclass (written ++ rest) =
          some ({ d with
            coordinates_ := c.coordinates_,
            edgeLocalVertexToCellLocalVertexMaps_ := c.edgeLocalVertexToCellLocalVertexMaps_,
            faceLocalVertexToCellLocalVertexMaps_ := c.faceLocalVertexToCellLocalVertexMaps_,
            faceInwardNormals_ := c.faceInwardNormals_,
            indirectNeighborCellIDsOverVertices_ := c.indirectNeighborCellIDsOverVertices_,
            indirectNeighborCellIDsOverFaces_ := c.indirectNeighborCellIDsOverFaces_ },
            rest) := by
  have hmap : RoundTrips (putContainer (putPair (putUInt : Nat → Buffer R) putUInt))
      (getContainer (getPair getUInt getUInt)) :=
    roundTrips_container (roundTrips_pair roundTrips_uint roundTrips_uint)
  refine ⟨putArray putPoint3D 4 c.coordinates_ ++
      (putArray (putContainer (putPair putUInt putUInt)) 6 c.edgeLocalVertexToCellLocalVertexMaps_ ++
      (putArray (putContainer (putPair putUInt putUInt)) 4 c.faceLocalVertexToCellLocalVertexMaps_ ++
      (putArray putPoint3D 4 c.faceInwardNormals_ ++
      (putContainer putUInt c.indirectNeighborCellIDsOverVertices_ ++
      putContainer (putPair putUInt putUInt) c.indirectNeighborCellIDsOverFaces_)))), ?_, ?_⟩
  · simp [Cell.serializeSubclass, List.append_assoc]
  · intro rest
    unfold Cell.deserializeSubclass
    simp only [List.append_assoc]
    rw [roundTrips_array roundTrips_point3D 4 c.coordinates_]
    simp only []
    rw [roundTrips_array hmap 6 c.edgeLocalVertexToCellLocalVertexMaps_]
    simp only []
    rw [roundTrips_array hmap 4 c.faceLocalVertexToCellLocalVertexMaps_]
    simp only []
    rw [roundTrips_array roundTrips_point3D 4 c.faceInwardNormals_]
    simp only []
    rw [roundTrips_container roundTrips_uint c.indirectNeighborCellIDsOverVertices_]
    simp only []
    rw [roundTrips_container (roundTrips_pair roundTrips_uint roundTrips_uint)
      c.indirectNeighborCellIDsOverFaces_]

/-! ### AffineMap3D -/

/-- What the receive-buffer constructor builds from the entries written for a matrix and a
vector: the matrix, the vector, and the indeterminate value as Jacobian determinant. -/
theorem affineMap3D_fromRecvBuffer_written {R : Type} (mat : Matrix3r R) (vec : Point3D R)
    (uninitialized : R) (rest : Buffer R) :
    ∃ m : AffineMap3D R,
      AffineMap3D.fromRecvBuffer uninitialized
          (putArray (putArray putReal 3) 3 mat ++
            (putReal (vec 0) ++ (putReal (vec 1) ++ (putReal (vec 2) ++ rest))))
        = some (m, rest) ∧
      m.mat_ = mat ∧ m.vec_ = vec ∧ m.jacDet_ = uninitialized := by
  refine ⟨{ mat_ := mat, vec_ := vec, jacDet_ := uninitialized }, ?_, rfl, rfl, rfl⟩
  unfold AffineMap3D.fromRecvBuffer
  rw [roundTrips_array (roundTrips_array roundTrips_real 3) 3 mat]
  simp only [putReal, getReal, List.singleton_append]
  congr 3
  funext i
  fin_cases i <;> rfl

/-- C8: for every matrix M and vector v, the AffineMap3D constructed from a receive buffer
that holds what `serializeSubClass` wrote after its leading `Type::AFFINE_3D` tag has the
matrix M and the vector v, so that its `evalF` agrees with `evalF` of the original map at every
point. -/
theorem affineMap3D_deserialized_evalF {R : Type} [Ring R] (mat : Matrix3r R) (vec : Point3D R)
    (affine3DTag : Nat) (uninitialized : R) (sendBuffer : Buffer R) :
    ∃ written : Buffer R,
      AffineMap3D.serializeSubClass affine3DTag (AffineMap3D.new mat vec) sendBuffer
        = sendBuffer ++ BufferWord.uint affine3DTag :: written ∧
      ∀ rest : Buffer R, ∃ m : AffineMap3D R,
        AffineMap3D.fromRecvBuffer uninitialized (written ++ rest) = some (m, rest) ∧
        m.mat_ = mat ∧ m.vec_ = vec ∧
        ∀ x : Point3D R, m.evalF x = (AffineMap3D.new mat vec).evalF x := by
  refine ⟨putArray (putArray putReal 3) 3 mat ++
      (putReal (vec 0) ++ (putReal (vec 1) ++ putReal (vec 2))), ?_, ?_⟩
  · simp [AffineMap3D.serializeSubClass, AffineMap3D.new, putUInt, List.append_assoc]
  · intro rest
    obtain ⟨m, hm, hmat, hvec, -⟩ :=
      affineMap3D_fromRecvBuffer_written mat vec uninitialized rest
    refine ⟨m, ?_, hmat, hvec, ?_⟩
    · simpa [List.append_assoc] using hm
    · intro x
      funext i
      fin_cases i <;> simp [AffineMap3D.evalF, AffineMap3D.new, hmat, hvec]

/-- C9, evaluated at a failing input: the identity map (M = identity, v = 0) is serialised
and rebuilt by the receive-buffer constructor in an object whose uninitialised `jacDet_` holds
0.  `evalDF` of the rebuilt map writes DFx = M but returns 0, while `evalDF` of the original
map returns det(M) = 1. -/
theorem affineMap3D_deserialized_evalDF_determinant (affine3DTag : Nat) (x : Point3D ℚ) :
    ∃ (written : Buffer ℚ) (m : AffineMap3D ℚ),
      AffineMap3D.serializeSubClass affine3DTag
          (AffineMap3D.new ![![1, 0, 0], ![0, 1, 0], ![0, 0, 1]] ![0, 0, 0]) []
        = BufferWord.uint affine3DTag :: written ∧
      AffineMap3D.fromRecvBuffer 0 written = some (m, []) ∧
      (m.evalDF x).1 = ![![1, 0, 0], ![0, 1, 0], ![0, 0, 1]] ∧
      (m.evalDF x).2 = 0 ∧
      ((AffineMap3D.new ![![1, 0, 0], ![0, 1, 0], ![0, 0, 1]] ![0, 0, 0]).evalDF x).2 = 1 := by
  obtain ⟨m, hm, hmat, -, hjac⟩ :=
    affineMap3D_fromRecvBuffer_written (![![1, 0, 0], ![0, 1, 0], ![0, 0, 1]] : Matrix3r ℚ)
      ![0, 0, 0] 0 []
  refine ⟨putArray (putArray putReal 3) 3 (![![1, 0, 0], ![0, 1, 0], ![0, 0, 1]] : Matrix3r ℚ) ++
      (putReal ((![0, 0, 0] : Point3D ℚ) 0) ++ (putReal ((![0, 0, 0] : Point3D ℚ) 1) ++
        (putReal ((![0, 0, 0] : Point3D ℚ) 2) ++ []))), m, ?_, hm, ?_, ?_, ?_⟩
  · simp only [AffineMap3D.serializeSubClass, AffineMap3D.new, putUInt, List.nil_append,
      List.append_assoc, List.singleton_append, List.append_nil, List.cons_append]
  · simpa [AffineMap3D.evalDF] using hmat
  · simpa [AffineMap3D.evalDF] using hjac
  · simp [AffineMap3D.evalDF, AffineMap3D.new]

/-! ### P1Vertex -/

/-- Reading the function memory after an assignment. -/
theorem vertex_write_functionMemory {R : Type} (vertex : Vertex R) (id level i : Nat) (value : R)
    (id' level' i' : Nat) :
    (vertex.write id level i value).functionMemory id' level' i' =
      if id' = id ∧ level' = level ∧ i' = i then value
      else vertex.functionMemory id' level' i' := rfl

/-- An assignment to the function memory keeps the number of neighbor edges. -/
theorem vertex_write_numNeighborEdges {R : Type} (vertex : Vertex R) (id level i : Nat)
    (value : R) : (vertex.write id level i value).numNeighborEdges = vertex.numNeighborEdges :=
  rfl

/-- The accumulation loop of the vertex kernels: after `n` iterations entry 0 of the
destination has grown by the weighted sum of the ghost entries `1, ..., n` of the source as
they were before the loop, and no other entry has changed. -/
theorem vertex_accumulate_loop {R : Type} [Ring R] (opr : Nat → R) (srcId dstId level : Nat)
    (vertex : Vertex R) (n : Nat) :
    ((List.range n).foldl
        (fun (vertex : Vertex R) i =>
          vertex.write dstId level 0
            (vertex.functionMemory dstId level 0
              + opr (i + 1) * vertex.functionMemory srcId level (i + 1)))
        vertex).functionMemory dstId level 0
      = vertex.functionMemory dstId level 0
        + ∑ i in Finset.range n, opr (i + 1) * vertex.functionMemory srcId level (i + 1) ∧
    ∀ id l k, ¬ (id = dstId ∧ l = level ∧ k = 0) →
      ((List.range n).foldl
        (fun (vertex : Vertex R) i =>
          vertex.write dstId level 0
            (vertex.functionMemory dstId level 0
              + opr (i + 1) * vertex.functionMemory srcId level (i + 1)))
        vertex).functionMemory id l k = vertex.functionMemory id l k := by
  induction n with
  | zero => simp
  | succ n ih =>
    obtain ⟨ih0, ihframe⟩ := ih
    rw [List.range_succ, List.foldl_append]
    simp only [List.foldl_cons, List.foldl_nil]
    constructor
    · simp only [vertex_write_functionMemory, and_self, if_true]
      rw [ih0, ihframe srcId level (n + 1) (by simp), Finset.sum_range_succ, add_assoc]
    · intro id l k hne
      simp only [vertex_write_functionMemory, hne, if_false]
      exact ihframe id l k hne

/-- The value that `P1Vertex::apply` with `Replace` writes to entry 0 of the destination: the
stencil-weighted sum of the source entries `0, ..., numNeighborEdges`. -/
theorem apply_replace_value {R : Type} [Ring R] (vertex : Vertex R)
    (operatorId srcId dstId level : Nat) :
    (P1Vertex.apply vertex operatorId srcId dstId level UpdateType.Replace).functionMemory
        dstId level 0
      = vertex.stencilMemory operatorId level 0 * vertex.functionMemory srcId level 0
        + ∑ i in Finset.range vertex.numNeighborEdges,
            vertex.stencilMemory operatorId level (i + 1)
              * vertex.functionMemory srcId level (i + 1) := by
  unfold P1Vertex.apply
  simp only [Vertex.getNumNeighborEdges, vertex_write_numNeighborEdges]
  rw [(vertex_accumulate_loop (vertex.stencilMemory operatorId level) srcId dstId level
    (vertex.write dstId level 0
      (vertex.stencilMemory operatorId level 0 * vertex.functionMemory srcId level 0))
    vertex.numNeighborEdges).1]
  simp [vertex_write_functionMemory]

/-- C10: `P1Vertex::apply` is linear in its source: for every vertex (its stencil and its
number of neighbor edges), all source arrays x and y and all scalars a and b, applying with
`Replace` to the source a*x + b*y writes to `dst[0]` a times the value written for the
source x plus b times the value written for the source y. -/
theorem apply_linear {R : Type} [CommRing R] (vertex : Vertex R)
    (operatorId srcId dstId level : Nat) (x y : Nat → R) (a b : R) :
    (P1Vertex.apply (vertex.setArray srcId level (fun i => a * x i + b * y i))
        operatorId srcId dstId level UpdateType.Replace).functionMemory dstId level 0
      = a * (P1Vertex.apply (vertex.setArray srcId level x)
              operatorId srcId dstId level UpdateType.Replace).functionMemory dstId level 0
        + b * (P1Vertex.apply (vertex.setArray srcId level y)
              operatorId srcId dstId level UpdateType.Replace).functionMemory dstId level 0 := by
  simp only [apply_replace_value, Vertex.setArray, and_self, if_true, mul_add, Finset.mul_sum]
  rw [add_add_add_comm, ← Finset.sum_add_distrib]
  congr 1
  · ring
  · apply Finset.sum_congr rfl
    intro i _
    ring

/-- The value that `P1Vertex::apply` with `Add` leaves in entry 0 of the destination: the
previous value plus the stencil-weighted sum of the source entries. -/
theorem apply_add_value {R : Type} [Ring R] (vertex : Vertex R)
    (operatorId srcId dstId level : Nat) :
    (P1Vertex.apply vertex operatorId srcId dstId level UpdateType.Add).functionMemory
        dstId level 0
      = vertex.functionMemory dstId level 0
        + (vertex.stencilMemory operatorId level 0 * vertex.functionMemory srcId level 0
          + ∑ i in Finset.range vertex.numNeighborEdges,
              vertex.stencilMemory operatorId level (i + 1)
                * vertex.functionMemory srcId level (i + 1)) := by
  unfold P1Vertex.apply
  simp only [Vertex.getNumNeighborEdges, vertex_write_numNeighborEdges]
  rw [(vertex_accumulate_loop (vertex.stencilMemory operatorId level) srcId dstId level
    (vertex.write dstId level 0
      (vertex.functionMemory dstId level 0
        + vertex.stencilMemory operatorId level 0 * vertex.functionMemory srcId level 0))
    vertex.numNeighborEdges).1]
  simp [vertex_write_functionMemory, add_assoc]

/-- A loop that adds `f i` to a local variable for `i = s, ..., s + k - 1`. -/
theorem foldl_add_range' {R : Type} [AddCommMonoid R] (f : Nat → R) :
    ∀ (k s : Nat) (t : R),
      (List.range' s k).foldl (fun tmp i => tmp + f i) t
        = t + ∑ j in Finset.range k, f (s + j) := by
  intro k
  induction k with
  | zero => intro s t; simp
  | succ k ih =>
    intro s t
    rw [List.range'_succ, List.foldl_cons, ih, Finset.sum_range_succ', add_assoc]
    congr 1
    rw [add_comm]
    congr 1
    apply Finset.sum_congr rfl
    intro j _
    congr 1
    omega

/-- The value that `BubbleToP1Vertex::apply` accumulates in its local variable. -/
theorem bubbleToP1_apply_value {R : Type} [Ring R] (vertex : Vertex R)
    (operatorId srcId dstId level : Nat) (update : UpdateType) :
    (BubbleToP1Vertex.apply vertex operatorId srcId dstId level update).functionMemory
        dstId level 0
      = (match update with
          | UpdateType.Replace => 0
          | UpdateType.Add => vertex.functionMemory dstId level 0)
        + ∑ i in Finset.range vertex.numNeighborFaces,
            vertex.stencilMemory operatorId level i * vertex.functionMemory srcId level i := by
  unfold BubbleToP1Vertex.apply
  simp only [Vertex.getNumNeighborFaces, List.range_eq_range']
  rw [foldl_add_range' (fun i =>
    vertex.stencilMemory operatorId level i * vertex.functionMemory srcId level i)]
  cases update <;> simp [vertex_write_functionMemory]

/-- C11: for the vertex kernels `P1Vertex::apply` and `BubbleToP1Vertex::apply`: with
`Replace` the value written to `dst[0]` is the stencil-weighted sum of the source entries
(over j <= numNeighborEdges of opr[j]*src[j], resp. over i < numNeighborFaces of
opr[i]*src[i]) and does not depend on the previous content of the destination array; with
`Add` the result is the previous `dst[0]` plus the same sum; hence `Add` on a destination
whose entry 0 was zero gives the `Replace` result. -/
theorem apply_replace_add_semantics {R : Type} [Ring R] (vertex : Vertex R)
    (operatorId srcId dstId level : Nat) :
    ((P1Vertex.apply vertex operatorId srcId dstId level UpdateType.Replace).functionMemory
        dstId level 0
      = ∑ j in Finset.range (vertex.numNeighborEdges + 1),
          vertex.stencilMemory operatorId level j * vertex.functionMemory srcId level j) ∧
    (srcId ≠ dstId → ∀ previous : Nat → R,
      (P1Vertex.apply (vertex.setArray dstId level previous) operatorId srcId dstId level
          UpdateType.Replace).functionMemory dstId level 0
        = (P1Vertex.apply vertex operatorId srcId dstId level
            UpdateType.Replace).functionMemory dstId level 0) ∧
    ((P1Vertex.apply vertex operatorId srcId dstId level UpdateType.Add).functionMemory
        dstId level 0
      = vertex.functionMemory dstId level 0
        + ∑ j in Finset.range (vertex.numNeighborEdges + 1),
            vertex.stencilMemory operatorId level j * vertex.functionMemory srcId level j) ∧
    (vertex.functionMemory dstId level 0 = 0 →
      (P1Vertex.apply vertex operatorId srcId dstId level UpdateType.Add).functionMemory
          dstId level 0
        = (P1Vertex.apply vertex operatorId srcId dstId level
            UpdateType.Replace).functionMemory dstId level 0) ∧
    ((BubbleToP1Vertex.apply vertex operatorId srcId dstId level
          UpdateType.Replace).functionMemory dstId level 0
      = ∑ i in Finset.range vertex.numNeighborFaces,
          vertex.stencilMemory operatorId level i * vertex.functionMemory srcId level i) ∧
    (srcId ≠ dstId → ∀ previous : Nat → R,
      (BubbleToP1Vertex.apply (vertex.setArray dstId level previous) operatorId srcId dstId level
          UpdateType.Replace).functionMemory dstId level 0
        = (BubbleToP1Vertex.apply vertex operatorId srcId dstId level
            UpdateType.Replace).functionMemory dstId level 0) ∧
    ((BubbleToP1Vertex.apply vertex operatorId srcId dstId level
          UpdateType.Add).functionMemory dstId level 0
      = vertex.functionMemory dstId level 0
        + ∑ i in Finset.range vertex.numNeighborFaces,
            vertex.stencilMemory operatorId level i * vertex.functionMemory srcId level i) ∧
    (vertex.functionMemory dstId level 0 = 0 →
      (BubbleToP1Vertex.apply vertex operatorId srcId dstId level
          UpdateType.Add).functionMemory dstId level 0
        = (BubbleToP1Vertex.apply vertex operatorId srcId dstId level
            UpdateType.Replace).functionMemory dstId level 0) := by
  have hsum : ∀ v : Vertex R,
      v.stencilMemory operatorId level 0 * v.functionMemory srcId level 0
        + ∑ i in Finset.range vertex.numNeighborEdges,
            v.stencilMemory operatorId level (i + 1) * v.functionMemory srcId level (i + 1)
      = ∑ j in Finset.range (vertex.numNeighborEdges + 1),
          v.stencilMemory operatorId level j * v.functionMemory srcId level j := by
    intro v
    rw [Finset.sum_range_succ', add_comm]
  refine ⟨?_, ?_, ?_, ?_, ?_, ?_, ?_, ?_⟩
  · rw [apply_replace_value, hsum]
  · intro hne previous
    rw [apply_replace_value, apply_replace_value]
    simp [Vertex.setArray, hne]
  · rw [apply_add_value, hsum]
  · intro hzero
    rw [apply_add_value, apply_replace_value, hzero, zero_add]
  · rw [bubbleToP1_apply_value]; simp
  · intro hne previous
    rw [bubbleToP1_apply_value, bubbleToP1_apply_value]
    simp [Vertex.setArray, hne]
  · rw [bubbleToP1_apply_value]
  · intro hzero
    rw [bubbleToP1_apply_value, bubbleToP1_apply_value, hzero]

/-- The subtraction loop of the smoothers: after `n` iterations entry 0 of the destination
has dropped by the weighted sum of the ghost entries `1, ..., n` of the array read, as they
were before the loop, and no other entry has changed. -/
theorem vertex_subtract_loop {R : Type} [Ring R] (opr : Nat → R) (srcId dstId level : Nat)
    (vertex : Vertex R) (n : Nat) :
    ((List.range n).foldl
        (fun (vertex : Vertex R) i =>
          vertex.write dstId level 0
            (vertex.functionMemory dstId level 0
              - opr (i + 1) * vertex.functionMemory srcId level (i + 1)))
        vertex).functionMemory dstId level 0
      = vertex.functionMemory dstId level 0
        - ∑ i in Finset.range n, opr (i + 1) * vertex.functionMemory srcId level (i + 1) ∧
    ∀ id l k, ¬ (id = dstId ∧ l = level ∧ k = 0) →
      ((List.range n).foldl
        (fun (vertex : Vertex R) i =>
          vertex.write dstId level 0
            (vertex.functionMemory dstId level 0
              - opr (i + 1) * vertex.functionMemory srcId level (i + 1)))
        vertex).functionMemory id l k = vertex.functionMemory id l k := by
  induction n with
  | zero => simp
  | succ n ih =>
    obtain ⟨ih0, ihframe⟩ := ih
    rw [List.range_succ, List.foldl_append]
    simp only [List.foldl_cons, List.foldl_nil]
    constructor
    · simp only [vertex_write_functionMemory, and_self, if_true]
      rw [ih0, ihframe srcId level (n + 1) (by simp), Finset.sum_range_succ, sub_sub]
    · intro id l k hne
      simp only [vertex_write_functionMemory, hne, if_false]
      exact ihframe id l k hne

/-- The value that `P1Vertex::smooth_gs` leaves in entry 0 of the destination. -/
theorem smooth_gs_value {R : Type} [Field R] (vertex : Vertex R)
    (operatorId dstId rhsId level : Nat) :
    (P1Vertex.smooth_gs vertex operatorId dstId rhsId level).functionMemory dstId level 0
      = (vertex.functionMemory rhsId level 0
          - ∑ i in Finset.range vertex.numNeighborEdges,
              vertex.stencilMemory operatorId level (i + 1)
                * vertex.functionMemory dstId level (i + 1))
        / vertex.stencilMemory operatorId level 0 := by
  unfold P1Vertex.smooth_gs
  simp only [Vertex.getNumNeighborEdges, vertex_write_numNeighborEdges]
  rw [vertex_write_functionMemory]
  simp only [and_self, if_true]
  rw [(vertex_subtract_loop (vertex.stencilMemory operatorId level) dstId dstId level
    (vertex.write dstId level 0 (vertex.functionMemory rhsId level 0))
    vertex.numNeighborEdges).1]
  simp [vertex_write_functionMemory]

/-- The value that `P1Vertex::smooth_jac` writes to entry 0 of the destination. -/
theorem smooth_jac_value {R : Type} [Field R] (vertex : Vertex R)
    (operatorId dstId rhsId tmpId level : Nat) :
    (P1Vertex.smooth_jac vertex operatorId dstId rhsId tmpId level).functionMemory dstId level 0
      = (vertex.functionMemory rhsId level 0
          - ∑ i in Finset.range vertex.numNeighborEdges,
              vertex.stencilMemory operatorId level (i + 1)
                * vertex.functionMemory tmpId level (i + 1))
        / vertex.stencilMemory operatorId level 0 := by
  unfold P1Vertex.smooth_jac
  simp only [Vertex.getNumNeighborEdges, vertex_write_numNeighborEdges]
  rw [vertex_write_functionMemory]
  simp only [and_self, if_true]
  rw [(vertex_subtract_loop (vertex.stencilMemory operatorId level) tmpId dstId level
    (vertex.write dstId level 0 (vertex.functionMemory rhsId level 0))
    vertex.numNeighborEdges).1]
  simp [vertex_write_functionMemory]

/-- C12: smoother fixed point at a macro-vertex (exact arithmetic, opr[0] != 0): if the array
x satisfies the vertex equation
opr[0]*x[0] + sum over i < numNeighborEdges of opr[i+1]*x[i+1] = rhs[0], then
`P1Vertex::smooth_gs` applied with dst = x leaves dst[0] = x[0], and `P1Vertex::smooth_jac`
applied with tmp = x writes dst[0] = x[0]. -/
theorem smoother_fixed_point {R : Type} [Field R] (vertex : Vertex R)
    (operatorId dstId rhsId tmpId level : Nat)
    (hdiag : vertex.stencilMemory operatorId level 0 ≠ 0) :
    (vertex.stencilMemory operatorId level 0 * vertex.functionMemory dstId level 0
        + ∑ i in Finset.range vertex.numNeighborEdges,
            vertex.stencilMemory operatorId level (i + 1)
              * vertex.functionMemory dstId level (i + 1)
        = vertex.functionMemory rhsId level 0 →
      (P1Vertex.smooth_gs vertex operatorId dstId rhsId level).functionMemory dstId level 0
        = vertex.functionMemory dstId level 0) ∧
    (vertex.stencilMemory operatorId level 0 * vertex.functionMemory tmpId level 0
        + ∑ i in Finset.range vertex.numNeighborEdges,
            vertex.stencilMemory operatorId level (i + 1)
              * vertex.functionMemory tmpId level (i + 1)
        = vertex.functionMemory rhsId level 0 →
      (P1Vertex.smooth_jac vertex operatorId dstId rhsId tmpId level).functionMemory dstId level 0
        = vertex.functionMemory tmpId level 0) := by
  constructor
  · intro heq
    rw [smooth_gs_value, ← heq, add_sub_cancel_right, mul_div_cancel_left₀ _ hdiag]
  · intro heq
    rw [smooth_jac_value, ← heq, add_sub_cancel_right, mul_div_cancel_left₀ _ hdiag]

/-- Witness for C12: a vertex with two neighbor edges, stencil (2, 1, 1), the iterate
x = (1, 1, 1) under the data IDs 0 (destination) and 2 (separate source buffer) and the right
hand side 4 under the data ID 1; both vertex equations 2*1 + 1*1 + 1*1 = 4 hold. -/
theorem smoother_fixed_point_witness :
    ((fun i : Nat => if i = 0 then (2 : ℚ) else 1) 0 ≠ 0) ∧
    (P1Vertex.smooth_gs
        ({ numNeighborEdges := 2, numNeighborFaces := 0,
           functionMemory := fun id _ _ => if id = 1 then 4 else 1,
           stencilMemory := fun _ _ i => if i = 0 then 2 else 1 } : Vertex ℚ)
        0 0 1 0).functionMemory 0 0 0 = 1 ∧
    (P1Vertex.smooth_jac
        ({ numNeighborEdges := 2, numNeighborFaces := 0,
           functionMemory := fun id _ _ => if id = 1 then 4 else 1,
           stencilMemory := fun _ _ i => if i = 0 then 2 else 1 } : Vertex ℚ)
        0 0 1 2 0).functionMemory 0 0 0 = 1 := by
  have h := smoother_fixed_point
    ({ numNeighborEdges := 2, numNeighborFaces := 0,
       functionMemory := fun id _ _ => if id = 1 then 4 else 1,
       stencilMemory := fun _ _ i => if i = 0 then 2 else 1 } : Vertex ℚ)
    0 0 1 2 0 (by norm_num)
  refine ⟨by norm_num, ?_, ?_⟩
  · have h1 := h.1 (by norm_num [Finset.sum_range_succ])
    simpa using h1
  · have h2 := h.2 (by norm_num [Finset.sum_range_succ])
    simpa using h2

/-- The level below a level is a different level, also when `level - 1` wraps around. -/
theorem usub_one_ne_self (level : Nat) : usub level 1 ≠ level := by
  unfold usub uintModulus
  split_ifs <;> omega

/-- The loop of `P1Vertex::restrict` entered with loop variable `i`: it adds to the coarse
entry 0 one half of the fine ghost entries `i + 1, i + 3, ...` up to `numNeighborEdges`, and
changes nothing else. -/
theorem restrictLoop_spec {R : Type} [Field R] (memoryId level : Nat) :
    ∀ (m i : Nat) (vertex : Vertex R), vertex.numNeighborEdges - i = m →
      (P1Vertex.restrictLoop memoryId level i vertex).functionMemory memoryId (usub level 1) 0
        = vertex.functionMemory memoryId (usub level 1) 0
          + ∑ j in Finset.range ((vertex.numNeighborEdges - i + 1) / 2),
              1 / 2 * vertex.functionMemory memoryId level (i + 2 * j + 1) ∧
      ∀ id l k, ¬ (id = memoryId ∧ l = usub level 1 ∧ k = 0) →
        (P1Vertex.restrictLoop memoryId level i vertex).functionMemory id l k
          = vertex.functionMemory id l k := by
  intro m
  induction m using Nat.strong_induction_on with
  | _ m ih =>
    intro i vertex hm
    rw [P1Vertex.restrictLoop]
    split_ifs with hlt
    · obtain ⟨ih0, ihframe⟩ := ih (vertex.numNeighborEdges - (i + 1 + 1)) (by omega) (i + 1 + 1)
        (vertex.write memoryId (usub level 1) 0
          (vertex.functionMemory memoryId (usub level 1) 0
            + 1 / 2 * vertex.functionMemory memoryId level (i + 1))) rfl
      have hfine : ∀ k, ¬ (memoryId = memoryId ∧ level = usub level 1 ∧ k = 0) := by
        intro k hk
        exact usub_one_ne_self level hk.2.1.symm
      have hcount : (vertex.numNeighborEdges - i + 1) / 2
          = (vertex.numNeighborEdges - (i + 1 + 1) + 1) / 2 + 1 := by omega
      constructor
      · rw [ih0, hcount, Finset.sum_range_succ']
        simp only [vertex_write_functionMemory, vertex_write_numNeighborEdges, and_self, if_true,
          hfine, if_false, Nat.mul_zero, Nat.add_zero]
        rw [add_assoc]
        congr 1
        rw [add_comm]
        congr 1
        apply Finset.sum_congr rfl
        intro j _
        rw [show i + 1 + 1 + 2 * j + 1 = i + 2 * (j + 1) + 1 by omega]
        rw [if_neg (fun h => usub_one_ne_self level h.2.1.symm)]
      · intro id l k hne
        rw [ihframe id l k hne]
        simp only [vertex_write_functionMemory, hne, if_false]
    · have hcount : (vertex.numNeighborEdges - i + 1) / 2 = 0 := by omega
      rw [hcount]
      simp

/-- The values that `P1Vertex::restrict` after `P1Vertex::prolongate` leaves in the fine and
in the coarse entry 0. -/
theorem restrict_prolongate_values {R : Type} [Field R] (vertex : Vertex R)
    (memoryId sourceLevel : Nat) :
    (P1Vertex.restrict (P1Vertex.prolongate vertex memoryId sourceLevel) memoryId
        (sourceLevel + 1)).functionMemory memoryId (sourceLevel + 1) 0
      = vertex.functionMemory memoryId sourceLevel 0 ∧
    (P1Vertex.restrict (P1Vertex.prolongate vertex memoryId sourceLevel) memoryId
        (sourceLevel + 1)).functionMemory memoryId sourceLevel 0
      = vertex.functionMemory memoryId sourceLevel 0
        + ∑ j in Finset.range ((vertex.numNeighborEdges + 1) / 2),
            1 / 2 * vertex.functionMemory memoryId (sourceLevel + 1) (2 * j + 1) := by
  have hsub : usub (sourceLevel + 1) 1 = sourceLevel := by simp [usub]
  unfold P1Vertex.restrict P1Vertex.prolongate
  obtain ⟨h0, hframe⟩ := restrictLoop_spec memoryId (sourceLevel + 1) _ 0
    ((vertex.write memoryId (sourceLevel + 1) 0 (vertex.functionMemory memoryId sourceLevel 0)).write
      memoryId (usub (sourceLevel + 1) 1) 0
      ((vertex.write memoryId (sourceLevel + 1) 0
        (vertex.functionMemory memoryId sourceLevel 0)).functionMemory memoryId (sourceLevel + 1) 0))
    rfl
  rw [hsub] at h0 hframe
  simp only [hsub]
  constructor
  · rw [hframe memoryId (sourceLevel + 1) 0 (by simp)]
    simp [vertex_write_functionMemory]
  · rw [h0]
    simp [vertex_write_functionMemory, vertex_write_numNeighborEdges]

/-- C13, refuted as stated: for a vertex with one neighbor edge on which the coarse value and
all fine ghost entries are 1, `prolongate` followed by `restrict` leaves the coarse value
1 + 1/2, not 1. -/
theorem prolongate_restrict_constant_counterexample :
    ¬ (∀ (vertex : Vertex ℚ) (memoryId sourceLevel : Nat) (c : ℚ),
        vertex.functionMemory memoryId sourceLevel 0 = c →
        (∀ i, 1 ≤ i → i ≤ vertex.numNeighborEdges →
          vertex.functionMemory memoryId (sourceLevel + 1) i = c) →
        (P1Vertex.restrict (P1Vertex.prolongate vertex memoryId sourceLevel) memoryId
          (sourceLevel + 1)).functionMemory memoryId sourceLevel 0 = c) := by
  intro h
  have h1 := h { numNeighborEdges := 1, numNeighborFaces := 0,
                 functionMemory := fun _ _ _ => 1, stencilMemory := fun _ _ _ => 0 }
    0 0 1 rfl (fun _ _ _ => rfl)
  rw [(restrict_prolongate_values _ 0 0).2] at h1
  norm_num [Finset.sum_range_succ] at h1

/-- C13, amended: if the coarse value data[L][0] is c and every level-(L+1) ghost entry holds
c, then after `prolongate( L )` followed by `restrict( L+1 )` the fine value data[L+1][0]
is c and the coarse value data[L][0] is c + k * (c/2), where k, the number of neighbor edge
entries that the restriction adds, is at most numNeighborEdges and at least 1 when there is a
neighbor edge; in particular the coarse value is c again for a vertex without neighbor
edges. -/
theorem prolongate_restrict_constant {R : Type} [Field R] (vertex : Vertex R)
    (memoryId sourceLevel : Nat) (c : R)
    (hcoarse : vertex.functionMemory memoryId sourceLevel 0 = c)
    (hghost : ∀ i, 1 ≤ i → i ≤ vertex.numNeighborEdges →
      vertex.functionMemory memoryId (sourceLevel + 1) i = c) :
    (P1Vertex.restrict (P1Vertex.prolongate vertex memoryId sourceLevel) memoryId
        (sourceLevel + 1)).functionMemory memoryId (sourceLevel + 1) 0 = c ∧
    (∃ k : Nat, k ≤ vertex.numNeighborEdges ∧ (1 ≤ vertex.numNeighborEdges → 1 ≤ k) ∧
      (P1Vertex.restrict (P1Vertex.prolongate vertex memoryId sourceLevel) memoryId
          (sourceLevel + 1)).functionMemory memoryId sourceLevel 0 = c + k * (1 / 2 * c)) ∧
    (vertex.numNeighborEdges = 0 →
      (P1Vertex.restrict (P1Vertex.prolongate vertex memoryId sourceLevel) memoryId
          (sourceLevel + 1)).functionMemory memoryId sourceLevel 0 = c) := by
  obtain ⟨hfine, hcoarse'⟩ := restrict_prolongate_values vertex memoryId sourceLevel
  have hsum : ∑ j in Finset.range ((vertex.numNeighborEdges + 1) / 2),
      1 / 2 * vertex.functionMemory memoryId (sourceLevel + 1) (2 * j + 1)
      = ((vertex.numNeighborEdges + 1) / 2 : Nat) * (1 / 2 * c) := by
    rw [Finset.sum_congr rfl (fun j hj => by
      rw [hghost (2 * j + 1) (by omega) (by have := Finset.mem_range.mp hj; omega)])]
    simp
  refine ⟨by rw [hfine, hcoarse], ⟨(vertex.numNeighborEdges + 1) / 2, by omega, by omega, ?_⟩, ?_⟩
  · rw [hcoarse', hsum, hcoarse]
  · intro hzero
    rw [hcoarse', hsum, hcoarse, hzero]
    simp

/-- Witness for the amended C13: a vertex with three neighbor edges carrying the constant 4
on both levels. -/
theorem prolongate_restrict_constant_witness :
    ∃ vertex : Vertex ℚ,
      vertex.functionMemory 0 2 0 = 4 ∧
      (∀ i, 1 ≤ i → i ≤ vertex.numNeighborEdges → vertex.functionMemory 0 (2 + 1) i = 4) ∧
      ((P1Vertex.restrict (P1Vertex.prolongate vertex 0 2) 0 (2 + 1)).functionMemory 0 (2 + 1) 0
          = 4 ∧
        (∃ k : Nat, k ≤ vertex.numNeighborEdges ∧ (1 ≤ vertex.numNeighborEdges → 1 ≤ k) ∧
          (P1Vertex.restrict (P1Vertex.prolongate vertex 0 2) 0 (2 + 1)).functionMemory 0 2 0
            = 4 + k * (1 / 2 * 4)) ∧
        (vertex.numNeighborEdges = 0 →
          (P1Vertex.restrict (P1Vertex.prolongate vertex 0 2) 0 (2 + 1)).functionMemory 0 2 0
            = 4)) :=
  ⟨{ numNeighborEdges := 3, numNeighborFaces := 0,
     functionMemory := fun _ _ _ => 4, stencilMemory := fun _ _ _ => 0 },
   rfl, fun _ _ _ => rfl,
   prolongate_restrict_constant _ 0 2 4 rfl (fun _ _ _ => rfl)⟩

/-- C14: for every non-empty list of scalars and equally many source functions,
`P1Vertex::assign` sets the destination DoF to the linear combination
sum over i of scalars[i]*src_i of the source values held before the call, whatever the
destination is, one of the sources included, and changes nothing else. -/
theorem assign_linear_combination {R : Type} [Ring R] (vertex : Vertex R) (scalars : List R)
    (srcIds : List Nat) (dstId level : Nat) (hne : scalars ≠ [])
    (hlen : scalars.length = srcIds.length) :
    ∃ result : Vertex R,
      P1Vertex.assign vertex scalars srcIds dstId level = some result ∧
      result.functionMemory dstId level 0
        = ∑ i in Finset.range srcIds.length,
            scalars.getD i 0 * vertex.functionMemory (srcIds.getD i 0) level 0 ∧
      ∀ id l k, ¬ (id = dstId ∧ l = level ∧ k = 0) →
        result.functionMemory id l k = vertex.functionMemory id l k := by
  have hpos : 0 < srcIds.length := by
    rw [← hlen]; exact List.length_pos.mpr hne
  refine ⟨vertex.write dstId level 0
    ((List.range' 1 (srcIds.length - 1)).foldl
      (fun tmp i => tmp + scalars.getD i 0 * vertex.functionMemory (srcIds.getD i 0) level 0)
      (scalars.getD 0 0 * vertex.functionMemory (srcIds.getD 0 0) level 0)), ?_, ?_, ?_⟩
  · unfold P1Vertex.assign
    rw [if_pos ⟨hpos, by omega⟩]
  · simp only [vertex_write_functionMemory, and_self, if_true]
    rw [foldl_add_range' (fun i =>
      scalars.getD i 0 * vertex.functionMemory (srcIds.getD i 0) level 0)]
    obtain ⟨n, hn⟩ : ∃ n, srcIds.length = n + 1 := ⟨srcIds.length - 1, by omega⟩
    rw [hn, Finset.sum_range_succ', add_comm]
    simp [Nat.add_comm]
  · intro id l k hne'
    simp only [vertex_write_functionMemory, hne', if_false]

/-- Witness for C14, the case of the test: with x = y = 2 (data IDs 0 and 1),
`y.assign( {3, 2}, {x, y} )` leaves y = 10. -/
theorem assign_linear_combination_witness :
    ∃ result : Vertex ℚ,
      P1Vertex.assign
        ({ numNeighborEdges := 3, numNeighborFaces := 3,
           functionMemory := fun _ _ _ => 2, stencilMemory := fun _ _ _ => 0 } : Vertex ℚ)
        [3, 2] [0, 1] 1 4 = some result ∧
      result.functionMemory 1 4 0 = 10 := by
  obtain ⟨result, hres, hval, -⟩ := assign_linear_combination
    ({ numNeighborEdges := 3, numNeighborFaces := 3,
       functionMemory := fun _ _ _ => 2, stencilMemory := fun _ _ _ => 0 } : Vertex ℚ)
    [3, 2] [0, 1] 1 4 (by simp) rfl
  refine ⟨result, hres, ?_⟩
  rw [hval]
  norm_num [Finset.sum_range_succ]

/-- C15: for every list of scalars and equally many source functions, `P1Vertex::add`
increases the destination DoF by the linear combination sum over i of scalars[i]*src_i of the
source values held before the call, whatever the destination is, one of the sources
included, changes nothing else, and leaves the destination unchanged for an empty list. -/
theorem add_linear_combination {R : Type} [Ring R] (vertex : Vertex R) (scalars : List R)
    (srcIds : List Nat) (dstId level : Nat) (hlen : scalars.length = srcIds.length) :
    ∃ result : Vertex R,
      P1Vertex.add vertex scalars srcIds dstId level = some result ∧
      result.functionMemory dstId level 0
        = vertex.functionMemory dstId level 0
          + ∑ i in Finset.range srcIds.length,
              scalars.getD i 0 * vertex.functionMemory (srcIds.getD i 0) level 0 ∧
      (∀ id l k, ¬ (id = dstId ∧ l = level ∧ k = 0) →
        result.functionMemory id l k = vertex.functionMemory id l k) ∧
      (scalars = [] →
        result.functionMemory dstId level 0 = vertex.functionMemory dstId level 0) := by
  have hval : (vertex.write dstId level 0 (vertex.functionMemory dstId level 0 +
        (List.range' 0 srcIds.length).foldl
          (fun tmp i =>
            tmp + scalars.getD i 0 * vertex.functionMemory (srcIds.getD i 0) level 0)
          0)).functionMemory dstId level 0
      = vertex.functionMemory dstId level 0
        + ∑ i in Finset.range srcIds.length,
            scalars.getD i 0 * vertex.functionMemory (srcIds.getD i 0) level 0 := by
    simp only [vertex_write_functionMemory, and_self, if_true]
    rw [foldl_add_range' (fun i =>
      scalars.getD i 0 * vertex.functionMemory (srcIds.getD i 0) level 0)]
    simp
  refine ⟨vertex.write dstId level 0 (vertex.functionMemory dstId level 0 +
    (List.range' 0 srcIds.length).foldl
      (fun tmp i => tmp + scalars.getD i 0 * vertex.functionMemory (srcIds.getD i 0) level 0)
      0), ?_, hval, ?_, ?_⟩
  · unfold P1Vertex.add
    rw [if_pos (by omega)]
  · intro id l k hne'
    simp only [vertex_write_functionMemory, hne', if_false]
  · intro hnil
    rw [hval]
    have hzero : srcIds.length = 0 := by rw [← hlen, hnil]; rfl
    rw [hzero]
    simp

/-- Witness for C15, the case of the test: with x = 2 and y = 10 (data IDs 0 and 1),
`y.add( {4, 3}, {x, y} )` leaves y = 48, and `dot( y, x )` is then 48 * 2 at the vertex. -/
theorem add_linear_combination_witness :
    ∃ result : Vertex ℚ,
      P1Vertex.add
        ({ numNeighborEdges := 3, numNeighborFaces := 3,
           functionMemory := fun id _ _ => if id = 0 then 2 else 10,
           stencilMemory := fun _ _ _ => 0 } : Vertex ℚ)
        [4, 3] [0, 1] 1 4 = some result ∧
      result.functionMemory 1 4 0 = 48 ∧
      P1Vertex.dot result 1 0 4 = 48 * 2 := by
  obtain ⟨result, hres, hval, hframe, -⟩ := add_linear_combination
    ({ numNeighborEdges := 3, numNeighborFaces := 3,
       functionMemory := fun id _ _ => if id = 0 then 2 else 10,
       stencilMemory := fun _ _ _ => 0 } : Vertex ℚ)
    [4, 3] [0, 1] 1 4 rfl
  have h48 : result.functionMemory 1 4 0 = 48 := by
    rw [hval]
    norm_num [Finset.sum_range_succ]
  refine ⟨result, hres, h48, ?_⟩
  unfold P1Vertex.dot
  rw [h48, hframe 0 4 0 (by simp)]
  norm_num

/-- C16, refuted as stated: for width = 2^64 - 1, the largest value of `uint_t`, the sum
`width + 1` in `unwrapNumRows` wraps around to 0: the rectangle has 2^64 - 1 columns and no
row, hence no point, while the triangular layout has width * (width + 1) / 2 = 2^127 - 2^63
points. -/
theorem unwrap_rectangle_size_at_max_width :
    unwrapNumCols uintMax = 18446744073709551615 ∧ unwrapNumRows uintMax = 0 ∧
    unwrapNumCols uintMax * unwrapNumRows uintMax = 0 ∧
    uintMax * (uintMax + 1) / 2 = 170141183460469231722463931679029329920 ∧
    unwrapNumCols uintMax * unwrapNumRows uintMax ≠ uintMax * (uintMax + 1) / 2 := by
  decide

/-- C16, amended: for every width below 2^64 - 1 (so that `width + 1` is representable in
`uint_t`) the rectangular unwrap iteration space has as many points as the triangular face
layout, `unwrapNumCols * unwrapNumRows = width * (width + 1) / 2`, which for width = 2^L + 1
is (2^L + 1)(2^L + 2)/2. -/
theorem unwrap_rectangle_size (width : Nat) (hmax : width + 1 < uintModulus) :
    unwrapNumCols width * unwrapNumRows width = width * (width + 1) / 2 ∧
    ∀ L : Nat, width = 2 ^ L + 1 →
      unwrapNumCols width * unwrapNumRows width = (2 ^ L + 1) * (2 ^ L + 2) / 2 := by
  have hmain : unwrapNumCols width * unwrapNumRows width = width * (width + 1) / 2 := by
    rw [unwrapNumCols_eq width hmax, unwrapNumRows_eq width hmax]
    split_ifs with h
    · obtain ⟨k, rfl⟩ : ∃ k, width = 2 * k := ⟨width / 2, by omega⟩
      rw [Nat.mul_div_cancel_left k (by norm_num : 0 < 2), Nat.mul_assoc,
        Nat.mul_div_cancel_left _ (by norm_num : 0 < 2), Nat.mul_comm]
    · obtain ⟨k, rfl⟩ : ∃ k, width = 2 * k + 1 := ⟨width / 2, by omega⟩
      have h1 : (2 * k + 1 + 1) / 2 = k + 1 := by omega
      have h2 : (2 * k + 1) * (2 * k + 1 + 1) = 2 * ((2 * k + 1) * (k + 1)) := by ring
      rw [h1, h2, Nat.mul_div_cancel_left _ (by norm_num : 0 < 2)]
  refine ⟨hmain, ?_⟩
  intro L hL
  rw [hmain, hL]

/-- Witness for the amended C16 at width 9 (level 3): 9 * 5 = 45 points. -/
theorem unwrap_rectangle_size_witness :
    9 + 1 < uintModulus ∧
    (unwrapNumCols 9 * unwrapNumRows 9 = 9 * (9 + 1) / 2 ∧
     ∀ L : Nat, 9 = 2 ^ L + 1 →
       unwrapNumCols 9 * unwrapNumRows 9 = (2 ^ L + 1) * (2 ^ L + 2) / 2) :=
  ⟨by decide, unwrap_rectangle_size 9 (by decide)⟩

/-! ### AffineMap3D as a map -/

/-- C17: an AffineMap3D built from the matrix M and the vector v implements x -> M x + v: for
every point x, `evalF` yields M*x + v, and `evalDF` yields DFx = M together with the Jacobian
determinant, which is det(M) and does not depend on x. -/
theorem affineMap3D_is_affine {R : Type} [CommRing R] (mat : Matrix3r R) (vec : Point3D R)
    (x : Point3D R) :
    (AffineMap3D.new mat vec).evalF x = Matrix.mulVec (Matrix.of mat) x + vec ∧
    (AffineMap3D.new mat vec).evalDF x = (mat, Matrix.det (Matrix.of mat)) ∧
    ∀ y : Point3D R, (AffineMap3D.new mat vec).evalDF y = (AffineMap3D.new mat vec).evalDF x := by
  refine ⟨?_, ?_, fun _ => rfl⟩
  · funext i
    fin_cases i <;>
      simp [AffineMap3D.evalF, AffineMap3D.new, Matrix.mulVec, Matrix.dotProduct,
        Fin.sum_univ_three]
  · simp only [AffineMap3D.evalDF, AffineMap3D.new, Matrix.det_fin_three, Matrix.of_apply,
      Prod.mk.injEq, true_and]
    ring

/-! ### Cell geometry -/

/-- The determinant of a 4 x 4 matrix, expanded along its first row. -/
theorem det_fin_four_expansion {R : Type} [CommRing R] (A : Matrix (Fin 4) (Fin 4) R) :
    A.det =
      A 0 0 * (A 1 1 * A 2 2 * A 3 3 - A 1 1 * A 2 3 * A 3 2 - A 1 2 * A 2 1 * A 3 3
                + A 1 2 * A 2 3 * A 3 1 + A 1 3 * A 2 1 * A 3 2 - A 1 3 * A 2 2 * A 3 1)
      - A 0 1 * (A 1 0 * A 2 2 * A 3 3 - A 1 0 * A 2 3 * A 3 2 - A 1 2 * A 2 0 * A 3 3
                + A 1 2 * A 2 3 * A 3 0 + A 1 3 * A 2 0 * A 3 2 - A 1 3 * A 2 2 * A 3 0)
      + A 0 2 * (A 1 0 * A 2 1 * A 3 3 - A 1 0 * A 2 3 * A 3 1 - A 1 1 * A 2 0 * A 3 3
                + A 1 1 * A 2 3 * A 3 0 + A 1 3 * A 2 0 * A 3 1 - A 1 3 * A 2 1 * A 3 0)
      - A 0 3 * (A 1 0 * A 2 1 * A 3 2 - A 1 0 * A 2 2 * A 3 1 - A 1 1 * A 2 0 * A 3 2
                + A 1 1 * A 2 2 * A 3 0 + A 1 2 * A 2 0 * A 3 1 - A 1 2 * A 2 1 * A 3 0) := by
  rw [Matrix.det_succ_row_zero]
  simp only [Fin.sum_univ_succ, Finset.univ_eq_empty, Finset.sum_empty, Matrix.det_fin_three,
    Matrix.submatrix_apply]
  have e1 : (Fin.succ (0 : Fin 3) : Fin 4) = 1 := rfl
  have e2 : (Fin.succ (1 : Fin 3) : Fin 4) = 2 := rfl
  have e3 : (Fin.succ (2 : Fin 3) : Fin 4) = 3 := rfl
  have s00 : Fin.succAbove (0 : Fin 4) (0 : Fin 3) = 1 := rfl
  have s01 : Fin.succAbove (0 : Fin 4) (1 : Fin 3) = 2 := rfl
  have s02 : Fin.succAbove (0 : Fin 4) (2 : Fin 3) = 3 := rfl
  have s10 : Fin.succAbove (1 : Fin 4) (0 : Fin 3) = 0 := rfl
  have s11 : Fin.succAbove (1 : Fin 4) (1 : Fin 3) = 2 := rfl
  have s12 : Fin.succAbove (1 : Fin 4) (2 : Fin 3) = 3 := rfl
  have s20 : Fin.succAbove (2 : Fin 4) (0 : Fin 3) = 0 := rfl
  have s21 : Fin.succAbove (2 : Fin 4) (1 : Fin 3) = 1 := rfl
  have s22 : Fin.succAbove (2 : Fin 4) (2 : Fin 3) = 3 := rfl
  have s30 : Fin.succAbove (3 : Fin 4) (0 : Fin 3) = 0 := rfl
  have s31 : Fin.succAbove (3 : Fin 4) (1 : Fin 3) = 1 := rfl
  have s32 : Fin.succAbove (3 : Fin 4) (2 : Fin 3) = 2 := rfl
  have v2 : ((2 : Fin 4) : ℕ) = 2 := rfl
  have v3 : ((3 : Fin 4) : ℕ) = 3 := rfl
  simp only [Fin.succ_zero_eq_one, Fin.succ_one_eq_two, e1, e2, e3, s00, s01, s02, s10, s11, s12,
    s20, s21, s22, s30, s31, s32, Fin.val_zero, Fin.val_succ, Fin.val_one, Fin.val_two, v2, v3]
  norm_num
  ring

/-- The determinant in `Cell::getVolume` is, up to sign, the triple product of the edge
vectors b - a, c - a and d - a. -/
theorem cell_volume_det {R : Type} [CommRing R] (c : Cell R) :
    c.getVolumeMatrix.det
      = - Matrix.dotProduct (c.coordinates_ 1 - c.coordinates_ 0)
          (crossProduct (c.coordinates_ 2 - c.coordinates_ 0)
            (c.coordinates_ 3 - c.coordinates_ 0)) := by
  have h0 : ∀ i, c.getVolumeMatrix i 0 = c.coordinates_ i 0 := fun _ => rfl
  have h1 : ∀ i, c.getVolumeMatrix i 1 = c.coordinates_ i 1 := fun _ => rfl
  have h2 : ∀ i, c.getVolumeMatrix i 2 = c.coordinates_ i 2 := fun _ => rfl
  have h3 : ∀ i, c.getVolumeMatrix i 3 = 1 := fun _ => rfl
  rw [det_fin_four_expansion]
  simp only [h0, h1, h2, h3, cross_apply, Matrix.dotProduct, Fin.sum_univ_three, Pi.sub_apply,
    Matrix.cons_val_zero, Matrix.cons_val_one, Matrix.head_cons, Matrix.cons_val_two,
    Matrix.tail_cons]
  ring

/-- Three vectors have a common nonzero normal exactly when their determinant vanishes. -/
theorem common_normal_iff_det {R : Type} [Field R] (a : Point3D R) (p : Fin 4 → Point3D R)
    (ha : p 0 = a) :
    Matrix.det (![p 1 - a, p 2 - a, p 3 - a] : Matrix (Fin 3) (Fin 3) R) = 0 ↔
      ∃ n : Point3D R, n ≠ 0 ∧ ∀ i, Matrix.dotProduct n (p i - a) = 0 := by
  rw [← Matrix.exists_mulVec_eq_zero_iff]
  have hrow : ∀ v : Point3D R,
      Matrix.mulVec (![p 1 - a, p 2 - a, p 3 - a] : Matrix (Fin 3) (Fin 3) R) v = 0 ↔
        ∀ i, Matrix.dotProduct v (p i - a) = 0 := by
    intro v
    constructor
    · intro hmul i
      have h1 := congrFun hmul 0
      have h2 := congrFun hmul 1
      have h3 := congrFun hmul 2
      simp only [Matrix.mulVec, Matrix.cons_val_zero, Matrix.cons_val_one,
        Matrix.head_cons, Matrix.cons_val_two, Matrix.tail_cons, Pi.zero_apply] at h1 h2 h3
      fin_cases i
      · simp [ha]
      · rw [Matrix.dotProduct_comm]; exact h1
      · rw [Matrix.dotProduct_comm]; exact h2
      · rw [Matrix.dotProduct_comm]; exact h3
    · intro hdot
      funext i
      fin_cases i
      · simpa only [Matrix.mulVec, Matrix.cons_val_zero, Matrix.dotProduct_comm] using hdot 1
      · simpa only [Matrix.mulVec, Matrix.cons_val_one, Matrix.head_cons, Matrix.dotProduct_comm]
          using hdot 2
      · simpa only [Matrix.mulVec, Matrix.cons_val_two, Matrix.tail_cons, Matrix.head_cons,
          Matrix.dotProduct_comm] using hdot 3
  constructor
  · rintro ⟨v, hv, hmul⟩
    exact ⟨v, hv, (hrow v).mp hmul⟩
  · rintro ⟨n, hn, hdot⟩
    exact ⟨n, hn, (hrow n).mpr hdot⟩

/-- C18: over exact arithmetic `Cell::getVolume` returns |(b-a) . ((c-a) x (d-a))| / 6 for the
four vertices a, b, c, d; it is therefore non-negative, invariant under every permutation of
the four vertices, and zero exactly when the vertices are coplanar (they lie in a plane with
a nonzero normal n through a). -/
theorem cell_getVolume_spec {R : Type} [LinearOrderedField R] (c : Cell R) :
    c.getVolume
      = |Matrix.dotProduct (c.coordinates_ 1 - c.coordinates_ 0)
          (crossProduct (c.coordinates_ 2 - c.coordinates_ 0)
            (c.coordinates_ 3 - c.coordinates_ 0))| / 6 ∧
    0 ≤ c.getVolume ∧
    (∀ σ : Equiv.Perm (Fin 4),
      Cell.getVolume { c with coordinates_ := fun i => c.coordinates_ (σ i) } = c.getVolume) ∧
    (c.getVolume = 0 ↔
      ∃ n : Point3D R, n ≠ 0 ∧
        ∀ i, Matrix.dotProduct n (c.coordinates_ i - c.coordinates_ 0) = 0) := by
  refine ⟨?_, ?_, ?_, ?_⟩
  · unfold Cell.getVolume
    rw [cell_volume_det, abs_neg]
  · unfold Cell.getVolume
    exact div_nonneg (abs_nonneg _) (by norm_num)
  · intro σ
    have hsub : Cell.getVolumeMatrix { c with coordinates_ := fun i => c.coordinates_ (σ i) }
        = c.getVolumeMatrix.submatrix σ id := by
      ext i j; rfl
    unfold Cell.getVolume
    rw [hsub, Matrix.det_permute, abs_mul]
    rcases Int.units_eq_one_or (Equiv.Perm.sign σ) with h | h <;> simp [h]
  · rw [← common_normal_iff_det (c.coordinates_ 0) c.coordinates_ rfl]
    unfold Cell.getVolume
    rw [cell_volume_det, triple_product_eq_det]
    simp

/-- C19: over exact arithmetic, for every non-degenerate tetrahedron (nonzero volume) the
radius r returned by `Cell::getInsphereRadius` satisfies r * A = 3 * getVolume(), where A is
the sum of the areas of the faces ABC, ABD, ACD and BCD, each half the norm of the cross
product of two edge vectors.  The norm is any function that is non-negative and vanishes
only at the zero vector. -/
theorem cell_getInsphereRadius_spec {R : Type} [LinearOrderedField R] (norm : Point3D R → R)
    (hnonneg : ∀ x, 0 ≤ norm x) (hzero : ∀ x, norm x = 0 → x = 0) (cell : Cell R)
    (hvolume : cell.getVolume ≠ 0) :
    cell.getInsphereRadius norm *
        (norm (crossProduct (cell.coordinates_ 1 - cell.coordinates_ 0)
            (cell.coordinates_ 2 - cell.coordinates_ 0)) / 2
          + norm (crossProduct (cell.coordinates_ 1 - cell.coordinates_ 0)
              (cell.coordinates_ 3 - cell.coordinates_ 0)) / 2
          + norm (crossProduct (cell.coordinates_ 2 - cell.coordinates_ 0)
              (cell.coordinates_ 3 - cell.coordinates_ 0)) / 2
          + norm (crossProduct (cell.coordinates_ 2 - cell.coordinates_ 1)
              (cell.coordinates_ 3 - cell.coordinates_ 1)) / 2)
      = 3 * cell.getVolume := by
  have hcross : crossProduct (cell.coordinates_ 2 - cell.coordinates_ 0)
      (cell.coordinates_ 3 - cell.coordinates_ 0) ≠ 0 := by
    intro h
    apply hvolume
    unfold Cell.getVolume
    rw [cell_volume_det, h]
    simp
  have hpos : 0 < norm (crossProduct (cell.coordinates_ 2 - cell.coordinates_ 0)
      (cell.coordinates_ 3 - cell.coordinates_ 0)) :=
    lt_of_le_of_ne (hnonneg _) (fun h => hcross (hzero _ h.symm))
  have hsum : norm (crossProduct (cell.coordinates_ 1 - cell.coordinates_ 0)
            (cell.coordinates_ 2 - cell.coordinates_ 0))
          + norm (crossProduct (cell.coordinates_ 1 - cell.coordinates_ 0)
              (cell.coordinates_ 3 - cell.coordinates_ 0))
          + norm (crossProduct (cell.coordinates_ 2 - cell.coordinates_ 0)
              (cell.coordinates_ 3 - cell.coordinates_ 0))
          + norm (crossProduct (cell.coordinates_ 2 - cell.coordinates_ 1)
              (cell.coordinates_ 3 - cell.coordinates_ 1)) ≠ 0 := by
    have h1 := hnonneg (crossProduct (cell.coordinates_ 1 - cell.coordinates_ 0)
      (cell.coordinates_ 2 - cell.coordinates_ 0))
    have h2 := hnonneg (crossProduct (cell.coordinates_ 1 - cell.coordinates_ 0)
      (cell.coordinates_ 3 - cell.coordinates_ 0))
    have h4 := hnonneg (crossProduct (cell.coordinates_ 2 - cell.coordinates_ 1)
      (cell.coordinates_ 3 - cell.coordinates_ 1))
    exact ne_of_gt (by linarith)
  unfold Cell.getInsphereRadius
  simp only []
  generalize norm (crossProduct (cell.coordinates_ 1 - cell.coordinates_ 0)
    (cell.coordinates_ 2 - cell.coordinates_ 0)) = lABC at hsum ⊢
  generalize norm (crossProduct (cell.coordinates_ 1 - cell.coordinates_ 0)
    (cell.coordinates_ 3 - cell.coordinates_ 0)) = lABD at hsum ⊢
  generalize norm (crossProduct (cell.coordinates_ 2 - cell.coordinates_ 0)
    (cell.coordinates_ 3 - cell.coordinates_ 0)) = lACD at hsum ⊢
  generalize norm (crossProduct (cell.coordinates_ 2 - cell.coordinates_ 1)
    (cell.coordinates_ 3 - cell.coordinates_ 1)) = lBCD at hsum ⊢
  generalize cell.getVolume = volume
  field_simp
  ring

/-- Witness for C19: the reference tetrahedron with vertices 0, e1, e2, e3 over the real
numbers, with the Euclidean norm. -/
theorem cell_getInsphereRadius_spec_witness :
    ∃ (norm : Point3D ℝ → ℝ) (cell : Cell ℝ),
      norm = (fun x => Real.sqrt (x 0 ^ 2 + x 1 ^ 2 + x 2 ^ 2)) ∧
      cell.coordinates_ = ![![0, 0, 0], ![1, 0, 0], ![0, 1, 0], ![0, 0, 1]] ∧
      (∀ x, 0 ≤ norm x) ∧ (∀ x, norm x = 0 → x = 0) ∧ cell.getVolume ≠ 0 ∧
      cell.getInsphereRadius norm *
          (norm (crossProduct (cell.coordinates_ 1 - cell.coordinates_ 0)
              (cell.coordinates_ 2 - cell.coordinates_ 0)) / 2
            + norm (crossProduct (cell.coordinates_ 1 - cell.coordinates_ 0)
                (cell.coordinates_ 3 - cell.coordinates_ 0)) / 2
            + norm (crossProduct (cell.coordinates_ 2 - cell.coordinates_ 0)
                (cell.coordinates_ 3 - cell.coordinates_ 0)) / 2
            + norm (crossProduct (cell.coordinates_ 2 - cell.coordinates_ 1)
                (cell.coordinates_ 3 - cell.coordinates_ 1)) / 2)
        = 3 * cell.getVolume := by
  have hnonneg : ∀ x : Point3D ℝ, 0 ≤ Real.sqrt (x 0 ^ 2 + x 1 ^ 2 + x 2 ^ 2) :=
    fun x => Real.sqrt_nonneg _
  have hzero : ∀ x : Point3D ℝ, Real.sqrt (x 0 ^ 2 + x 1 ^ 2 + x 2 ^ 2) = 0 → x = 0 := by
    intro x hx
    have hle : x 0 ^ 2 + x 1 ^ 2 + x 2 ^ 2 ≤ 0 := Real.sqrt_eq_zero'.mp hx
    have h0 : x 0 = 0 := by nlinarith [sq_nonneg (x 0), sq_nonneg (x 1), sq_nonneg (x 2)]
    have h1 : x 1 = 0 := by nlinarith [sq_nonneg (x 0), sq_nonneg (x 1), sq_nonneg (x 2)]
    have h2 : x 2 = 0 := by nlinarith [sq_nonneg (x 0), sq_nonneg (x 1), sq_nonneg (x 2)]
    funext i
    fin_cases i
    · exact h0
    · exact h1
    · exact h2
  have hvolume : Cell.getVolume
      ({ primitiveID_ := 0, neighborVertices_ := [1, 2, 3, 4],
         neighborEdges_ := [5, 6, 7, 8, 9, 10], neighborFaces_ := [11, 12, 13, 14],
         neighborCells_ := [],
         coordinates_ := ![![0, 0, 0], ![1, 0, 0], ![0, 1, 0], ![0, 0, 1]],
         edgeLocalVertexToCellLocalVertexMaps_ := fun _ => [(0, 0), (1, 1)],
         faceLocalVertexToCellLocalVertexMaps_ := fun _ => [(0, 0), (1, 1), (2, 2)],
         faceInwardNormals_ := fun _ => 0,
         indirectNeighborCellIDsOverVertices_ := [],
         indirectNeighborCellIDsOverFaces_ := [] } : Cell ℝ) ≠ 0 := by
    unfold Cell.getVolume
    rw [cell_volume_det]
    simp [cross_apply, Matrix.dotProduct, Fin.sum_univ_three]
  exact ⟨_, _, rfl, rfl, hnonneg, hzero, hvolume,
    cell_getInsphereRadius_spec _ hnonneg hzero _ hvolume⟩

/-! ### Unimplemented specializations -/

/-- C20: unimplemented specializations abort instead of returning data.  `AffineMap3D::evalDF`
and `AffineMap3D::evalDFinv` with a 2D matrix argument abort for every input.  For every
value type other than `real_t` the operations `evaluate`, `evaluateOnMicroElement`,
`add( vector, level, flag )` and all six `interpolate` overloads of `N1E1VectorFunction` abort
and leave every DoF as it was.  `assign`, `add( scalars, functions )` and `multElementwise`
end exactly as the function of `EdgeDoFFunction` that they call, whatever the value type. -/
theorem unimplemented_specializations_abort {R S V D : Type} :
    (∀ (m : AffineMap3D R) (x : Point3D R) (DFx : Matrix2r R),
      ∃ message, m.evalDF2D x DFx = Outcome.aborted message) ∧
    (∀ (m : AffineMap3D R) (x : Point3D R) (DFinvx : Matrix2r R),
      ∃ message, m.evalDFinv2D x DFinvx = Outcome.aborted message) ∧
    (∀ (f : N1E1VectorFunction R S V D) (dofs : D), f.valueTypeIsReal = false →
      (∀ physicalCoords level value searchToleranceRadius, ∃ message,
        f.evaluate physicalCoords level value searchToleranceRadius dofs
          = (Outcome.aborted message, dofs)) ∧
      (∀ xComp level cellID elementIndex cellType value, ∃ message,
        f.evaluateOnMicroElement xComp level cellID elementIndex cellType value dofs
          = (Outcome.aborted message, dofs)) ∧
      (∀ vector level flag, ∃ message,
        f.addVector vector level flag dofs = (Outcome.aborted message, dofs)) ∧
      (∀ constant level flag, ∃ message,
        f.interpolateConstant constant level flag dofs = (Outcome.aborted message, dofs)) ∧
      (∀ constant level boundaryUID, ∃ message,
        f.interpolateConstantBoundary constant level boundaryUID dofs
          = (Outcome.aborted message, dofs)) ∧
      (∀ expr level flag, ∃ message,
        f.interpolateExpr expr level flag dofs = (Outcome.aborted message, dofs)) ∧
      (∀ expr level boundaryUID, ∃ message,
        f.interpolateExprBoundary expr level boundaryUID dofs
          = (Outcome.aborted message, dofs)) ∧
      (∀ expr srcFunctions level flag, ∃ message,
        f.interpolateExtended expr srcFunctions level flag dofs
          = (Outcome.aborted message, dofs)) ∧
      (∀ expr srcFunctions level boundaryUID, ∃ message,
        f.interpolateExtendedBoundary expr srcFunctions level boundaryUID dofs
          = (Outcome.aborted message, dofs))) ∧
    (∀ (f : N1E1VectorFunction R S V D) (isReal : Bool) (dofs : D),
      (∀ scalars functions level flag,
        N1E1VectorFunction.assign { f with valueTypeIsReal := isReal } scalars functions level
            flag dofs
          = f.dofsAssign scalars (functions.map f.getDoFs) level flag dofs) ∧
      (∀ scalars functions level flag,
        N1E1VectorFunction.add { f with valueTypeIsReal := isReal } scalars functions level
            flag dofs
          = f.dofsAdd scalars (functions.map f.getDoFs) level flag dofs) ∧
      (∀ functions level flag,
        N1E1VectorFunction.multElementwise { f with valueTypeIsReal := isReal } functions level
            flag dofs
          = f.dofsMultElementwise (functions.map f.getDoFs) level flag dofs)) := by
  refine ⟨fun _ _ _ => ⟨_, rfl⟩, fun _ _ _ => ⟨_, rfl⟩, ?_, ?_⟩
  · intro f dofs hreal
    refine ⟨?_, ?_, ?_, ?_, ?_, ?_, ?_, ?_, ?_⟩
    · intro _ _ _ _
      exact ⟨_, by simp only [N1E1VectorFunction.evaluate, hreal]; rfl⟩
    · intro _ _ _ _ _ _
      exact ⟨_, by simp only [N1E1VectorFunction.evaluateOnMicroElement, hreal]; rfl⟩
    · intro _ _ _
      exact ⟨_, by simp only [N1E1VectorFunction.addVector, hreal]; rfl⟩
    · intro _ _ _
      exact ⟨_, by simp only [N1E1VectorFunction.interpolateConstant, hreal]; rfl⟩
    · intro _ _ _
      exact ⟨_, by simp only [N1E1VectorFunction.interpolateConstantBoundary, hreal]; rfl⟩
    · intro _ _ _
      exact ⟨_, by simp only [N1E1VectorFunction.interpolateExpr,
        N1E1VectorFunction.interpolateExtended, hreal]; rfl⟩
    · intro _ _ _
      exact ⟨_, by simp only [N1E1VectorFunction.interpolateExprBoundary,
        N1E1VectorFunction.interpolateExtendedBoundary, hreal]; rfl⟩
    · intro _ _ _ _
      exact ⟨_, by simp only [N1E1VectorFunction.interpolateExtended, hreal]; rfl⟩
    · intro _ _ _ _
      exact ⟨_, by simp only [N1E1VectorFunction.interpolateExtendedBoundary, hreal]; rfl⟩
  · intro f isReal dofs
    exact ⟨fun _ _ _ _ => rfl, fun _ _ _ _ => rfl, fun _ _ _ => rfl⟩

/-! ### Frame of the vertex kernels -/

/-- Nothing modified is a special case. -/
theorem onlyEntryZeroModified_refl {R : Type} (vertex : Vertex R) (id level : Nat) :
    Vertex.OnlyEntryZeroModified vertex vertex id level :=
  ⟨rfl, rfl, rfl, fun _ _ _ _ => rfl⟩

/-- Modifications of the same entry compose. -/
theorem onlyEntryZeroModified_trans {R : Type} {a b c : Vertex R} {id level : Nat}
    (hab : Vertex.OnlyEntryZeroModified a b id level)
    (hbc : Vertex.OnlyEntryZeroModified b c id level) :
    Vertex.OnlyEntryZeroModified a c id level :=
  ⟨hbc.1.trans hab.1, hbc.2.1.trans hab.2.1, hbc.2.2.1.trans hab.2.2.1,
    fun id' level' i' h => (hbc.2.2.2 id' level' i' h).trans (hab.2.2.2 id' level' i' h)⟩

/-- An assignment to entry 0 modifies entry 0 only. -/
theorem onlyEntryZeroModified_write {R : Type} (vertex : Vertex R) (id level : Nat) (value : R) :
    Vertex.OnlyEntryZeroModified vertex (vertex.write id level 0 value) id level :=
  ⟨rfl, rfl, rfl, fun id' level' i' h => by simp only [vertex_write_functionMemory, h, if_false]⟩

/-- A loop whose body modifies entry 0 only modifies entry 0 only. -/
theorem onlyEntryZeroModified_foldl {R α : Type} (f : Vertex R → α → Vertex R) (id level : Nat)
    (hf : ∀ v x, Vertex.OnlyEntryZeroModified v (f v x) id level) :
    ∀ (xs : List α) (vertex : Vertex R),
      Vertex.OnlyEntryZeroModified vertex (xs.foldl f vertex) id level := by
  intro xs
  induction xs with
  | nil => intro vertex; exact onlyEntryZeroModified_refl vertex id level
  | cons x xs ih =>
    intro vertex
    exact onlyEntryZeroModified_trans (hf vertex x) (ih (f vertex x))

/-- The loop of `P1Vertex::restrict` modifies entry 0 of the coarse array only. -/
theorem onlyEntryZeroModified_restrictLoop {R : Type} [Field R] (memoryId level : Nat) :
    ∀ (m i : Nat) (vertex : Vertex R), vertex.numNeighborEdges - i = m →
      Vertex.OnlyEntryZeroModified vertex (P1Vertex.restrictLoop memoryId level i vertex)
        memoryId (usub level 1) := by
  intro m
  induction m using Nat.strong_induction_on with
  | _ m ih =>
    intro i vertex hm
    rw [P1Vertex.restrictLoop]
    split_ifs with hlt
    · exact onlyEntryZeroModified_trans (onlyEntryZeroModified_write vertex _ _ _)
        (ih (vertex.numNeighborEdges - (i + 1 + 1)) (by omega) (i + 1 + 1) _ rfl)
    · exact onlyEntryZeroModified_refl vertex _ _

/-- C21: ghost entries are read-only for the vertex kernels: each of `P1Vertex::interpolate`,
`assign`, `add`, `apply`, `smooth_gs`, `smooth_jac`, `enumerate`, `prolongate` and `restrict`
modifies at most entry 0 of the destination array at a single level (the given level,
sourceLevel + 1 for `prolongate`, level - 1 for `restrict`); the ghost entries of every
array, all other levels and arrays, and the stencils are left unchanged. -/
theorem vertex_kernels_modify_entry_zero_only {R P : Type} [Field R] (vertex : Vertex R)
    (operatorId srcId dstId rhsId tmpId level num : Nat) (coordinates : P) (expr : P → R)
    (scalars : List R) (srcIds : List Nat) (update : UpdateType) :
    Vertex.OnlyEntryZeroModified vertex
      (P1Vertex.interpolate vertex coordinates dstId expr level) dstId level ∧
    (∀ result, P1Vertex.assign vertex scalars srcIds dstId level = some result →
      Vertex.OnlyEntryZeroModified vertex result dstId level) ∧
    (∀ result, P1Vertex.add vertex scalars srcIds dstId level = some result →
      Vertex.OnlyEntryZeroModified vertex result dstId level) ∧
    Vertex.OnlyEntryZeroModified vertex
      (P1Vertex.apply vertex operatorId srcId dstId level update) dstId level ∧
    Vertex.OnlyEntryZeroModified vertex
      (P1Vertex.smooth_gs vertex operatorId dstId rhsId level) dstId level ∧
    Vertex.OnlyEntryZeroModified vertex
      (P1Vertex.smooth_jac vertex operatorId dstId rhsId tmpId level) dstId level ∧
    Vertex.OnlyEntryZeroModified vertex
      (P1Vertex.enumerate vertex dstId level num).1 dstId level ∧
    Vertex.OnlyEntryZeroModified vertex
      (P1Vertex.prolongate vertex dstId level) dstId (level + 1) ∧
    Vertex.OnlyEntryZeroModified vertex
      (P1Vertex.restrict vertex dstId level) dstId (usub level 1) := by
  refine ⟨?_, ?_, ?_, ?_, ?_, ?_, ?_, ?_, ?_⟩
  · exact onlyEntryZeroModified_write _ _ _ _
  · intro result hres
    unfold P1Vertex.assign at hres
    split_ifs at hres
    rw [← Option.some.inj hres]
    exact onlyEntryZeroModified_write _ _ _ _
  · intro result hres
    unfold P1Vertex.add at hres
    split_ifs at hres
    rw [← Option.some.inj hres]
    exact onlyEntryZeroModified_write _ _ _ _
  · unfold P1Vertex.apply
    cases update
    · exact onlyEntryZeroModified_trans (onlyEntryZeroModified_write vertex _ _ _)
        (onlyEntryZeroModified_foldl _ dstId level
          (fun v _ => onlyEntryZeroModified_write v _ _ _) _ _)
    · exact onlyEntryZeroModified_trans (onlyEntryZeroModified_write vertex _ _ _)
        (onlyEntryZeroModified_foldl _ dstId level
          (fun v _ => onlyEntryZeroModified_write v _ _ _) _ _)
  · unfold P1Vertex.smooth_gs
    exact onlyEntryZeroModified_trans
      (onlyEntryZeroModified_trans (onlyEntryZeroModified_write vertex _ _ _)
        (onlyEntryZeroModified_foldl _ dstId level
          (fun v _ => onlyEntryZeroModified_write v _ _ _) _ _))
      (onlyEntryZeroModified_write _ _ _ _)
  · unfold P1Vertex.smooth_jac
    exact onlyEntryZeroModified_trans
      (onlyEntryZeroModified_trans (onlyEntryZeroModified_write vertex _ _ _)
        (onlyEntryZeroModified_foldl _ dstId level
          (fun v _ => onlyEntryZeroModified_write v _ _ _) _ _))
      (onlyEntryZeroModified_write _ _ _ _)
  · exact onlyEntryZeroModified_write _ _ _ _
  · exact onlyEntryZeroModified_write _ _ _ _
  · unfold P1Vertex.restrict
    exact onlyEntryZeroModified_trans (onlyEntryZeroModified_write vertex _ _ _)
      (onlyEntryZeroModified_restrictLoop dstId level _ 0 _ rfl)

/-! ### The documented unwrap example and the unwrap subtractions -/

/-- C22: the documented level-2 example: for width 5 the rectangle has 3 rows and 5 columns,
and the row-wise triangular index of the unwrapped coordinate runs through 0,1,2,3,4 in row
0, through 5,6,7,8,14 in row 1 and through 9,10,11,12,13 in row 2. -/
theorem unwrap_level2_example :
    unwrapNumRows 5 = 3 ∧ unwrapNumCols 5 = 5 ∧
    (List.range 3).map (fun row =>
      (List.range 5).map (fun col =>
        macroFaceIndex 5 (unwrapCol 5 col row) (unwrapRow 5 col row)))
      = [[0, 1, 2, 3, 4], [5, 6, 7, 8, 14], [9, 10, 11, 12, 13]] := by
  decide

/-- C29: for every width >= 1 and every coordinate of the unwrap iteration space no unsigned
subtraction that `unwrapCol` or `unwrapRow` evaluates goes below zero: evaluated with checked
subtractions both functions return their value, and for odd width the branch that computes
row - 1 is only taken when row >= 1. -/
theorem unwrap_subtractions_do_not_wrap (width col row : Nat) (hw : 1 ≤ width)
    (hc : col < unwrapNumCols width) (hr : row < unwrapNumRows width) :
    unwrapColChecked width col row = some (unwrapCol width col row) ∧
    unwrapRowChecked width col row = some (unwrapRow width col row) ∧
    (width % 2 ≠ 0 → col ≥ usub width row → 1 ≤ row) := by
  replace hr := lt_of_lt_of_le hr (unwrapNumRows_le width)
  replace hc := lt_of_lt_of_le hc (unwrapNumCols_le width)
  have hrow : row ≤ width := by split_ifs at hr <;> omega
  have h1 : usubChecked width row = some (width - row) := by simp [usubChecked, hrow]
  have h2 : usub width row = width - row := by simp [usub, hrow]
  have h3 : usubChecked width 1 = some (width - 1) := by simp [usubChecked, hw]
  have h4 : usub width 1 = width - 1 := by simp [usub, hw]
  refine ⟨?_, ?_, ?_⟩
  · simp only [unwrapColChecked, unwrapCol, h1, h2]
    split_ifs with h
    · simp [usubChecked, usub, h]
    · rfl
  · simp only [unwrapRowChecked, unwrapRow, h1, h2, h3, h4]
    split_ifs at hr hc ⊢ with hev hge
    · have hle : row ≤ width - 1 := by omega
      simp [usubChecked, usub, hle]
    · rfl
    · rename_i hge'
      have hrow1 : 1 ≤ row := by omega
      have hle : row - 1 ≤ width - 1 := by omega
      simp [usubChecked, usub, hle, hrow1]
    · rfl
  · intro hodd hge
    rw [h2] at hge
    split_ifs at hr hc <;> omega

/-- Witness for C29 at width 5: the wrapped coordinate (4, 1). -/
theorem unwrap_subtractions_do_not_wrap_witness :
    1 ≤ 5 ∧ 4 < unwrapNumCols 5 ∧ 1 < unwrapNumRows 5 ∧
    (unwrapColChecked 5 4 1 = some (unwrapCol 5 4 1) ∧
     unwrapRowChecked 5 4 1 = some (unwrapRow 5 4 1) ∧
     (5 % 2 ≠ 0 → 4 ≥ usub 5 1 → 1 ≤ 1)) :=
  ⟨by decide, by decide, by decide,
    unwrap_subtractions_do_not_wrap 5 4 1 (by decide) (by decide) (by decide)⟩

/-! ### Jacobi against Gauss-Seidel, and the restriction loop -/

/-- C23: `P1Vertex::smooth_jac` reads the neighbor values from the separate source buffer tmp
and writes to dst only: the value it writes is
dst[0] = (rhs[0] - sum over i < numNeighborEdges of opr[i+1]*tmp[i+1]) / opr[0], it does not
depend on the previous content of the array dst (when dst is neither rhs nor tmp), and nothing
but dst[0] is modified; `P1Vertex::smooth_gs` computes the same expression from the ghost
entries of dst itself. -/
theorem smooth_jac_reads_tmp_only {R : Type} [Field R] (vertex : Vertex R)
    (operatorId dstId rhsId tmpId level : Nat) :
    ((P1Vertex.smooth_jac vertex operatorId dstId rhsId tmpId level).functionMemory dstId level 0
      = (vertex.functionMemory rhsId level 0
          - ∑ i in Finset.range vertex.numNeighborEdges,
              vertex.stencilMemory operatorId level (i + 1)
                * vertex.functionMemory tmpId level (i + 1))
        / vertex.stencilMemory operatorId level 0) ∧
    (dstId ≠ rhsId → dstId ≠ tmpId → ∀ previous : Nat → R,
      (P1Vertex.smooth_jac (vertex.setArray dstId level previous) operatorId dstId rhsId tmpId
          level).functionMemory dstId level 0
        = (P1Vertex.smooth_jac vertex operatorId dstId rhsId tmpId level).functionMemory
            dstId level 0) ∧
    Vertex.OnlyEntryZeroModified vertex
      (P1Vertex.smooth_jac vertex operatorId dstId rhsId tmpId level) dstId level ∧
    ((P1Vertex.smooth_gs vertex operatorId dstId rhsId level).functionMemory dstId level 0
      = (vertex.functionMemory rhsId level 0
          - ∑ i in Finset.range vertex.numNeighborEdges,
              vertex.stencilMemory operatorId level (i + 1)
                * vertex.functionMemory dstId level (i + 1))
        / vertex.stencilMemory operatorId level 0) := by
  refine ⟨smooth_jac_value vertex operatorId dstId rhsId tmpId level, ?_, ?_,
    smooth_gs_value vertex operatorId dstId rhsId level⟩
  · intro hrhs htmp previous
    rw [smooth_jac_value, smooth_jac_value]
    simp [Vertex.setArray, Ne.symm hrhs, Ne.symm htmp]
  · unfold P1Vertex.smooth_jac
    exact onlyEntryZeroModified_trans
      (onlyEntryZeroModified_trans (onlyEntryZeroModified_write vertex _ _ _)
        (onlyEntryZeroModified_foldl _ dstId level
          (fun v _ => onlyEntryZeroModified_write v _ _ _) _ _))
      (onlyEntryZeroModified_write _ _ _ _)

/-- The value that `P1Vertex::restrict` leaves in entry 0 of the coarse array: the fine entry
0 plus one half of the fine ghost entries 1, 3, 5, ... up to numNeighborEdges. -/
theorem restrict_value {R : Type} [Field R] (vertex : Vertex R) (memoryId level : Nat) :
    (P1Vertex.restrict vertex memoryId level).functionMemory memoryId (usub level 1) 0
      = vertex.functionMemory memoryId level 0
        + ∑ j in Finset.range ((vertex.numNeighborEdges + 1) / 2),
            1 / 2 * vertex.functionMemory memoryId level (2 * j + 1) := by
  unfold P1Vertex.restrict
  obtain ⟨h0, -⟩ := restrictLoop_spec memoryId level _ 0
    (vertex.write memoryId (usub level 1) 0 (vertex.functionMemory memoryId level 0)) rfl
  simp only []
  rw [h0]
  have hne : ∀ k, ¬ (memoryId = memoryId ∧ level = usub level 1 ∧ k = 0) :=
    fun k hk => usub_one_ne_self level hk.2.1.symm
  simp [vertex_write_functionMemory, vertex_write_numNeighborEdges, hne]

/-- C27, evaluated at a failing input: a vertex with two neighbor edges whose fine array
(level 1) holds (1, 2, 4).  `P1Vertex::restrict` leaves 1 + 2/2 = 2 in the coarse entry 0:
the second neighbor edge is skipped, whereas the transpose of linear prolongation gives
1 + (2 + 4)/2 = 4. -/
theorem restrict_skips_neighbor_edges :
    (P1Vertex.restrict
        ({ numNeighborEdges := 2, numNeighborFaces := 0,
           functionMemory := fun _ level i =>
             if level = 1 then (if i = 0 then 1 else if i = 1 then 2 else 4) else 0,
           stencilMemory := fun _ _ _ => 0 } : Vertex ℚ)
        0 1).functionMemory 0 0 0 = 2 ∧
    (1 : ℚ) + 1 / 2 * ∑ i in Finset.range 2,
        (fun i : Nat => if i = 0 then (1 : ℚ) else if i = 1 then 2 else 4) (i + 1) = 4 := by
  constructor
  · have h := restrict_value
      ({ numNeighborEdges := 2, numNeighborFaces := 0,
         functionMemory := fun _ level i =>
           if level = 1 then (if i = 0 then 1 else if i = 1 then 2 else 4) else 0,
         stencilMemory := fun _ _ _ => 0 } : Vertex ℚ) 0 1
    have hsub : usub 1 1 = 0 := by decide
    rw [hsub] at h
    rw [h]
    norm_num [Finset.sum_range_succ]
  · norm_num [Finset.sum_range_succ]

/-! ### EdgeIterator with an offset beyond the middle of the edge -/

/-- C28, evaluated at a failing input: `EdgeIterator( 3, 2 )` passes the assertion
`offsetToCenter < width`, but `width - 2 * offsetToCenter` wraps around to 2^64 - 1.  The
loop from `begin()` to `end()` does not end within fewer than 2^64 - 1 steps, it visits
2^64 - 1 coordinates, and the second of them has col = 3, which is not on the edge. -/
theorem edgeIterator_offset_wraps :
    ∃ range : EdgeIterator,
      EdgeIterator.new 3 2 false = some range ∧
      range.totalNumberOfDoFs_ = uintModulus - 1 ∧
      (∀ fuel, fuel < uintModulus - 1 → range.iterate fuel = none) ∧
      ∃ coords : List Index,
        range.iterate (uintModulus - 1) = some coords ∧
        coords.length = uintModulus - 1 ∧
        coords.take 2 = [{ col := 2, row := 0, dep := 0 }, { col := 3, row := 0, dep := 0 }] := by
  have htotal : usub 3 (2 * 2) = uintModulus - 1 := by decide
  have hsplit : uintModulus - 1 = 18446744073709551613 + 1 + 1 := by decide
  refine ⟨_, edgeIterator_new_begin 3 2 (by decide), htotal, ?_,
    (List.range' 2 (uintModulus - 1)).map (fun c => ({ col := c, row := 0, dep := 0 } : Index)),
    ?_, ?_, ?_⟩
  · intro fuel hfuel
    unfold EdgeIterator.iterate EdgeIterator.begin EdgeIterator.end_
    simp only [edgeIterator_new_begin 3 2 (by decide), edgeIterator_new_end 3 2 (by decide)]
    exact edgeIterator_forLoop_none _ fuel (uintModulus - 1) _ (by simp [htotal])
      (by simp) hfuel
  · unfold EdgeIterator.iterate EdgeIterator.begin EdgeIterator.end_
    simp only [edgeIterator_new_begin 3 2 (by decide), edgeIterator_new_end 3 2 (by decide)]
    exact edgeIterator_forLoop_eq _ (uintModulus - 1) (uintModulus - 1) _ (by simp [htotal])
      (by simp) (Nat.le_refl _)
  · rw [List.length_map, List.length_range']
  · rw [hsplit, List.range'_succ, List.range'_succ]
    rfl

/-! ### Local index queries for IDs outside the list -/

/-- The search loop of the local index queries returns the sentinel for an ID that the list
does not hold, and only then a value that is not below the length of the list. -/
theorem localIDLoop_not_mem (ids : List PrimitiveID) (id : PrimitiveID) (hmem : id ∉ ids) :
    Cell.localIDLoop ids id ids.length = uintMax := by
  have hspec := range_find_spec (fun i => ids[i]? == some id) ids.length
  unfold Cell.localIDLoop
  cases hfind : (List.range ids.length).find? (fun i => ids[i]? == some id) with
  | none => rfl
  | some k =>
    exfalso
    obtain ⟨hk, hpk, -⟩ := hspec.1 k hfind
    have hget : ids[k]? = some id := by simpa using hpk
    rw [List.getElem?_eq_getElem hk] at hget
    exact hmem (by rw [← Option.some.inj hget]; exact List.getElem_mem hk)

/-- A query that runs the search loop over a list of fewer than 2^64 - 1 entries when its
assertion holds, and does not return otherwise, returns the sentinel unless the ID is
listed. -/
theorem sentinelUnlessListed_of_loop (asserted : PrimitiveID → Bool) (ids : List PrimitiveID)
    (query : PrimitiveID → Option Nat) (hlen : ids.length < uintMax)
    (hmem : ∀ id ∈ ids, asserted id = true)
    (hq : ∀ id, query id
      = if asserted id then some (Cell.localIDLoop ids id ids.length) else none) :
    SentinelUnlessListed asserted ids ids.length query := by
  refine ⟨?_, ?_, ?_⟩
  · intro id
    constructor
    · rintro ⟨k, hk, hlt⟩
      by_contra hnot
      rw [hq id] at hk
      split_ifs at hk
      rw [localIDLoop_not_mem ids id hnot] at hk
      have := Option.some.inj hk
      omega
    · intro hin
      exact ⟨_, by rw [hq id, if_pos (hmem id hin)], (localIDLoop_spec ids id hin).1⟩
  · intro id hnot hass
    rw [hq id, if_pos hass, localIDLoop_not_mem ids id hnot]
  · intro id hass
    rw [hq id, hass]
    rfl

/-- C30, refuted as stated: the ID 99 is no neighbor of the reference tetrahedron (vertices
1..4, edges 5..10, faces 11..14); `getLocalFaceID( 99 )` fails the assertion
`neighborPrimitiveExists` instead of returning the sentinel. -/
theorem cell_local_id_sentinel_counterexample :
    ¬ (∀ (vertexIDs edgeIDs faceIDs : List PrimitiveID) (c : Cell ℚ),
        Cell.new (fun _ _ _ d => d) 0 vertexIDs edgeIDs faceIDs
          ![![0, 0, 0], ![1, 0, 0], ![0, 1, 0], ![0, 0, 1]]
          (fun _ => [(0, 0), (1, 1)]) (fun _ => [(0, 0), (1, 1), (2, 2)]) = some c →
        ∀ id, id ∉ c.neighborFaces_ → c.getLocalFaceID id = some uintMax) := by
  intro h
  have hsome : ∃ c : Cell ℚ,
      Cell.new (fun _ _ _ d => d) 0 [1, 2, 3, 4] [5, 6, 7, 8, 9, 10] [11, 12, 13, 14]
        ![![0, 0, 0], ![1, 0, 0], ![0, 1, 0], ![0, 0, 1]]
        (fun _ => [(0, 0), (1, 1)]) (fun _ => [(0, 0), (1, 1), (2, 2)]) = some c := by
    simp [Cell.new]
  obtain ⟨c, hc⟩ := hsome
  have h99 := h _ _ _ c hc 99
  unfold Cell.new at hc
  split_ifs at hc
  have hc' := Option.some.inj hc
  subst hc'
  simp [Cell.getLocalFaceID, Cell.neighborPrimitiveExists] at h99

/-- C30, amended: for every constructed Cell, `getLocalFaceID`, `getLocalEdgeID` and
`getLocalVertexID` return a valid local index (below 4, 6 and 4) exactly for the IDs of the
face, edge and vertex list; for every other ID that passes the assertion
`neighborPrimitiveExists` (a neighbor of a different kind) they return
`std::numeric_limits< uint_t >::max()`; and for an ID that is no neighbor of the cell the
assertion fails. -/
theorem cell_local_ids_sentinel {R : Type}
    (normal : Point3D R → Point3D R → Point3D R → Point3D R → Point3D R)
    (primitiveID : PrimitiveID) (vertexIDs edgeIDs faceIDs : List PrimitiveID)
    (coordinates : Fin 4 → Point3D R) (edgeMaps : Fin 6 → LocalVertexMap)
    (faceMaps : Fin 4 → LocalVertexMap) (c : Cell R)
    (hc : Cell.new normal primitiveID vertexIDs edgeIDs faceIDs coordinates edgeMaps faceMaps
      = some c) :
    SentinelUnlessListed c.neighborPrimitiveExists c.neighborFaces_ 4 c.getLocalFaceID ∧
    SentinelUnlessListed c.neighborPrimitiveExists c.neighborEdges_ 6 c.getLocalEdgeID ∧
    SentinelUnlessListed c.neighborPrimitiveExists c.neighborVertices_ 4 c.getLocalVertexID := by
  unfold Cell.new at hc
  split_ifs at hc with h
  obtain ⟨hv, he, hf, -⟩ := h
  have hcv : c.neighborVertices_ = vertexIDs := by rw [← Option.some.inj hc]
  have hce : c.neighborEdges_ = edgeIDs := by rw [← Option.some.inj hc]
  have hcf : c.neighborFaces_ = faceIDs := by rw [← Option.some.inj hc]
  have hlv : c.neighborVertices_.length = 4 := by rw [hcv, hv]
  have hle : c.neighborEdges_.length = 6 := by rw [hce, he]
  have hlf : c.neighborFaces_.length = 4 := by rw [hcf, hf]
  have hmax : (6 : Nat) < uintMax := by decide
  refine ⟨?_, ?_, ?_⟩
  · rw [← hlf]
    apply sentinelUnlessListed_of_loop
    · rw [hlf]; omega
    · intro id hmem
      simp [Cell.neighborPrimitiveExists, hmem]
    · intro id
      simp [Cell.getLocalFaceID, hlf]
  · rw [← hle]
    apply sentinelUnlessListed_of_loop
    · rw [hle]; exact hmax
    · intro id hmem
      simp [Cell.neighborPrimitiveExists, hmem]
    · intro id
      simp [Cell.getLocalEdgeID, hle]
  · rw [← hlv]
    apply sentinelUnlessListed_of_loop
    · rw [hlv]; omega
    · intro id hmem
      simp [Cell.neighborPrimitiveExists, hmem]
    · intro id
      simp [Cell.getLocalVertexID, Cell.getNumNeighborVertices]

/-- Witness for the amended C30: the reference tetrahedron with vertices 1..4, edges 5..10
and faces 11..14. -/
theorem cell_local_ids_sentinel_witness :
    ∃ c : Cell ℚ,
      Cell.new (fun _ _ _ d => d) 0 [1, 2, 3, 4] [5, 6, 7, 8, 9, 10] [11, 12, 13, 14]
        ![![0, 0, 0], ![1, 0, 0], ![0, 1, 0], ![0, 0, 1]]
        (fun _ => [(0, 0), (1, 1)]) (fun _ => [(0, 0), (1, 1), (2, 2)]) = some c ∧
      (SentinelUnlessListed c.neighborPrimitiveExists c.neighborFaces_ 4 c.getLocalFaceID ∧
       SentinelUnlessListed c.neighborPrimitiveExists c.neighborEdges_ 6 c.getLocalEdgeID ∧
       SentinelUnlessListed c.neighborPrimitiveExists c.neighborVertices_ 4
         c.getLocalVertexID) := by
  have hsome : ∃ c : Cell ℚ,
      Cell.new (fun _ _ _ d => d) 0 [1, 2, 3, 4] [5, 6, 7, 8, 9, 10] [11, 12, 13, 14]
        ![![0, 0, 0], ![1, 0, 0], ![0, 1, 0], ![0, 0, 1]]
        (fun _ => [(0, 0), (1, 1)]) (fun _ => [(0, 0), (1, 1), (2, 2)]) = some c := by
    simp [Cell.new]
  obtain ⟨c, hc⟩ := hsome
  exact ⟨c, hc, cell_local_ids_sentinel _ _ _ _ _ _ _ _ c hc⟩

/-! ### P1ProjectNormalOperator -/

open P1ProjectNormalOperator in
theorem forEach_eq {α : Type} (xs : List α) (body : α → List Event) (log : List Event) :
    forEach xs body log = log ++ xs.flatMap body := by
  unfold forEach
  induction xs generalizing log with
  | nil => simp
  | cons x xs ih => simp [List.foldl_cons, ih, List.flatMap_cons, List.append_assoc]

open P1ProjectNormalOperator in
theorem forEachOrAbort_returned {α : Type} (xs : List α) (body : α → Outcome (List Event))
    (g : α → List Event) (log : List Event)
    (hbody : ∀ x ∈ xs, body x = Outcome.returned (g x)) :
    forEachOrAbort xs body (Outcome.returned log) = Outcome.returned (log ++ xs.flatMap g) := by
  unfold forEachOrAbort
  induction xs generalizing log with
  | nil => simp
  | cons x xs ih =>
    rw [List.foldl_cons, hbody x (List.mem_cons_self _ _)]
    simp only []
    rw [ih _ (fun y hy => hbody y (List.mem_cons_of_mem _ hy))]
    simp [List.flatMap_cons, List.append_assoc]

theorem flatMap_ite_singleton {α β : Type} (xs : List α) (sel : α → Bool) (ev : α → β) :
    xs.flatMap (fun x => if sel x then [ev x] else []) = (xs.filter sel).map ev := by
  induction xs with
  | nil => simp
  | cons x xs ih =>
    rw [List.flatMap_cons, ih]
    cases h : sel x <;> simp [List.filter_cons, h]

open P1ProjectNormalOperator in
theorem project_kernels_eq (storage : PrimitiveStorage) (getBoundaryType : Nat → Nat)
    (testFlag : Nat → Nat → Bool) (level flag : Nat) (log : List Event) :
    forEach storage.faces (projectFace storage getBoundaryType testFlag level flag)
      (forEach storage.edges (projectEdge storage getBoundaryType testFlag level flag)
        (forEach storage.vertices (projectVertex storage getBoundaryType testFlag level flag)
          log))
      = log
        ++ (storage.vertices.filter
              (fun p => testFlag (getBoundaryType p.meshBoundaryFlag) flag)).map
            (fun p =>
              if storage.hasGlobalCells then
                Event.projectNormal3D PrimitiveKind.vertex p.id level [0, 1, 2]
              else Event.projectNormal2D PrimitiveKind.vertex p.id level [0, 1])
        ++ (storage.edges.filter
              (fun p => testFlag (getBoundaryType p.meshBoundaryFlag) flag)).map
            (fun p =>
              if storage.hasGlobalCells then
                Event.projectNormal3D PrimitiveKind.edge p.id level [0, 1, 2]
              else Event.projectNormal2D PrimitiveKind.edge p.id level [0, 1])
        ++ (if storage.hasGlobalCells then
              (storage.faces.filter
                (fun p => testFlag (getBoundaryType p.meshBoundaryFlag) flag)).map
                (fun p => Event.projectNormal3D PrimitiveKind.face p.id level [0, 1, 2])
            else []) := by
  rw [forEach_eq, forEach_eq, forEach_eq]
  have hv : storage.vertices.flatMap (projectVertex storage getBoundaryType testFlag level flag)
      = (storage.vertices.filter
              (fun p => testFlag (getBoundaryType p.meshBoundaryFlag) flag)).map
            (fun p =>
              if storage.hasGlobalCells then
                Event.projectNormal3D PrimitiveKind.vertex p.id level [0, 1, 2]
              else Event.projectNormal2D PrimitiveKind.vertex p.id level [0, 1]) := by
    rw [← flatMap_ite_singleton]
    congr 1
    funext p
    unfold projectVertex
    cases storage.hasGlobalCells <;> simp
  have he : storage.edges.flatMap (projectEdge storage getBoundaryType testFlag level flag)
      = (storage.edges.filter
              (fun p => testFlag (getBoundaryType p.meshBoundaryFlag) flag)).map
            (fun p =>
              if storage.hasGlobalCells then
                Event.projectNormal3D PrimitiveKind.edge p.id level [0, 1, 2]
              else Event.projectNormal2D PrimitiveKind.edge p.id level [0, 1]) := by
    rw [← flatMap_ite_singleton]
    congr 1
    funext p
    unfold projectEdge
    cases storage.hasGlobalCells <;> simp
  have hf : storage.faces.flatMap (projectFace storage getBoundaryType testFlag level flag)
      = (if storage.hasGlobalCells then
              (storage.faces.filter
                (fun p => testFlag (getBoundaryType p.meshBoundaryFlag) flag)).map
                (fun p => Event.projectNormal3D PrimitiveKind.face p.id level [0, 1, 2])
            else []) := by
    cases hg : storage.hasGlobalCells
    · simp [projectFace, hg]
    · rw [if_pos rfl, ← flatMap_ite_singleton]
      congr 1
      funext p
      simp [projectFace, hg]
  rw [hv, he, hf]

open P1ProjectNormalOperator in
/-- C24: `project` on a `P1VectorFunction` and on a `P1StokesFunction` issues, for every velocity
component in turn, the communications Vertex->Edge, Edge->Face, Face->Cell, then for every
component in turn Cell->Face, Face->Edge, Edge->Vertex, and only after all of these the
projection kernels, first those on the vertices, then those on the edges, then those on the
faces. -/
theorem project_communicates_before_kernels (storage : PrimitiveStorage) (dimension : Nat)
    (getBoundaryType : Nat → Nat) (testFlag : Nat → Nat → Bool) (level flag : Nat) :
    projectVectorFunction storage dimension getBoundaryType testFlag level flag
      = (List.range dimension).flatMap
          (fun k =>
            [Event.communicate k PrimitiveKind.vertex PrimitiveKind.edge level,
             Event.communicate k PrimitiveKind.edge PrimitiveKind.face level,
             Event.communicate k PrimitiveKind.face PrimitiveKind.cell level])
        ++ (List.range dimension).flatMap
          (fun k =>
            [Event.communicate k PrimitiveKind.cell PrimitiveKind.face level,
             Event.communicate k PrimitiveKind.face PrimitiveKind.edge level,
             Event.communicate k PrimitiveKind.edge PrimitiveKind.vertex level])
        ++ (storage.vertices.filter
              (fun p => testFlag (getBoundaryType p.meshBoundaryFlag) flag)).map
            (fun p =>
              if storage.hasGlobalCells then
                Event.projectNormal3D PrimitiveKind.vertex p.id level [0, 1, 2]
              else Event.projectNormal2D PrimitiveKind.vertex p.id level [0, 1])
        ++ (storage.edges.filter
              (fun p => testFlag (getBoundaryType p.meshBoundaryFlag) flag)).map
            (fun p =>
              if storage.hasGlobalCells then
                Event.projectNormal3D PrimitiveKind.edge p.id level [0, 1, 2]
              else Event.projectNormal2D PrimitiveKind.edge p.id level [0, 1])
        ++ (if storage.hasGlobalCells then
              (storage.faces.filter
                (fun p => testFlag (getBoundaryType p.meshBoundaryFlag) flag)).map
                (fun p => Event.projectNormal3D PrimitiveKind.face p.id level [0, 1, 2])
            else [])
    ∧ projectStokesFunction storage dimension getBoundaryType testFlag level flag
        = projectVectorFunction storage dimension getBoundaryType testFlag level flag := by
  refine ⟨?_, rfl⟩
  unfold projectVectorFunction
  simp only []
  rw [project_kernels_eq, forEach_eq, forEach_eq, List.nil_append]

open P1ProjectNormalOperator in
/-- C25: `project` on three components runs a normal-projection kernel on exactly the vertices,
edges and faces whose boundary type tests positive against the flag, each once and in storage
order, and issues nothing else; the kernels are the 3D ones on the three components when the
storage has global cells, and otherwise the 2D ones on the first two components for vertices and
edges and none for faces. -/
theorem project_selects_flagged_primitives (storage : PrimitiveStorage)
    (getBoundaryType : Nat → Nat) (testFlag : Nat → Nat → Bool) (level flag : Nat) :
    project storage getBoundaryType testFlag level flag
      = (storage.vertices.filter
              (fun p => testFlag (getBoundaryType p.meshBoundaryFlag) flag)).map
            (fun p =>
              if storage.hasGlobalCells then
                Event.projectNormal3D PrimitiveKind.vertex p.id level [0, 1, 2]
              else Event.projectNormal2D PrimitiveKind.vertex p.id level [0, 1])
        ++ (storage.edges.filter
              (fun p => testFlag (getBoundaryType p.meshBoundaryFlag) flag)).map
            (fun p =>
              if storage.hasGlobalCells then
                Event.projectNormal3D PrimitiveKind.edge p.id level [0, 1, 2]
              else Event.projectNormal2D PrimitiveKind.edge p.id level [0, 1])
        ++ (if storage.hasGlobalCells then
              (storage.faces.filter
                (fun p => testFlag (getBoundaryType p.meshBoundaryFlag) flag)).map
                (fun p => Event.projectNormal3D PrimitiveKind.face p.id level [0, 1, 2])
            else []) := by
  unfold project
  simp only []
  rw [project_kernels_eq, List.nil_append]

open P1ProjectNormalOperator in
theorem forEachOrAbort_aborted {α : Type} (xs : List α) (body : α → Outcome (List Event))
    (message : String) :
    forEachOrAbort xs body (Outcome.aborted message) = Outcome.aborted message := by
  unfold forEachOrAbort
  induction xs with
  | nil => rfl
  | cons x xs ih => rw [List.foldl_cons]; exact ih

open P1ProjectNormalOperator in
theorem forEachOrAbort_aborts {α : Type} (xs : List α) (body : α → Outcome (List Event))
    (message : String) (log : List Event)
    (hbody : ∀ x ∈ xs, (∃ events, body x = Outcome.returned events)
      ∨ body x = Outcome.aborted message)
    (hex : ∃ x ∈ xs, body x = Outcome.aborted message) :
    forEachOrAbort xs body (Outcome.returned log) = Outcome.aborted message := by
  induction xs generalizing log with
  | nil =>
    obtain ⟨x, hx, _⟩ := hex
    cases hx
  | cons x xs ih =>
    rcases hbody x (List.mem_cons_self _ _) with ⟨events, hret⟩ | habort
    · have hex2 : ∃ y ∈ xs, body y = Outcome.aborted message := by
        obtain ⟨y, hy, hyb⟩ := hex
        rcases List.mem_cons.mp hy with rfl | hy2
        · rw [hret] at hyb
          cases hyb
        · exact ⟨y, hy2, hyb⟩
      have hstep : forEachOrAbort (x :: xs) body (Outcome.returned log)
          = forEachOrAbort xs body (Outcome.returned (log ++ events)) := by
        unfold forEachOrAbort
        rw [List.foldl_cons, hret]
      rw [hstep]
      exact ih _ (fun y hy => hbody y (List.mem_cons_of_mem _ hy)) hex2
    · have hstep : forEachOrAbort (x :: xs) body (Outcome.returned log)
          = forEachOrAbort xs body (Outcome.aborted message) := by
        unfold forEachOrAbort
        rw [List.foldl_cons, habort]
      rw [hstep]
      exact forEachOrAbort_aborted xs body message

open P1ProjectNormalOperator in
theorem toMatrixVertex_eq (storage : PrimitiveStorage)
    (dstBoundaryType numBoundaryType : Nat → Nat) (testFlag : Nat → Nat → Bool)
    (level flag : Nat) (p : MacroPrimitive)
    (hb : numBoundaryType p.meshBoundaryFlag = dstBoundaryType p.meshBoundaryFlag) :
    toMatrixVertex storage numBoundaryType testFlag level flag p
      = Outcome.returned
         (if (projectVertex storage dstBoundaryType testFlag level flag p).isEmpty then
            [Event.saveIdentityOperator PrimitiveKind.vertex p.id 0 level,
             Event.saveIdentityOperator PrimitiveKind.vertex p.id 1 level]
            ++ (if storage.hasGlobalCells then
                  [Event.saveIdentityOperator PrimitiveKind.vertex p.id 2 level]
                else [])
          else
            (projectVertex storage dstBoundaryType testFlag level flag p).map Event.toSaved) := by
  unfold toMatrixVertex projectVertex
  cases hg : storage.hasGlobalCells <;>
    cases ht : testFlag (dstBoundaryType p.meshBoundaryFlag) flag <;>
      simp [Event.toSaved, hg, ht, hb]

open P1ProjectNormalOperator in
theorem toMatrixEdge_eq (storage : PrimitiveStorage)
    (dstBoundaryType numBoundaryType : Nat → Nat) (testFlag : Nat → Nat → Bool)
    (level flag : Nat) (p : MacroPrimitive)
    (hb : numBoundaryType p.meshBoundaryFlag = dstBoundaryType p.meshBoundaryFlag) :
    toMatrixEdge storage numBoundaryType testFlag level flag p
      = Outcome.returned
         (if (projectEdge storage dstBoundaryType testFlag level flag p).isEmpty then
            [Event.saveIdentityOperator PrimitiveKind.edge p.id 0 level,
             Event.saveIdentityOperator PrimitiveKind.edge p.id 1 level]
            ++ (if storage.hasGlobalCells then
                  [Event.saveIdentityOperator PrimitiveKind.edge p.id 2 level]
                else [])
          else
            (projectEdge storage dstBoundaryType testFlag level flag p).map Event.toSaved) := by
  unfold toMatrixEdge projectEdge
  cases hg : storage.hasGlobalCells <;>
    cases ht : testFlag (dstBoundaryType p.meshBoundaryFlag) flag <;>
      simp [Event.toSaved, hg, ht, hb]

open P1ProjectNormalOperator in
theorem toMatrixFace_eq (storage : PrimitiveStorage)
    (dstBoundaryType numBoundaryType : Nat → Nat) (testFlag : Nat → Nat → Bool)
    (level flag : Nat) (p : MacroPrimitive)
    (hb : numBoundaryType p.meshBoundaryFlag = dstBoundaryType p.meshBoundaryFlag)
    (hface : storage.hasGlobalCells = true
      ∨ testFlag (dstBoundaryType p.meshBoundaryFlag) flag = false) :
    toMatrixFace storage numBoundaryType testFlag level flag p
      = Outcome.returned
         (if (projectFace storage dstBoundaryType testFlag level flag p).isEmpty then
            [Event.saveIdentityOperator PrimitiveKind.face p.id 0 level,
             Event.saveIdentityOperator PrimitiveKind.face p.id 1 level]
            ++ (if storage.hasGlobalCells then
                  [Event.saveIdentityOperator PrimitiveKind.face p.id 2 level]
                else [])
          else
            (projectFace storage dstBoundaryType testFlag level flag p).map Event.toSaved) := by
  unfold toMatrixFace projectFace
  rcases hface with hg | ht
  · cases ht : testFlag (dstBoundaryType p.meshBoundaryFlag) flag <;>
      simp [Event.toSaved, hg, ht, hb]
  · cases hg : storage.hasGlobalCells <;> simp [Event.toSaved, hg, ht, hb]

open P1ProjectNormalOperator in
theorem toMatrixFace_returned_or_aborted (storage : PrimitiveStorage)
    (numBoundaryType : Nat → Nat) (testFlag : Nat → Nat → Bool) (level flag : Nat)
    (p : MacroPrimitive) :
    (∃ events, toMatrixFace storage numBoundaryType testFlag level flag p
        = Outcome.returned events)
    ∨ toMatrixFace storage numBoundaryType testFlag level flag p
        = Outcome.aborted "Normal projection for inner primitives?" := by
  unfold toMatrixFace
  cases hg : storage.hasGlobalCells <;>
    cases ht : testFlag (numBoundaryType p.meshBoundaryFlag) flag <;>
      simp [hg, ht]

open P1ProjectNormalOperator in
theorem toMatrixFace_aborts (storage : PrimitiveStorage)
    (numBoundaryType : Nat → Nat) (testFlag : Nat → Nat → Bool) (level flag : Nat)
    (p : MacroPrimitive) (hg : storage.hasGlobalCells = false)
    (ht : testFlag (numBoundaryType p.meshBoundaryFlag) flag = true) :
    toMatrixFace storage numBoundaryType testFlag level flag p
      = Outcome.aborted "Normal projection for inner primitives?" := by
  unfold toMatrixFace
  simp [hg, ht]

open P1ProjectNormalOperator in
/-- C26, counterexample: on a storage without global cells that holds one face whose boundary
type tests positive, `project` runs no kernel at all, yet `toMatrix` does not complete: it aborts
with the message "Normal projection for inner primitives?". -/
theorem toMatrix_aborts_on_flagged_face_2D :
    project ⟨[], [], [⟨7, 1⟩], [], false⟩ id (fun bc flag => bc == flag) 2 1 = []
    ∧ toMatrix ⟨[], [], [⟨7, 1⟩], [], false⟩ id (fun bc flag => bc == flag) 2 1
        = Outcome.aborted "Normal projection for inner primitives?"
    ∧ ¬ ∃ events, toMatrix ⟨[], [], [⟨7, 1⟩], [], false⟩ id (fun bc flag => bc == flag) 2 1
        = Outcome.returned events := by
  refine ⟨by decide, by decide, ?_⟩
  rintro ⟨events, h⟩
  have h2 : toMatrix ⟨[], [], [⟨7, 1⟩], [], false⟩ id (fun bc flag => bc == flag) 2 1
      = Outcome.aborted "Normal projection for inner primitives?" := by decide
  rw [h2] at h
  cases h

open P1ProjectNormalOperator in
/-- C26, amended: let the boundary condition of the enumeration numU, which `toMatrix` reads,
give every vertex, edge and face of the storage the boundary type that the boundary condition
of dst_u, which `project` reads, gives it.  When the storage has global cells or no face tests
positive against the flag, `toMatrix` completes: after synchronising the three enumerations it
saves, in storage order, for each vertex, edge and face either the normal-projection block
that stands for the kernel which `project` runs on it, or, when `project` runs no kernel on
it, identity rows for u, v and (iff the storage has global cells) w; for each cell it saves
identity rows for u, v and w.  In every other case, that is on a storage without global cells
with a face that tests positive, `toMatrix` aborts with the message
"Normal projection for inner primitives?". -/
theorem toMatrix_matches_project (storage : PrimitiveStorage)
    (dstBoundaryType numBoundaryType : Nat → Nat) (testFlag : Nat → Nat → Bool)
    (level flag : Nat)
    (hbc : ∀ p, p ∈ storage.vertices ∨ p ∈ storage.edges ∨ p ∈ storage.faces →
      numBoundaryType p.meshBoundaryFlag = dstBoundaryType p.meshBoundaryFlag) :
    toMatrix storage numBoundaryType testFlag level flag
      = if storage.hasGlobalCells = true
            ∨ ∀ f ∈ storage.faces, testFlag (dstBoundaryType f.meshBoundaryFlag) flag = false
        then
          Outcome.returned
            ([Event.syncFunctionBetweenPrimitives 0 level,
              Event.syncFunctionBetweenPrimitives 1 level,
              Event.syncFunctionBetweenPrimitives 2 level]
            ++ storage.vertices.flatMap
                (fun p =>
                  if (projectVertex storage dstBoundaryType testFlag level flag p).isEmpty then
                    [Event.saveIdentityOperator PrimitiveKind.vertex p.id 0 level,
                     Event.saveIdentityOperator PrimitiveKind.vertex p.id 1 level]
                    ++ (if storage.hasGlobalCells then
                          [Event.saveIdentityOperator PrimitiveKind.vertex p.id 2 level]
                        else [])
                  else
                    (projectVertex storage dstBoundaryType testFlag level flag p).map
                      Event.toSaved)
            ++ storage.edges.flatMap
                (fun p =>
                  if (projectEdge storage dstBoundaryType testFlag level flag p).isEmpty then
                    [Event.saveIdentityOperator PrimitiveKind.edge p.id 0 level,
                     Event.saveIdentityOperator PrimitiveKind.edge p.id 1 level]
                    ++ (if storage.hasGlobalCells then
                          [Event.saveIdentityOperator PrimitiveKind.edge p.id 2 level]
                        else [])
                  else
                    (projectEdge storage dstBoundaryType testFlag level flag p).map
                      Event.toSaved)
            ++ storage.faces.flatMap
                (fun p =>
                  if (projectFace storage dstBoundaryType testFlag level flag p).isEmpty then
                    [Event.saveIdentityOperator PrimitiveKind.face p.id 0 level,
                     Event.saveIdentityOperator PrimitiveKind.face p.id 1 level]
                    ++ (if storage.hasGlobalCells then
                          [Event.saveIdentityOperator PrimitiveKind.face p.id 2 level]
                        else [])
                  else
                    (projectFace storage dstBoundaryType testFlag level flag p).map
                      Event.toSaved)
            ++ storage.cells.flatMap
                (fun p =>
                  [Event.saveIdentityOperator PrimitiveKind.cell p.id 0 level,
                   Event.saveIdentityOperator PrimitiveKind.cell p.id 1 level,
                   Event.saveIdentityOperator PrimitiveKind.cell p.id 2 level]))
        else Outcome.aborted "Normal projection for inner primitives?" := by
  by_cases hcond : storage.hasGlobalCells = true
      ∨ ∀ f ∈ storage.faces, testFlag (dstBoundaryType f.meshBoundaryFlag) flag = false
  · rw [if_pos hcond]
    unfold toMatrix
    simp only []
    rw [forEachOrAbort_returned storage.vertices _ _ _
          (fun p hp => toMatrixVertex_eq storage dstBoundaryType numBoundaryType testFlag
            level flag p (hbc p (Or.inl hp))),
        forEachOrAbort_returned storage.edges _ _ _
          (fun p hp => toMatrixEdge_eq storage dstBoundaryType numBoundaryType testFlag
            level flag p (hbc p (Or.inr (Or.inl hp)))),
        forEachOrAbort_returned storage.faces _ _ _
          (fun p hp => toMatrixFace_eq storage dstBoundaryType numBoundaryType testFlag
            level flag p (hbc p (Or.inr (Or.inr hp)))
            (hcond.imp id (fun hnone => hnone p hp))),
        forEachOrAbort_returned storage.cells (toMatrixCell level)
          (fun p =>
            [Event.saveIdentityOperator PrimitiveKind.cell p.id 0 level,
             Event.saveIdentityOperator PrimitiveKind.cell p.id 1 level,
             Event.saveIdentityOperator PrimitiveKind.cell p.id 2 level]) _
          (fun p _ => rfl)]
  · rw [if_neg hcond]
    have hg : storage.hasGlobalCells = false := by
      cases h : storage.hasGlobalCells
      · rfl
      · exact absurd (Or.inl h) hcond
    have hex : ∃ f ∈ storage.faces,
        toMatrixFace storage numBoundaryType testFlag level flag f
          = Outcome.aborted "Normal projection for inner primitives?" := by
      by_contra hno
      apply hcond
      right
      intro f hf
      cases ht : testFlag (dstBoundaryType f.meshBoundaryFlag) flag
      · rfl
      · exfalso
        apply hno
        refine ⟨f, hf, toMatrixFace_aborts storage numBoundaryType testFlag level flag f hg ?_⟩
        rw [hbc f (Or.inr (Or.inr hf))]
        exact ht
    unfold toMatrix
    simp only []
    rw [forEachOrAbort_returned storage.vertices _ _ _
          (fun p hp => toMatrixVertex_eq storage dstBoundaryType numBoundaryType testFlag
            level flag p (hbc p (Or.inl hp))),
        forEachOrAbort_returned storage.edges _ _ _
          (fun p hp => toMatrixEdge_eq storage dstBoundaryType numBoundaryType testFlag
            level flag p (hbc p (Or.inr (Or.inl hp)))),
        forEachOrAbort_aborts storage.faces _ "Normal projection for inner primitives?" _
          (fun p _ => toMatrixFace_returned_or_aborted storage numBoundaryType testFlag
            level flag p) hex,
        forEachOrAbort_aborted]

open P1ProjectNormalOperator in
/-- Witness for the amended C26: on a storage without global cells with one flagged vertex,
one unflagged edge, one unflagged face and no cell, `toMatrix` saves the 2D block of the
vertex and identity rows for u and v on the edge and the face; with a second, flagged face it
aborts. -/
theorem toMatrix_matches_project_witness :
    toMatrix ⟨[⟨1, 1⟩], [⟨2, 0⟩], [⟨3, 0⟩], [], false⟩ id (fun bc flag => bc == flag) 2 1
      = Outcome.returned
          [Event.syncFunctionBetweenPrimitives 0 2,
           Event.syncFunctionBetweenPrimitives 1 2,
           Event.syncFunctionBetweenPrimitives 2 2,
           Event.saveProjectNormalOperator2D PrimitiveKind.vertex 1 2 [0, 1],
           Event.saveIdentityOperator PrimitiveKind.edge 2 0 2,
           Event.saveIdentityOperator PrimitiveKind.edge 2 1 2,
           Event.saveIdentityOperator PrimitiveKind.face 3 0 2,
           Event.saveIdentityOperator PrimitiveKind.face 3 1 2]
    ∧ toMatrix ⟨[⟨1, 1⟩], [⟨2, 0⟩], [⟨3, 0⟩, ⟨4, 1⟩], [], false⟩ id
        (fun bc flag => bc == flag) 2 1
      = Outcome.aborted "Normal projection for inner primitives?" := by
  constructor
  · rw [toMatrix_matches_project ⟨[⟨1, 1⟩], [⟨2, 0⟩], [⟨3, 0⟩], [], false⟩ id id
      (fun bc flag => bc == flag) 2 1 (fun _ _ => rfl)]
    decide
  · rw [toMatrix_matches_project ⟨[⟨1, 1⟩], [⟨2, 0⟩], [⟨3, 0⟩, ⟨4, 1⟩], [], false⟩ id id
      (fun bc flag => bc == flag) 2 1 (fun _ _ => rfl)]
    decide

end hyteg
